import Mathlib

/-!
# R-Car VSP1 display lists

A shallow embedding of `drivers/media/platform/vsp1/vsp1_dl.c`.

Modelling conventions.

* A `struct vsp1_dl_list *` is a handle (a natural number); the objects live in
  the store `vsp1_dl_manager.lists`.  A nullable pointer is an `Option`.
* The DMA buffer of a body is a map from byte offsets to 32-bit words.  The
  header, the extended body and the address table of a header-mode list live in
  the buffer of `body0`, at the byte offsets computed by `vsp1_dl_list_alloc`.
* The kernel lists `free`, `fragments` and `gc_fragments` are sequences:
  `list_add_tail` appends, `list_first_entry` + `list_del` pops the head,
  `list_splice_init(a, b)` puts `a` in front of `b` and empties `a`.  This is
  exact as long as a node is linked in at most one place, which the invariant
  theorems below establish for the traces they speak about.  For the free pool
  the ring of `next` and `prev` pointers is modelled as well (`pool_ring`), with
  the refinement between the two views and the effect of a double insertion.
* The `chain` node of a list is kept at pointer level (`next`, `prev`), because
  `vsp1_dl_list_fill_header` inspects the node of a chained child.
* Functions that can dereference a null pointer or recurse without bound return
  an `Option`; `none` stands for "does not return normally".  The recursion of
  `__vsp1_dl_list_put` and the ring traversals are bounded by a fuel argument.
* `vsp1_dl_fragment_free` appends the released body to a log, so that the run
  of the garbage collector can be compared with the retirement queue.
* Constants and helpers that come from headers outside this file
  (`vsp1_regs.h`, `vsp1.h`) are fields of `vsp1_regs` and `vsp1_device`.
-/

namespace Vsp1

/-! ## Constants and layout -/

/-- The `#define VSP1_DL_NUM_ENTRIES 256`. -/
def VSP1_DL_NUM_ENTRIES : Nat := 256

/-- The `#define VSP1_DL_EXT_OFFSET 0x1000`. -/
def VSP1_DL_EXT_OFFSET : Nat := 0x1000

/-- The `#define VSP1_DLH_INT_ENABLE (1 << 1)`. -/
def VSP1_DLH_INT_ENABLE : Nat := 1 <<< 1

/-- The `#define VSP1_DLH_AUTO_START (1 << 0)`. -/
def VSP1_DLH_AUTO_START : Nat := 1 <<< 0

/-- Truncation of a value to a `u32`. -/
def u32 (x : Nat) : Nat := x % 2 ^ 32

/-- Size of `struct vsp1_dl_entry` (two packed `u32`). -/
def sizeof_vsp1_dl_entry : Nat := 8

/-- Size of `struct vsp1_dl_header_list` (two packed `u32`). -/
def sizeof_vsp1_dl_header_list : Nat := 8

/-- Size of the packed `struct vsp1_dl_header`: 1 + 16 + 2 + 5 words. -/
def sizeof_vsp1_dl_header : Nat := 96

/-- Byte offset of `num_lists` in `struct vsp1_dl_header`. -/
def HDR_NUM_LISTS : Nat := 0

/-- Byte offset of `lists[i].num_bytes` in `struct vsp1_dl_header`. -/
def HDR_LIST_NUM_BYTES (i : Nat) : Nat := 4 + 8 * i

/-- Byte offset of `lists[i].addr` in `struct vsp1_dl_header`. -/
def HDR_LIST_ADDR (i : Nat) : Nat := 8 + 8 * i

/-- Byte offset of `next_header` in `struct vsp1_dl_header`. -/
def HDR_NEXT_HEADER : Nat := 68

/-- Byte offset of `flags` in `struct vsp1_dl_header`. -/
def HDR_FLAGS : Nat := 72

/-- Byte offset of `zero_bits` in `struct vsp1_dl_header`. -/
def HDR_ZERO_BITS : Nat := 76

/-- Byte offset of `pre_post_num` in `struct vsp1_dl_header`. -/
def HDR_PRE_POST_NUM : Nat := 80

/-- Byte offset of `pre_ext_dl_plist` in `struct vsp1_dl_header`. -/
def HDR_PRE_EXT_DL_PLIST : Nat := 84

/-- Byte offset of `post_ext_dl_num_cmd` in `struct vsp1_dl_header`. -/
def HDR_POST_EXT_DL_NUM_CMD : Nat := 88

/-- Byte offset of `post_ext_dl_p_list` in `struct vsp1_dl_header`. -/
def HDR_POST_EXT_DL_P_LIST : Nat := 92

/-- Byte offset of `ext_dl_cmd[i]` in `struct vsp1_ext_dl_body`. -/
def EXT_DL_CMD (i : Nat) : Nat := 4 * i

/-- Byte offset of `ext_dl_data[i]` in `struct vsp1_ext_dl_body`. -/
def EXT_DL_DATA (i : Nat) : Nat := 8 + 4 * i

/-- The C macro `ALIGN(x, a)` for a power of two `a`. -/
def ALIGN (x a : Nat) : Nat := (x + (a - 1)) / a * a

/-- A 32-bit store at byte offset `off` of a DMA buffer. -/
def store32 (m : Nat → Nat) (off v : Nat) : Nat → Nat :=
  fun a => if a = off then u32 v else m a

/-- The call `memset(p, 0, len)` on a DMA buffer, `p` at byte offset `off`. -/
def memset0 (m : Nat → Nat) (off len : Nat) : Nat → Nat :=
  fun a => if off ≤ a ∧ a < off + len then 0 else m a

/-! ## Data model -/

/-- The `enum vsp1_dl_mode`. -/
inductive vsp1_dl_mode where
  | VSP1_DL_MODE_HEADER
  | VSP1_DL_MODE_HEADERLESS
  deriving DecidableEq, Repr

/-- A `struct list_head` whose neighbours are display lists (the `chain` node).
`none` is a null pointer, as left by `kzalloc`. -/
structure list_head where
  next : Option Nat
  prev : Option Nat
  deriving DecidableEq, Repr

/-- The `struct vsp1_dl_body`: `entries` is the DMA buffer, by byte offset. -/
structure vsp1_dl_body where
  entries : Nat → Nat
  dma : Nat
  size : Nat
  num_entries : Nat

/-- The `struct vsp1_dl_list`.  `header`, `ext_body` and `src_dst_addr` are
byte offsets into the buffer of `body0` (`none` for a null pointer). -/
structure vsp1_dl_list where
  header : Option Nat
  dma : Nat
  ext_body : Option Nat
  ext_dma : Nat
  src_dst_addr : Option Nat
  ext_addr_dma : Nat
  body0 : vsp1_dl_body
  fragments : List vsp1_dl_body
  has_chain : Bool
  chain : list_head

/-- Register offsets and bit masks of `vsp1_regs.h` and the quirk bits of
`vsp1.h`; these headers are not part of the embedded file, so the values are
parameters. -/
structure vsp1_regs where
  VI6_CMD : Nat → Nat
  VI6_CMD_UPDHDR : Nat
  VI6_STATUS : Nat
  VI6_STATUS_FLD_STD : Nat → Nat
  VI6_DL_HDR_ADDR : Nat → Nat
  VI6_DL_BODY_SIZE : Nat
  VI6_DL_BODY_SIZE_UPD : Nat
  VSP1_UNDERRUN_WORKAROUND : Nat
  VSP1_AUTO_FLD_NOT_SUPPORT : Nat

/-- The fields of `struct vsp1_device_info` that the display list code reads. -/
structure vsp1_device_info where
  rpf_count : Nat
  header_mode : Bool
  uapi : Bool

/-- The part of `struct vsp1_device` that the display list code uses.
`gen3_vspdl` is the result of `vsp1_gen3_vspdl_check(vsp1)`, `brs` and `lif1`
say whether `vsp1->brs` and `vsp1->lif[1]` are non-null, `mmio` is what a
register read returns during the call, `writes` is the log of register writes,
oldest first. -/
structure vsp1_device where
  regs : vsp1_regs
  info : vsp1_device_info
  gen3_vspdl : Bool
  brs : Bool
  lif1 : Bool
  num_brs_inputs : Nat
  ths_quirks : Nat
  dl_addr : Nat
  dl_body : Nat
  mmio : Nat → Nat
  writes : List (Nat × Nat)

/-- The `struct vsp1_dl_manager`, together with the store of the display lists
that its pointers refer to.  `gc_scheduled` records `schedule_work(&gc_work)`. -/
structure vsp1_dl_manager where
  index : Nat
  mode : vsp1_dl_mode
  vsp1 : vsp1_device
  lists : Nat → vsp1_dl_list
  free : List Nat
  active : Option Nat
  queued : Option Nat
  pending : Option Nat
  gc_scheduled : Bool
  gc_fragments : List vsp1_dl_body

/-- Result of one `dma_alloc_wc` call: the device address and the initial
content of the buffer. -/
structure dma_buffer where
  dma : Nat
  mem : Nat → Nat

/-! ## Register access -/

/-- The call `vsp1_read(vsp1, reg)`. -/
def vsp1_read (vsp1 : vsp1_device) (reg : Nat) : Nat :=
  vsp1.mmio reg

/-- The call `vsp1_write(vsp1, reg, data)`; `data` is a `u32`. -/
def vsp1_write (vsp1 : vsp1_device) (reg data : Nat) : vsp1_device :=
  { vsp1 with writes := vsp1.writes ++ [(reg, u32 data)] }

/-! ## Display list bodies -/

/-- The function `vsp1_dl_fragment_write`. -/
def vsp1_dl_fragment_write (dlb : vsp1_dl_body) (reg data : Nat) : vsp1_dl_body :=
  let m1 := store32 dlb.entries (sizeof_vsp1_dl_entry * dlb.num_entries) reg
  let m2 := store32 m1 (sizeof_vsp1_dl_entry * dlb.num_entries + 4) data
  { dlb with entries := m2, num_entries := u32 (dlb.num_entries + 1) }

/-- The function `vsp1_dl_body_init`, given the buffer that `dma_alloc_wc`
returned (the failure branch is taken by the caller when there is none). -/
def vsp1_dl_body_init (buf : dma_buffer) (num_entries extra_size : Nat) : vsp1_dl_body :=
  { entries := buf.mem, dma := buf.dma,
    size := num_entries * sizeof_vsp1_dl_entry + extra_size, num_entries := 0 }

/-! ## Display lists -/

/-- A display list object as left by `kzalloc` (all fields zero). -/
def vsp1_dl_list_zero : vsp1_dl_list :=
  { header := none, dma := 0, ext_body := none, ext_dma := 0, src_dst_addr := none,
    ext_addr_dma := 0,
    body0 := { entries := fun _ => 0, dma := 0, size := 0, num_entries := 0 },
    fragments := [], has_chain := false, chain := { next := none, prev := none } }

/-- The function `vsp1_dl_list_alloc`, given the buffer of the body. -/
def vsp1_dl_list_alloc (mode : vsp1_dl_mode) (buf : dma_buffer) : vsp1_dl_list :=
  let header_size :=
    if mode = vsp1_dl_mode.VSP1_DL_MODE_HEADER then ALIGN sizeof_vsp1_dl_header 8 else 0
  let body0 := vsp1_dl_body_init buf VSP1_DL_NUM_ENTRIES header_size
  let dl := { vsp1_dl_list_zero with body0 := body0 }
  if mode = vsp1_dl_mode.VSP1_DL_MODE_HEADER then
    let header_offset := VSP1_DL_NUM_ENTRIES * sizeof_vsp1_dl_entry
    let m1 := memset0 body0.entries header_offset sizeof_vsp1_dl_header
    let m2 := store32 m1 (header_offset + HDR_LIST_ADDR 0) body0.dma
    { dl with
      header := some header_offset
      dma := body0.dma + header_offset
      ext_body := some (header_offset + VSP1_DL_EXT_OFFSET)
      ext_dma := body0.dma + header_offset + VSP1_DL_EXT_OFFSET
      src_dst_addr := some (header_offset + VSP1_DL_EXT_OFFSET * 2)
      ext_addr_dma := body0.dma + header_offset + VSP1_DL_EXT_OFFSET * 2
      body0 := { body0 with entries := m2 } }
  else dl

/-- Replace the object behind handle `dl`. -/
def set_list (dlm : vsp1_dl_manager) (dl : Nat) (v : vsp1_dl_list) : vsp1_dl_manager :=
  { dlm with lists := Function.update dlm.lists dl v }

/-- The macro `INIT_LIST_HEAD(&dl->chain)`. -/
def INIT_LIST_HEAD_chain (dlm : vsp1_dl_manager) (dl : Nat) : vsp1_dl_manager :=
  set_list dlm dl { dlm.lists dl with chain := { next := some dl, prev := some dl } }

/-- The test `list_empty(&dl->chain)`. -/
def list_empty_chain (dlm : vsp1_dl_manager) (dl : Nat) : Bool :=
  (dlm.lists dl).chain.next == some dl

/-- The function `vsp1_dl_list_get`. -/
def vsp1_dl_list_get (dlm : vsp1_dl_manager) : Option Nat × vsp1_dl_manager :=
  match dlm.free with
  | [] => (none, dlm)
  | dl :: rest => (some dl, INIT_LIST_HEAD_chain { dlm with free := rest } dl)

/-- The tail of `__vsp1_dl_list_put`, after the chained lists were released:
clear the chain marker, hand the fragments to the garbage collector, reset the
entry count and add the list at the tail of the free pool. -/
def vsp1_dl_list_put_tail (dlm : vsp1_dl_manager) (dl : Nat) : vsp1_dl_manager :=
  let d1 := set_list dlm dl { dlm.lists dl with has_chain := false }
  let d2 :=
    if !(d1.lists dl).fragments.isEmpty then
      { set_list d1 dl { d1.lists dl with fragments := [] } with
        gc_fragments := (d1.lists dl).fragments ++ d1.gc_fragments
        gc_scheduled := true }
    else d1
  let d3 := set_list d2 dl
    { d2.lists dl with body0 := { (d2.lists dl).body0 with num_entries := 0 } }
  { d3 with free := d3.free ++ [dl] }

mutual
/-- The function `__vsp1_dl_list_put`. -/
def __vsp1_dl_list_put : Nat → vsp1_dl_manager → Option Nat → Option vsp1_dl_manager
  | _, dlm, none => some dlm
  | 0, _, some _ => none
  | fuel + 1, dlm, some dl =>
    match (if (dlm.lists dl).has_chain then
        vsp1_dl_list_put_chain fuel dlm dl (dlm.lists dl).chain.next
      else some dlm) with
    | none => none
    | some d1 => some (vsp1_dl_list_put_tail d1 dl)
/-- The loop `list_for_each_entry(dl_child, &dl->chain, chain)` of
`__vsp1_dl_list_put`; `pos` is the node the cursor is at. -/
def vsp1_dl_list_put_chain :
    Nat → vsp1_dl_manager → Nat → Option Nat → Option vsp1_dl_manager
  | 0, _, _, _ => none
  | _ + 1, _, _, none => none
  | fuel + 1, dlm, head, some dl_child =>
    if dl_child = head then some dlm
    else
      match __vsp1_dl_list_put fuel dlm (some dl_child) with
      | none => none
      | some d1 => vsp1_dl_list_put_chain fuel d1 head (d1.lists dl_child).chain.next
end

/-- The function `vsp1_dl_list_put`. -/
def vsp1_dl_list_put (fuel : Nat) (dlm : vsp1_dl_manager) (dl : Option Nat) :
    Option vsp1_dl_manager :=
  match dl with
  | none => some dlm
  | some d => __vsp1_dl_list_put fuel dlm (some d)

/-- The function `vsp1_dl_list_write`. -/
def vsp1_dl_list_write (dlm : vsp1_dl_manager) (dl reg data : Nat) : vsp1_dl_manager :=
  set_list dlm dl
    { dlm.lists dl with body0 := vsp1_dl_fragment_write (dlm.lists dl).body0 reg data }

/-- The value of `-EINVAL`. -/
def EINVAL_neg : Int := -22

/-- The function `vsp1_dl_list_add_fragment`. -/
def vsp1_dl_list_add_fragment (dlm : vsp1_dl_manager) (dl : Nat) (dlb : vsp1_dl_body) :
    Int × vsp1_dl_manager :=
  if dlm.mode ≠ vsp1_dl_mode.VSP1_DL_MODE_HEADER then (EINVAL_neg, dlm)
  else
    (0, set_list dlm dl { dlm.lists dl with fragments := (dlm.lists dl).fragments ++ [dlb] })

/-- The call `list_add_tail(&dl->chain, &head->chain)`, with the four pointer
writes of `__list_add` in their order. -/
def list_add_tail_chain (dlm : vsp1_dl_manager) (dl head : Nat) : Option vsp1_dl_manager :=
  match (dlm.lists head).chain.prev with
  | none => none
  | some prev =>
    let d1 := set_list dlm head
      { dlm.lists head with chain := { (dlm.lists head).chain with prev := some dl } }
    let d2 := set_list d1 dl
      { d1.lists dl with chain := { (d1.lists dl).chain with next := some head } }
    let d3 := set_list d2 dl
      { d2.lists dl with chain := { (d2.lists dl).chain with prev := some prev } }
    some (set_list d3 prev
      { d3.lists prev with chain := { (d3.lists prev).chain with next := some dl } })

/-- The function `vsp1_dl_list_add_chain`. -/
def vsp1_dl_list_add_chain (dlm : vsp1_dl_manager) (head dl : Nat) :
    Option (Int × vsp1_dl_manager) :=
  if dlm.mode ≠ vsp1_dl_mode.VSP1_DL_MODE_HEADER then some (EINVAL_neg, dlm)
  else
    let d1 := set_list dlm head { dlm.lists head with has_chain := true }
    match list_add_tail_chain d1 dl head with
    | none => none
    | some d2 => some (0, d2)

/-! ## Header construction and commit -/

/-- The loop `list_for_each_entry(dlb, &dl->fragments, list)` of
`vsp1_dl_list_fill_header`: the state is the buffer, `num_lists` and the byte
offset of `hdr` in the buffer. -/
def fill_header_fragments (frags : List vsp1_dl_body) (st : (Nat → Nat) × Nat × Nat) :
    (Nat → Nat) × Nat × Nat :=
  frags.foldl (fun st dlb =>
    let num_lists := u32 (st.2.1 + 1)
    let hdr := st.2.2 + sizeof_vsp1_dl_header_list
    let m1 := store32 st.1 (hdr + 4) dlb.dma
    let m2 := store32 m1 hdr (dlb.num_entries * sizeof_vsp1_dl_header_list)
    (m2, num_lists, hdr)) st

/-- The loop `for (i = init; i < end; ++i) rpf_update |= (0x01 << (16 + i))`;
bits shifted beyond bit 31 are dropped. -/
def rpf_update_loop (init_num end_num : Nat) : Nat :=
  (List.range' init_num (end_num - init_num)).foldl
    (fun rpf_update i => rpf_update ||| u32 (1 <<< (16 + i))) 0

/-- The function `vsp1_dl_list_fill_header`.  The unsigned subtraction
`rpf_count - num_brs_inputs` wraps modulo `2 ^ 32`. -/
def vsp1_dl_list_fill_header (dlm : vsp1_dl_manager) (dl : Nat) (is_last : Bool)
    (lif_index : Nat) : Option vsp1_dl_manager :=
  let l := dlm.lists dl
  let vsp1 := dlm.vsp1
  match l.header with
  | none => none
  | some header =>
    let m0 := store32 l.body0.entries (header + HDR_LIST_NUM_BYTES 0)
      (l.body0.num_entries * sizeof_vsp1_dl_header_list)
    let st := fill_header_fragments l.fragments (m0, 0, header + HDR_LIST_NUM_BYTES 0)
    let m1 := store32 st.1 (header + HDR_NUM_LISTS) st.2.1
    let with_mem := fun (m : Nat → Nat) =>
      set_list dlm dl { l with body0 := { l.body0 with entries := m } }
    if vsp1.gen3_vspdl && (!vsp1.brs || !vsp1.lif1) then some (with_mem m1)
    else
      let init_bru_num := 0
      let init_brs_num :=
        if vsp1.gen3_vspdl then u32 (vsp1.info.rpf_count + 2 ^ 32 - u32 vsp1.num_brs_inputs)
        else 0
      let end_bru_num :=
        if vsp1.gen3_vspdl then u32 (vsp1.info.rpf_count + 2 ^ 32 - u32 vsp1.num_brs_inputs)
        else vsp1.info.rpf_count
      let end_brs_num := if vsp1.gen3_vspdl then vsp1.info.rpf_count else 0
      let rpf_update :=
        if lif_index = 1 then rpf_update_loop init_brs_num end_brs_num
        else rpf_update_loop init_bru_num end_bru_num
      if !list_empty_chain dlm dl && !is_last then
        match l.chain.next with
        | none => none
        | some next =>
          let m2 := store32 m1 (header + HDR_NEXT_HEADER) (dlm.lists next).dma
          let m3 := store32 m2 (header + HDR_FLAGS) VSP1_DLH_AUTO_START
          some (with_mem m3)
      else
        let m2 := store32 m1 (header + HDR_FLAGS) VSP1_DLH_INT_ENABLE
        let m3 :=
          if vsp1.info.header_mode then
            let m := store32 m2 (header + HDR_NEXT_HEADER) l.dma
            store32 m (header + HDR_FLAGS) (m (header + HDR_FLAGS) ||| VSP1_DLH_AUTO_START)
          else m2
        if vsp1.ths_quirks &&& vsp1.regs.VSP1_AUTO_FLD_NOT_SUPPORT = 0 then
          let m4 := store32 m3 (header + HDR_PRE_POST_NUM) ((1 <<< 25) ||| 0x01)
          let m5 := store32 m4 (header + HDR_PRE_EXT_DL_PLIST) l.ext_dma
          let m6 := store32 m5 (header + HDR_POST_EXT_DL_NUM_CMD) 0
          let m7 := store32 m6 (header + HDR_POST_EXT_DL_P_LIST) 0
          match l.ext_body with
          | none => none
          | some ext_body =>
            let m8 := store32 m7 (ext_body + EXT_DL_CMD 0) 0x00000003
            let m9 := store32 m8 (ext_body + EXT_DL_CMD 1) (0x00000001 ||| rpf_update)
            let m10 := store32 m9 (ext_body + EXT_DL_DATA 0) l.ext_addr_dma
            let m11 := store32 m10 (ext_body + EXT_DL_DATA 1) 0
            some (with_mem m11)
        else some (with_mem m3)

/-- The loop `list_for_each_entry(dl_child, &dl->chain, chain)` of
`vsp1_dl_list_commit`, which fills the header of every chained list; `pos` is
the node the cursor is at. -/
def vsp1_dl_list_commit_chain :
    Nat → vsp1_dl_manager → Nat → Option Nat → Nat → Option vsp1_dl_manager
  | 0, _, _, _, _ => none
  | _ + 1, _, _, none, _ => none
  | fuel + 1, dlm, dl, some dl_child, lif_index =>
    if dl_child = dl then some dlm
    else
      let last := (dlm.lists dl_child).chain.next == some dl
      match vsp1_dl_list_fill_header dlm dl_child last lif_index with
      | none => none
      | some d1 =>
        vsp1_dl_list_commit_chain fuel d1 dl (d1.lists dl_child).chain.next lif_index

/-- The function `vsp1_dl_list_commit`. -/
def vsp1_dl_list_commit (fuel : Nat) (dlm : vsp1_dl_manager) (dl lif_index : Nat) :
    Option vsp1_dl_manager :=
  if dlm.mode = vsp1_dl_mode.VSP1_DL_MODE_HEADER then
    match vsp1_dl_list_fill_header dlm dl (list_empty_chain dlm dl) lif_index with
    | none => none
    | some d1 =>
      match vsp1_dl_list_commit_chain fuel d1 dl (d1.lists dl).chain.next lif_index with
      | none => none
      | some d2 =>
        let v1 := vsp1_write d2.vsp1 (d2.vsp1.regs.VI6_DL_HDR_ADDR d2.index) (d2.lists dl).dma
        let v2 :=
          if v1.ths_quirks &&& v1.regs.VSP1_UNDERRUN_WORKAROUND ≠ 0 then
            { v1 with dl_addr := (d2.lists dl).dma }
          else v1
        let d3 := { d2 with vsp1 := v2, active := some dl, queued := some dl }
        __vsp1_dl_list_put fuel d3 d3.queued
  else
    let update :=
      vsp1_read dlm.vsp1 dlm.vsp1.regs.VI6_DL_BODY_SIZE &&&
        dlm.vsp1.regs.VI6_DL_BODY_SIZE_UPD ≠ 0
    if update then
      match __vsp1_dl_list_put fuel dlm dlm.pending with
      | none => none
      | some d1 => some { d1 with pending := some dl }
    else
      let vsp1 := dlm.vsp1
      let v1 := vsp1_write vsp1 (vsp1.regs.VI6_DL_HDR_ADDR 0) (dlm.lists dl).body0.dma
      let v2 := vsp1_write v1 vsp1.regs.VI6_DL_BODY_SIZE
        (vsp1.regs.VI6_DL_BODY_SIZE_UPD |||
          ((dlm.lists dl).body0.num_entries * sizeof_vsp1_dl_header_list))
      let v3 :=
        if vsp1.ths_quirks &&& vsp1.regs.VSP1_UNDERRUN_WORKAROUND ≠ 0 then
          { v2 with
            dl_addr := (dlm.lists dl).body0.dma
            dl_body := vsp1.regs.VI6_DL_BODY_SIZE_UPD |||
              ((dlm.lists dl).body0.num_entries * sizeof_vsp1_dl_header_list) }
        else v2
      let d1 := { dlm with vsp1 := v3 }
      match __vsp1_dl_list_put fuel d1 d1.queued with
      | none => none
      | some d2 => some { d2 with queued := some dl }

/-! ## Display list manager -/

/-- The function `vsp1_dlm_irq_display_start`. -/
def vsp1_dlm_irq_display_start (fuel : Nat) (dlm : vsp1_dl_manager) :
    Option vsp1_dl_manager :=
  match (if dlm.mode ≠ vsp1_dl_mode.VSP1_DL_MODE_HEADER then
      __vsp1_dl_list_put fuel dlm dlm.active
    else some dlm) with
  | none => none
  | some d1 => some { d1 with active := none }

/-- The function `vsp1_dlm_irq_frame_end`; the result is `completed` and the
new state. -/
def vsp1_dlm_irq_frame_end (fuel : Nat) (dlm : vsp1_dl_manager) (interlaced : Bool) :
    Option (Bool × vsp1_dl_manager) :=
  match (if dlm.mode ≠ vsp1_dl_mode.VSP1_DL_MODE_HEADER then
      __vsp1_dl_list_put fuel dlm dlm.active
    else some dlm) with
  | none => none
  | some d0 =>
    let d1 := { d0 with active := none }
    let vsp1 := d1.vsp1
    if d1.mode = vsp1_dl_mode.VSP1_DL_MODE_HEADER then
      if vsp1_read vsp1 (vsp1.regs.VI6_CMD d1.index) &&& vsp1.regs.VI6_CMD_UPDHDR ≠ 0 then
        some (false, d1)
      else if interlaced &&
          (vsp1_read vsp1 vsp1.regs.VI6_STATUS &&& vsp1.regs.VI6_STATUS_FLD_STD d1.index
            != vsp1.regs.VI6_STATUS_FLD_STD d1.index) then
        some (false, d1)
      else
        match d1.queued with
        | some q => some (true, { d1 with active := some q, queued := none })
        | none => some (false, d1)
    else if vsp1_read vsp1 vsp1.regs.VI6_DL_BODY_SIZE &&&
        vsp1.regs.VI6_DL_BODY_SIZE_UPD ≠ 0 then
      some (false, d1)
    else
      let r : Bool × vsp1_dl_manager :=
        match d1.queued with
        | some q => (true, { d1 with active := some q, queued := none })
        | none => (false, d1)
      let d2 := r.2
      match d2.pending with
      | some dl =>
        let w1 := vsp1_write vsp1 (vsp1.regs.VI6_DL_HDR_ADDR 0) (d2.lists dl).body0.dma
        let w2 := vsp1_write w1 vsp1.regs.VI6_DL_BODY_SIZE
          (vsp1.regs.VI6_DL_BODY_SIZE_UPD |||
            ((d2.lists dl).body0.num_entries * sizeof_vsp1_dl_header_list))
        let w3 :=
          if vsp1.ths_quirks &&& vsp1.regs.VSP1_UNDERRUN_WORKAROUND ≠ 0 then
            { w2 with
              dl_addr := (d2.lists dl).body0.dma
              dl_body := vsp1.regs.VI6_DL_BODY_SIZE_UPD |||
                ((d2.lists dl).body0.num_entries * sizeof_vsp1_dl_header_list) }
          else w2
        some (r.1, { d2 with vsp1 := w3, queued := some dl, pending := none })
      | none => some r

/-- The function `vsp1_dlm_reset`. -/
def vsp1_dlm_reset (fuel : Nat) (dlm : vsp1_dl_manager) : Option vsp1_dl_manager :=
  match __vsp1_dl_list_put fuel dlm dlm.active with
  | none => none
  | some d1 =>
    match __vsp1_dl_list_put fuel d1 d1.queued with
    | none => none
    | some d2 =>
      match __vsp1_dl_list_put fuel d2 d2.pending with
      | none => none
      | some d3 => some { d3 with active := none, queued := none, pending := none }

/-- The allocation loop of `vsp1_dlm_create`: the list allocated in round `i`
gets handle `i`; `alloc i` is what the allocator returns in that round. -/
def vsp1_dlm_create_loop (alloc : Nat → Option dma_buffer) :
    Nat → Nat → vsp1_dl_manager → Option vsp1_dl_manager
  | 0, _, dlm => some dlm
  | n + 1, i, dlm =>
    match alloc i with
    | none => none
    | some buf =>
      let d1 := set_list dlm i (vsp1_dl_list_alloc dlm.mode buf)
      vsp1_dlm_create_loop alloc n (i + 1) { d1 with free := d1.free ++ [i] }

/-- The function `vsp1_dlm_create`; the `devm_kzalloc` of the manager itself is
taken to succeed, a failing list allocation makes the function return null. -/
def vsp1_dlm_create (vsp1 : vsp1_device) (index prealloc : Nat)
    (alloc : Nat → Option dma_buffer) : Option vsp1_dl_manager :=
  let mode :=
    if index = 0 && !vsp1.info.uapi && !vsp1.info.header_mode then
      vsp1_dl_mode.VSP1_DL_MODE_HEADERLESS
    else vsp1_dl_mode.VSP1_DL_MODE_HEADER
  vsp1_dlm_create_loop alloc prealloc 0
    { index := index, mode := mode, vsp1 := vsp1, lists := fun _ => vsp1_dl_list_zero,
      free := [], active := none, queued := none, pending := none,
      gc_scheduled := false, gc_fragments := [] }


/-! ## Auto-FLD source addresses -/

/-- Truncation of a value to a 64-bit `dma_addr_t`. -/
def dma64 (x : Nat) : Nat := x % 2 ^ 64

/-- The macro `ALIGN(x, a)` on a `u32` `x`, for a power of two `a`: the sum
wraps before the low bits are masked off. -/
def ALIGN_u32 (x a : Nat) : Nat := u32 (x + (a - 1)) / a * a

/-- The `fourcc` of a format as the `switch` of `vsp1_dl_set_addr_auto_fld`
classifies it: one of its six case labels, or any other value. -/
inductive v4l2_pix_fmt where
  | V4L2_PIX_FMT_YUV420M
  | V4L2_PIX_FMT_YUV422M
  | V4L2_PIX_FMT_YUV444M
  | V4L2_PIX_FMT_YVU420M
  | V4L2_PIX_FMT_YVU422M
  | V4L2_PIX_FMT_YVU444M
  | other
  deriving DecidableEq, Repr

/-- The part of `struct vsp1_rwpf` that `vsp1_dl_set_addr_auto_fld` reads:
`fourcc` and `bpp0` are `fmtinfo->fourcc` and `fmtinfo->bpp[0]`, `crop_width` is
the width of the rectangle returned by `vsp1_rwpf_get_crop`, `index` is
`entity.index`, `mem_addr i` is `mem.addr[i]` (a `dma_addr_t`) and `offsets i`
is `offsets[i]` (an `unsigned int`). -/
structure vsp1_rwpf where
  fourcc : v4l2_pix_fmt
  bpp0 : Nat
  crop_width : Nat
  index : Nat
  mem_addr : Nat → Nat
  offsets : Nat → Nat

/-- The six addresses computed by `vsp1_dl_set_addr_auto_fld`. -/
structure auto_fld_addrs where
  y_top_addr : Nat
  y_bot_addr : Nat
  u_top_addr : Nat
  u_bot_addr : Nat
  v_top_addr : Nat
  v_bot_addr : Nat
  deriving DecidableEq, Repr

/-- The local `stride` of `vsp1_dl_set_addr_auto_fld` (a `u32`). -/
def auto_fld_stride (rpf : vsp1_rwpf) : Nat :=
  let width := ALIGN_u32 rpf.crop_width 16
  u32 (width * rpf.bpp0) / 8

/-- The `switch (rpf->fmtinfo->fourcc)` of `vsp1_dl_set_addr_auto_fld`; the
sums are `dma_addr_t` sums, the products of `stride` are `u32` products. -/
def auto_fld_switch (rpf : vsp1_rwpf) : auto_fld_addrs :=
  let stride := auto_fld_stride rpf
  match rpf.fourcc with
  | v4l2_pix_fmt.V4L2_PIX_FMT_YUV420M =>
    { y_top_addr := dma64 (rpf.mem_addr 0 + rpf.offsets 0)
      y_bot_addr := dma64 (dma64 (rpf.mem_addr 0 + rpf.offsets 0) + stride)
      u_top_addr := dma64 (rpf.mem_addr 1 + rpf.offsets 1)
      u_bot_addr := dma64 (dma64 (rpf.mem_addr 1 + rpf.offsets 1) + stride / 2)
      v_top_addr := dma64 (rpf.mem_addr 2 + rpf.offsets 1)
      v_bot_addr := dma64 (dma64 (rpf.mem_addr 2 + rpf.offsets 1) + stride / 2) }
  | v4l2_pix_fmt.V4L2_PIX_FMT_YUV422M =>
    { y_top_addr := dma64 (rpf.mem_addr 0 + rpf.offsets 0)
      y_bot_addr := dma64 (dma64 (rpf.mem_addr 0 + rpf.offsets 0) + u32 (stride * 2))
      u_top_addr := dma64 (rpf.mem_addr 1 + rpf.offsets 1)
      u_bot_addr := dma64 (dma64 (rpf.mem_addr 1 + rpf.offsets 1) + stride)
      v_top_addr := dma64 (rpf.mem_addr 2 + rpf.offsets 1)
      v_bot_addr := dma64 (dma64 (rpf.mem_addr 2 + rpf.offsets 1) + stride) }
  | v4l2_pix_fmt.V4L2_PIX_FMT_YUV444M =>
    { y_top_addr := dma64 (rpf.mem_addr 0 + rpf.offsets 0)
      y_bot_addr := dma64 (dma64 (rpf.mem_addr 0 + rpf.offsets 0) + u32 (stride * 3))
      u_top_addr := dma64 (rpf.mem_addr 1 + rpf.offsets 1)
      u_bot_addr := dma64 (dma64 (rpf.mem_addr 1 + rpf.offsets 1) + u32 (stride * 3))
      v_top_addr := dma64 (rpf.mem_addr 2 + rpf.offsets 1)
      v_bot_addr := dma64 (dma64 (rpf.mem_addr 2 + rpf.offsets 1) + u32 (stride * 3)) }
  | v4l2_pix_fmt.V4L2_PIX_FMT_YVU420M =>
    { y_top_addr := dma64 (rpf.mem_addr 0 + rpf.offsets 0)
      y_bot_addr := dma64 (dma64 (rpf.mem_addr 0 + rpf.offsets 0) + stride)
      u_top_addr := dma64 (rpf.mem_addr 2 + rpf.offsets 1)
      u_bot_addr := dma64 (dma64 (rpf.mem_addr 2 + rpf.offsets 1) + stride / 2)
      v_top_addr := dma64 (rpf.mem_addr 1 + rpf.offsets 1)
      v_bot_addr := dma64 (dma64 (rpf.mem_addr 1 + rpf.offsets 1) + stride / 2) }
  | v4l2_pix_fmt.V4L2_PIX_FMT_YVU422M =>
    { y_top_addr := dma64 (rpf.mem_addr 0 + rpf.offsets 0)
      y_bot_addr := dma64 (dma64 (rpf.mem_addr 0 + rpf.offsets 0) + u32 (stride * 2))
      u_top_addr := dma64 (rpf.mem_addr 2 + rpf.offsets 1)
      u_bot_addr := dma64 (dma64 (rpf.mem_addr 2 + rpf.offsets 1) + stride)
      v_top_addr := dma64 (rpf.mem_addr 1 + rpf.offsets 1)
      v_bot_addr := dma64 (dma64 (rpf.mem_addr 1 + rpf.offsets 1) + stride) }
  | v4l2_pix_fmt.V4L2_PIX_FMT_YVU444M =>
    { y_top_addr := dma64 (rpf.mem_addr 0 + rpf.offsets 0)
      y_bot_addr := dma64 (dma64 (rpf.mem_addr 0 + rpf.offsets 0) + u32 (stride * 3))
      u_top_addr := dma64 (rpf.mem_addr 2 + rpf.offsets 1)
      u_bot_addr := dma64 (dma64 (rpf.mem_addr 2 + rpf.offsets 1) + u32 (stride * 3))
      v_top_addr := dma64 (rpf.mem_addr 1 + rpf.offsets 1)
      v_bot_addr := dma64 (dma64 (rpf.mem_addr 1 + rpf.offsets 1) + u32 (stride * 3)) }
  | v4l2_pix_fmt.other =>
    { y_top_addr := dma64 (rpf.mem_addr 0 + rpf.offsets 0)
      y_bot_addr := dma64 (dma64 (rpf.mem_addr 0 + rpf.offsets 0) + stride)
      u_top_addr := dma64 (rpf.mem_addr 1 + rpf.offsets 1)
      u_bot_addr := dma64 (dma64 (rpf.mem_addr 1 + rpf.offsets 1) + stride)
      v_top_addr := dma64 (rpf.mem_addr 2 + rpf.offsets 1)
      v_bot_addr := dma64 (dma64 (rpf.mem_addr 2 + rpf.offsets 1) + stride) }

/-- The function `vsp1_dl_set_addr_auto_fld`; `src_dst_addr[i].addr` is the
32-bit word at byte offset `4 * i` of the address table. -/
def vsp1_dl_set_addr_auto_fld (dlm : vsp1_dl_manager) (dl : Nat) (rpf : vsp1_rwpf) :
    Option vsp1_dl_manager :=
  let l := dlm.lists dl
  let y_top_index := u32 (rpf.index * 8)
  let y_bot_index := u32 (rpf.index * 8 + 1)
  let u_top_index := u32 (rpf.index * 8 + 2)
  let u_bot_index := u32 (rpf.index * 8 + 3)
  let v_top_index := u32 (rpf.index * 8 + 4)
  let v_bot_index := u32 (rpf.index * 8 + 5)
  let a := auto_fld_switch rpf
  match l.src_dst_addr with
  | none => none
  | some src_dst_addr =>
    let m1 := store32 l.body0.entries (src_dst_addr + 4 * y_top_index) a.y_top_addr
    let m2 := store32 m1 (src_dst_addr + 4 * y_bot_index) a.y_bot_addr
    let m3 := store32 m2 (src_dst_addr + 4 * u_top_index) a.u_top_addr
    let m4 := store32 m3 (src_dst_addr + 4 * u_bot_index) a.u_bot_addr
    let m5 := store32 m4 (src_dst_addr + 4 * v_top_index) a.v_top_addr
    let m6 := store32 m5 (src_dst_addr + 4 * v_bot_index) a.v_bot_addr
    some (set_list dlm dl { l with body0 := { l.body0 with entries := m6 } })

/-! ## Specification vocabulary and example configurations -/

/-- What `__vsp1_dl_list_put` never touches: the slots, the device and the
identity of the manager. -/
def put_frame (a b : vsp1_dl_manager) : Prop :=
  b.active = a.active ∧ b.queued = a.queued ∧ b.pending = a.pending ∧ b.vsp1 = a.vsp1 ∧
    b.mode = a.mode ∧ b.index = a.index

/-- The device after a headerless list object `l` was handed to the hardware:
the two register writes and the bookkeeping of the underrun workaround, as
spelled out in `vsp1_dl_list_commit` and again in `vsp1_dlm_irq_frame_end`. -/
def device_programmed (vsp1 : vsp1_device) (l : vsp1_dl_list) : vsp1_device :=
  let v1 := vsp1_write vsp1 (vsp1.regs.VI6_DL_HDR_ADDR 0) l.body0.dma
  let v2 := vsp1_write v1 vsp1.regs.VI6_DL_BODY_SIZE
    (vsp1.regs.VI6_DL_BODY_SIZE_UPD ||| (l.body0.num_entries * sizeof_vsp1_dl_header_list))
  if vsp1.ths_quirks &&& vsp1.regs.VSP1_UNDERRUN_WORKAROUND ≠ 0 then
    { v2 with
      dl_addr := l.body0.dma
      dl_body := vsp1.regs.VI6_DL_BODY_SIZE_UPD |||
        (l.body0.num_entries * sizeof_vsp1_dl_header_list) }
  else v2

/-- The hardware status that the register reads of the next call will see. -/
def set_mmio (dlm : vsp1_dl_manager) (mmio : Nat → Nat) : vsp1_dl_manager :=
  { dlm with vsp1 := { dlm.vsp1 with mmio := mmio } }

/-- An example register map. -/
def ex_regs : vsp1_regs :=
  { VI6_CMD := fun n => 4 * n, VI6_CMD_UPDHDR := 16, VI6_STATUS := 56,
    VI6_STATUS_FLD_STD := fun n => 2 ^ (n + 28), VI6_DL_HDR_ADDR := fun n => 260 + 4 * n,
    VI6_DL_BODY_SIZE := 288, VI6_DL_BODY_SIZE_UPD := 2 ^ 24,
    VSP1_UNDERRUN_WORKAROUND := 1, VSP1_AUTO_FLD_NOT_SUPPORT := 2 }

/-- An example device with five input ports and no quirks. -/
def ex_device (header_mode : Bool) : vsp1_device :=
  { regs := ex_regs, info := { rpf_count := 5, header_mode := header_mode, uapi := false },
    gen3_vspdl := false, brs := false, lif1 := false, num_brs_inputs := 0, ths_quirks := 0,
    dl_addr := 0, dl_body := 0, mmio := fun _ => 0, writes := [] }

/-- An allocator that always succeeds; buffer `i` is at `0x10000 * (i + 1)`. -/
def ex_alloc : Nat → Option dma_buffer :=
  fun i => some { dma := 0x10000 * (i + 1), mem := fun _ => 0 }

/-- Hardware status with every bit clear. -/
def ex_mmio_idle : Nat → Nat := fun _ => 0

/-- Hardware status with `VI6_DL_BODY_SIZE_UPD` set (example register map). -/
def ex_mmio_upd : Nat → Nat := fun r => if r = 288 then 2 ^ 24 else 0

/-- Hardware status with `VI6_CMD_UPDHDR` set for output 0 (example register map). -/
def ex_mmio_updhdr : Nat → Nat := fun r => if r = 0 then 16 else 0

/-- A fresh header-mode manager with two lists. -/
def ex_header_0 : vsp1_dl_manager :=
  (vsp1_dlm_create (ex_device true) 0 2 ex_alloc).get rfl

/-- The header-mode manager after `vsp1_dl_list_get` handed out list 0. -/
def ex_header_1 : vsp1_dl_manager := (vsp1_dl_list_get ex_header_0).2

/-- The header-mode manager after list 0 was committed. -/
def ex_header_2 : vsp1_dl_manager :=
  (vsp1_dl_list_commit 1 (set_mmio ex_header_1 ex_mmio_idle) 0 0).get rfl

/-- A fresh headerless manager with four lists. -/
def ex_headerless_0 : vsp1_dl_manager :=
  (vsp1_dlm_create (ex_device false) 0 4 ex_alloc).get rfl

/-- Headerless: list 0 handed out. -/
def ex_headerless_1 : vsp1_dl_manager := (vsp1_dl_list_get ex_headerless_0).2

/-- Headerless: list 0 committed with the update flag clear (queued = 0). -/
def ex_headerless_2 : vsp1_dl_manager :=
  (vsp1_dl_list_commit 1 (set_mmio ex_headerless_1 ex_mmio_idle) 0 0).get rfl

/-- Headerless: frame end with the update flag clear (active = 0). -/
def ex_headerless_3 : vsp1_dl_manager :=
  ((vsp1_dlm_irq_frame_end 1 (set_mmio ex_headerless_2 ex_mmio_idle) false).get rfl).2

/-- Headerless: list 1 handed out. -/
def ex_headerless_4 : vsp1_dl_manager := (vsp1_dl_list_get ex_headerless_3).2

/-- Headerless: list 1 committed with the update flag clear (active = 0, queued = 1). -/
def ex_headerless_5 : vsp1_dl_manager :=
  (vsp1_dl_list_commit 1 (set_mmio ex_headerless_4 ex_mmio_idle) 1 0).get rfl

/-- Headerless: list 2 handed out. -/
def ex_headerless_6 : vsp1_dl_manager := (vsp1_dl_list_get ex_headerless_5).2

/-- Headerless: list 2 committed with the update flag set
(active = 0, queued = 1, pending = 2). -/
def ex_headerless_7 : vsp1_dl_manager :=
  (vsp1_dl_list_commit 1 (set_mmio ex_headerless_6 ex_mmio_upd) 2 0).get rfl

/-- Headerless: list 3 handed out. -/
def ex_headerless_8 : vsp1_dl_manager := (vsp1_dl_list_get ex_headerless_7).2

/-- An example fragment holding one entry. -/
def ex_fragment : vsp1_dl_body :=
  vsp1_dl_fragment_write
    (vsp1_dl_body_init { dma := 0x900000, mem := fun _ => 0 } 16 0) 0x2000 5

/-- Header mode: list 0 handed out, one entry written, one fragment attached. -/
def ex_header_1w : vsp1_dl_manager :=
  (vsp1_dl_list_add_fragment (vsp1_dl_list_write ex_header_1 0 0x1000 7) 0 ex_fragment).2

/-- The manager together with the caller side of the protocol: `held` are the
lists the caller obtained from `vsp1_dl_list_get` and has not committed yet. -/
structure dl_client where
  dlm : vsp1_dl_manager
  held : List Nat

/-- The client states reachable from the manager state `init` by calls of
`vsp1_dl_list_get`, `vsp1_dl_list_write`, `vsp1_dl_list_add_fragment`,
`vsp1_dl_list_commit` and `vsp1_dlm_irq_frame_end`, where the caller writes
to, attaches to and commits only lists it holds, writes at most
`VSP1_DL_NUM_ENTRIES` entries, and `mmio` is the hardware status at the time of
a call. -/
inductive commit_trace (fuel : Nat) (init : vsp1_dl_manager) : dl_client → Prop
  | start : commit_trace fuel init { dlm := init, held := [] }
  | get_some (c : dl_client) (dl : Nat) (d : vsp1_dl_manager) :
      commit_trace fuel init c → vsp1_dl_list_get c.dlm = (some dl, d) →
      commit_trace fuel init { dlm := d, held := dl :: c.held }
  | get_none (c : dl_client) (d : vsp1_dl_manager) :
      commit_trace fuel init c → vsp1_dl_list_get c.dlm = (none, d) →
      commit_trace fuel init { dlm := d, held := c.held }
  | write (c : dl_client) (dl reg data : Nat) :
      commit_trace fuel init c → dl ∈ c.held →
      (c.dlm.lists dl).body0.num_entries < VSP1_DL_NUM_ENTRIES →
      commit_trace fuel init { dlm := vsp1_dl_list_write c.dlm dl reg data, held := c.held }
  | add_fragment (c : dl_client) (dl : Nat) (dlb : vsp1_dl_body) :
      commit_trace fuel init c → dl ∈ c.held →
      commit_trace fuel init
        { dlm := (vsp1_dl_list_add_fragment c.dlm dl dlb).2, held := c.held }
  | commit (c : dl_client) (dl lif_index : Nat) (mmio : Nat → Nat) (d : vsp1_dl_manager) :
      commit_trace fuel init c → dl ∈ c.held →
      vsp1_dl_list_commit fuel (set_mmio c.dlm mmio) dl lif_index = some d →
      commit_trace fuel init { dlm := d, held := c.held.erase dl }
  | frame_end (c : dl_client) (interlaced : Bool) (mmio : Nat → Nat) (r : Bool)
      (d : vsp1_dl_manager) :
      commit_trace fuel init c →
      vsp1_dlm_irq_frame_end fuel (set_mmio c.dlm mmio) interlaced = some (r, d) →
      commit_trace fuel init { dlm := d, held := c.held }

/-- The pool part of the trace invariant: the free pool and the caller hold
disjoint, duplicate-free sets of lists; no list carries a chain marker; pooled
lists have no fragments; held lists have an initialised, empty chain node; in
header mode the lists of the pool and of the caller have a header and an
extended body. -/
structure pool_inv (d : vsp1_dl_manager) (held : List Nat) : Prop where
  free_nodup : d.free.Nodup
  held_nodup : held.Nodup
  held_not_free : ∀ x ∈ held, x ∉ d.free
  no_chain : ∀ x, (d.lists x).has_chain = false
  free_clean : ∀ x ∈ d.free, (d.lists x).fragments = []
  held_ring : ∀ x ∈ held, (d.lists x).chain.next = some x
  header_ok : d.mode = vsp1_dl_mode.VSP1_DL_MODE_HEADER → ∀ x, x ∈ d.free ∨ x ∈ held →
    (d.lists x).header.isSome = true ∧ (d.lists x).ext_body.isSome = true

/-- The slot part of the trace invariant: in headerless mode the three slots
reference pairwise different lists that are neither pooled nor held; in header
mode the pending slot is empty. -/
structure slots_inv (d : vsp1_dl_manager) (held : List Nat) : Prop where
  active_ok : d.mode = vsp1_dl_mode.VSP1_DL_MODE_HEADERLESS → ∀ x, d.active = some x →
    d.queued ≠ some x ∧ d.pending ≠ some x ∧ x ∉ d.free ∧ x ∉ held
  queued_ok : d.mode = vsp1_dl_mode.VSP1_DL_MODE_HEADERLESS → ∀ x, d.queued = some x →
    d.pending ≠ some x ∧ x ∉ d.free ∧ x ∉ held
  pending_ok : d.mode = vsp1_dl_mode.VSP1_DL_MODE_HEADERLESS → ∀ x, d.pending = some x →
    x ∉ d.free ∧ x ∉ held
  header_pending : d.mode = vsp1_dl_mode.VSP1_DL_MODE_HEADER → d.pending = none

/-- No list of the store carries a chain marker. -/
def no_chain (d : vsp1_dl_manager) : Prop :=
  ∀ x, (d.lists x).has_chain = false

/-! ## Sequences of calls -/

/-- The results and the final state of `k` consecutive calls of
`vsp1_dl_list_get`, with nothing released in between. -/
def vsp1_dl_list_get_n : Nat → vsp1_dl_manager → List (Option Nat) × vsp1_dl_manager
  | 0, dlm => ([], dlm)
  | k + 1, dlm =>
    ((vsp1_dl_list_get dlm).1 :: (vsp1_dl_list_get_n k (vsp1_dl_list_get dlm).2).1,
      (vsp1_dl_list_get_n k (vsp1_dl_list_get dlm).2).2)

/-- The state after `vsp1_dl_list_write` was called on list `dl` for every
(register, value) pair of `pairs`, in order. -/
def vsp1_dl_list_write_all (dlm : vsp1_dl_manager) (dl : Nat) (pairs : List (Nat × Nat)) :
    vsp1_dl_manager :=
  pairs.foldl (fun d p => vsp1_dl_list_write d dl p.1 p.2) dlm

/-- Two lists agree in everything but their `chain` node. -/
def same_but_chain (a b : vsp1_dl_list) : Prop :=
  b.header = a.header ∧ b.dma = a.dma ∧ b.ext_body = a.ext_body ∧ b.ext_dma = a.ext_dma ∧
    b.src_dst_addr = a.src_dst_addr ∧ b.ext_addr_dma = a.ext_addr_dma ∧ b.body0 = a.body0 ∧
    b.fragments = a.fragments ∧ b.has_chain = a.has_chain

/-- The six auto-field addresses as the specification states them, in
natural-number arithmetic: `stride = ALIGN(crop width, 16) * bpp[0] / 8`, the
chroma planes are `(pu, pv) = (2, 1)` for the YVU formats and `(1, 2)`
otherwise, every bottom address is its top address plus the per-format step. -/
def auto_fld_stated (rpf : vsp1_rwpf) : auto_fld_addrs :=
  let stride := ALIGN rpf.crop_width 16 * rpf.bpp0 / 8
  let pu : Nat :=
    match rpf.fourcc with
    | v4l2_pix_fmt.V4L2_PIX_FMT_YVU420M => 2
    | v4l2_pix_fmt.V4L2_PIX_FMT_YVU422M => 2
    | v4l2_pix_fmt.V4L2_PIX_FMT_YVU444M => 2
    | _ => 1
  let pv : Nat :=
    match rpf.fourcc with
    | v4l2_pix_fmt.V4L2_PIX_FMT_YVU420M => 1
    | v4l2_pix_fmt.V4L2_PIX_FMT_YVU422M => 1
    | v4l2_pix_fmt.V4L2_PIX_FMT_YVU444M => 1
    | _ => 2
  let d : Nat × Nat × Nat :=
    match rpf.fourcc with
    | v4l2_pix_fmt.V4L2_PIX_FMT_YUV420M => (stride, stride / 2, stride / 2)
    | v4l2_pix_fmt.V4L2_PIX_FMT_YVU420M => (stride, stride / 2, stride / 2)
    | v4l2_pix_fmt.V4L2_PIX_FMT_YUV422M => (2 * stride, stride, stride)
    | v4l2_pix_fmt.V4L2_PIX_FMT_YVU422M => (2 * stride, stride, stride)
    | v4l2_pix_fmt.V4L2_PIX_FMT_YUV444M => (3 * stride, 3 * stride, 3 * stride)
    | v4l2_pix_fmt.V4L2_PIX_FMT_YVU444M => (3 * stride, 3 * stride, 3 * stride)
    | v4l2_pix_fmt.other => (stride, stride, stride)
  { y_top_addr := rpf.mem_addr 0 + rpf.offsets 0
    y_bot_addr := rpf.mem_addr 0 + rpf.offsets 0 + d.1
    u_top_addr := rpf.mem_addr pu + rpf.offsets 1
    u_bot_addr := rpf.mem_addr pu + rpf.offsets 1 + d.2.1
    v_top_addr := rpf.mem_addr pv + rpf.offsets 1
    v_bot_addr := rpf.mem_addr pv + rpf.offsets 1 + d.2.2 }

/-- The plane addresses with planes 1 and 2 exchanged. -/
def swap_chroma_planes (mem_addr : Nat → Nat) : Nat → Nat :=
  fun i => if i = 1 then mem_addr 2 else if i = 2 then mem_addr 1 else mem_addr i

/-- The matching YUV format of a YVU format (any other format is itself). -/
def yuv_of_yvu : v4l2_pix_fmt → v4l2_pix_fmt
  | v4l2_pix_fmt.V4L2_PIX_FMT_YVU420M => v4l2_pix_fmt.V4L2_PIX_FMT_YUV420M
  | v4l2_pix_fmt.V4L2_PIX_FMT_YVU422M => v4l2_pix_fmt.V4L2_PIX_FMT_YUV422M
  | v4l2_pix_fmt.V4L2_PIX_FMT_YVU444M => v4l2_pix_fmt.V4L2_PIX_FMT_YUV444M
  | f => f

/-- An example input port: port 1, a 4:2:0 format, 100 pixels wide at 8 bits
per pixel. -/
def ex_rpf : vsp1_rwpf :=
  { fourcc := v4l2_pix_fmt.V4L2_PIX_FMT_YVU420M, bpp0 := 8, crop_width := 100, index := 1,
    mem_addr := fun i => 0x1000000 * (i + 1), offsets := fun i => 0x100 * (i + 1) }

/-- A buffer after the six address-table stores of `vsp1_dl_set_addr_auto_fld`
for the table at byte offset `t`, first slot `s` and addresses `a`. -/
def auto_fld_table (m : Nat → Nat) (t s : Nat) (a : auto_fld_addrs) : Nat → Nat :=
  store32 (store32 (store32 (store32 (store32 (store32 m
    (t + 4 * s) a.y_top_addr)
    (t + 4 * (s + 1)) a.y_bot_addr)
    (t + 4 * (s + 2)) a.u_top_addr)
    (t + 4 * (s + 3)) a.u_bot_addr)
    (t + 4 * (s + 4)) a.v_top_addr)
    (t + 4 * (s + 5)) a.v_bot_addr

/-! ## The free pool at pointer level

The sequence view of `dlm->free` is exact while every list is linked in at most
once.  What `list_add_tail` does to a list that is already linked in shows only
on the ring of `next` and `prev` pointers, modelled here. -/

/-- What a `next` or `prev` pointer of the free pool can hold: the address of
the head `dlm->free`, the address of the `list` member of a display list, null
(the member of a list that `kzalloc` returned and that was never linked), or a
poison value left by `list_del`. -/
inductive pool_node where
  | head
  | entry (dl : Nat)
  | null
  | poison
  deriving DecidableEq, Repr

/-- The test whether a pointer holds the address of a `struct list_head`. -/
def pool_node.is_object : pool_node → Bool
  | pool_node.head => true
  | pool_node.entry _ => true
  | _ => false

/-- The `next` and `prev` members of the head of the free pool and of the `list`
member of every display list. -/
structure pool_ring where
  next : pool_node → pool_node
  prev : pool_node → pool_node

/-- The call `INIT_LIST_HEAD(&dlm->free)` of `vsp1_dlm_create`, the `list`
members of the lists being zero. -/
def pool_init : pool_ring :=
  { next := fun n => if n = pool_node.head then pool_node.head else pool_node.null,
    prev := fun n => if n = pool_node.head then pool_node.head else pool_node.null }

/-- The helper `__list_add(new, prev, next)` of `list_add_tail`, with its four
stores in their order: `next->prev = new; new->next = next; new->prev = prev;
prev->next = new`.  A store through a pointer that is not the address of a
node does not return normally. -/
def __list_add (r : pool_ring) (new prev next : pool_node) : Option pool_ring :=
  if new.is_object && prev.is_object && next.is_object then
    let r1 := { r with prev := Function.update r.prev next new }
    let r2 := { r1 with next := Function.update r1.next new next }
    let r3 := { r2 with prev := Function.update r2.prev new prev }
    some { r3 with next := Function.update r3.next prev new }
  else none

/-- The call `list_add_tail(new, &dlm->free)`. -/
def list_add_tail_pool (r : pool_ring) (new : pool_node) : Option pool_ring :=
  __list_add r new (r.prev pool_node.head) pool_node.head

/-- The test `list_empty(&dlm->free)`. -/
def list_empty_pool (r : pool_ring) : Bool :=
  r.next pool_node.head == pool_node.head

/-- The call `list_del(entry)`: the neighbours are linked to each other and the
pointers of the entry are poisoned. -/
def list_del_pool (r : pool_ring) (entry : pool_node) : Option pool_ring :=
  if entry.is_object && (r.prev entry).is_object && (r.next entry).is_object then
    let r1 := { r with prev := Function.update r.prev (r.next entry) (r.prev entry) }
    let r2 := { r1 with next := Function.update r1.next (r.prev entry) (r.next entry) }
    let r3 := { r2 with next := Function.update r2.next entry pool_node.poison }
    some { r3 with prev := Function.update r3.prev entry pool_node.poison }
  else none

/-- The pool part of `vsp1_dl_list_get` at pointer level: the list handed out,
if any, and the ring after `list_del`. -/
def vsp1_dl_list_get_pool (r : pool_ring) : Option (Option Nat × pool_ring) :=
  if list_empty_pool r then some (none, r)
  else
    match r.next pool_node.head with
    | pool_node.entry dl =>
      (list_del_pool r (pool_node.entry dl)).map (fun r1 => (some dl, r1))
    | _ => none

/-- The last statement of `__vsp1_dl_list_put` at pointer level:
`list_add_tail(&dl->list, &dl->dlm->free)`. -/
def vsp1_dl_list_put_pool (r : pool_ring) (dl : Nat) : Option pool_ring :=
  list_add_tail_pool r (pool_node.entry dl)

/-- The pool after the allocation loop of `vsp1_dlm_create` linked in the lists
`dls` one after the other. -/
def vsp1_dlm_create_pool (dls : List Nat) : Option pool_ring :=
  dls.foldl (fun r dl => r.bind (fun r1 => vsp1_dl_list_put_pool r1 dl)) (some pool_init)

/-- A traversal `list_for_each_entry(dl, &dlm->free, list)` from node `pos`,
collecting the lists it visits; none when it does not come back to the head
within `fuel` steps or follows a pointer that is not the address of a node. -/
def pool_walk (r : pool_ring) : Nat → pool_node → Option (List Nat)
  | 0, _ => none
  | _ + 1, pool_node.head => some []
  | fuel + 1, pool_node.entry dl =>
    (pool_walk r fuel (r.next (pool_node.entry dl))).map (fun l => dl :: l)
  | _ + 1, _ => none

/-- The lists of the pool in traversal order. -/
def pool_entries (r : pool_ring) (fuel : Nat) : Option (List Nat) :=
  pool_walk r fuel (r.next pool_node.head)

/-- The node reached from `n` after the lists `l`. -/
def pool_last : pool_node → List Nat → pool_node
  | n, [] => n
  | _, x :: xs => pool_last (pool_node.entry x) xs

/-- From node `n` the `next` pointers lead through the lists `l`, in order, and
then to the head, and the `prev` pointers lead back the same way. -/
def pool_chain (r : pool_ring) : pool_node → List Nat → Bool
  | n, [] => r.next n == pool_node.head && r.prev pool_node.head == n
  | n, x :: xs =>
    r.next n == pool_node.entry x && r.prev (pool_node.entry x) == n &&
      pool_chain r (pool_node.entry x) xs

/-- The ring is a well-formed circular list holding exactly the lists `l`, in
order, each once. -/
def pool_repr (r : pool_ring) (l : List Nat) : Prop :=
  pool_chain r pool_node.head l = true ∧ l.Nodup

instance (r : pool_ring) (l : List Nat) : Decidable (pool_repr r l) := by
  unfold pool_repr
  infer_instance

/-- The ring of the fresh headerless example manager (lists 0, 1, 2, 3). -/
def ex_pool_4 : pool_ring := (vsp1_dlm_create_pool [0, 1, 2, 3]).get rfl

/-- The ring of the example pool after list 0 was handed out (lists 1, 2, 3). -/
def ex_pool_3 : pool_ring := ((vsp1_dl_list_get_pool ex_pool_4).get rfl).2

/-- The ring of the header-mode example manager after list 0 was handed out and
released again (lists 1, 0). -/
def ex_pool_header_2 : pool_ring :=
  (vsp1_dl_list_put_pool
    ((vsp1_dl_list_get_pool ((vsp1_dlm_create_pool [0, 1]).get rfl)).get rfl).2 0).get rfl

/-! ## Chains of display lists -/

/-- From the chain node of list `n` the `next` pointers lead through the lists
`kids`, in order, and then back to the chain node of `head`: when `n` is
`head`, the lists `kids` are the chained children of `head`. -/
def chain_children (d : vsp1_dl_manager) (head : Nat) : Nat → List Nat → Bool
  | n, [] => (d.lists n).chain.next == some head
  | n, c :: cs => (d.lists n).chain.next == some c && chain_children d head c cs

/-- The tail of `__vsp1_dl_list_put` run for the lists `kids` one after the
other. -/
def vsp1_dl_list_put_tail_all (d : vsp1_dl_manager) (kids : List Nat) : vsp1_dl_manager :=
  kids.foldl vsp1_dl_list_put_tail d

/-- A second example fragment, holding one entry. -/
def ex_fragment_b : vsp1_dl_body :=
  vsp1_dl_fragment_write
    (vsp1_dl_body_init { dma := 0xa00000, mem := fun _ => 0 } 16 0) 0x2004 6

/-- Header mode: lists 0 and 1 handed out. -/
def ex_chain_0 : vsp1_dl_manager := (vsp1_dl_list_get ex_header_1).2

/-- Header mode: one entry and one fragment in list 0, two entries and one
fragment in list 1. -/
def ex_chain_1 : vsp1_dl_manager :=
  (vsp1_dl_list_add_fragment
    (vsp1_dl_list_write (vsp1_dl_list_write
      (vsp1_dl_list_add_fragment (vsp1_dl_list_write ex_chain_0 0 0x1000 7) 0 ex_fragment).2
      1 0x1004 8) 1 0x1008 9) 1 ex_fragment_b).2

/-- Header mode: list 1 chained to the head list 0. -/
def ex_chain_2 : vsp1_dl_manager := ((vsp1_dl_list_add_chain ex_chain_1 0 1).get rfl).2

/-- The word `dl->header->flags`, for a list that has a header. -/
def header_flags (l : vsp1_dl_list) : Option Nat :=
  l.header.map (fun h => l.body0.entries (h + HDR_FLAGS))

/-- The word `dl->header->next_header`, for a list that has a header. -/
def header_next_header (l : vsp1_dl_list) : Option Nat :=
  l.header.map (fun h => l.body0.entries (h + HDR_NEXT_HEADER))

/-- The list has a header, and its extended body lies `VSP1_DL_EXT_OFFSET` bytes
behind the header, as `vsp1_dl_list_alloc` lays a header-mode list out. -/
def header_layout (l : vsp1_dl_list) : Bool :=
  match l.header, l.ext_body with
  | some h, some e => e == h + VSP1_DL_EXT_OFFSET
  | _, _ => false

/-- The flags that `vsp1_dl_list_fill_header` leaves in the header of the last
list of a chain: `VSP1_DLH_INT_ENABLE`, and `VSP1_DLH_AUTO_START` as well on a
device with `info->header_mode`. -/
def last_header_flags (vsp1 : vsp1_device) : Nat :=
  if vsp1.info.header_mode then VSP1_DLH_INT_ENABLE ||| VSP1_DLH_AUTO_START
  else VSP1_DLH_INT_ENABLE

/-- The headers of the lists `l`, taken as a chain in this order: every list but
the last has flags `VSP1_DLH_AUTO_START` and the (32-bit) header address of its
successor in `next_header`; the last has the flags of `last_header_flags`. -/
def chain_headers (d : vsp1_dl_manager) : List Nat → Bool
  | [] => true
  | [c] => header_flags (d.lists c) == some (last_header_flags d.vsp1)
  | c :: c' :: cs =>
    header_flags (d.lists c) == some VSP1_DLH_AUTO_START &&
      header_next_header (d.lists c) == some (u32 (d.lists c').dma) &&
      chain_headers d (c' :: cs)

/-- The test of `vsp1_dl_list_fill_header` for its early return: a gen3 VSPDL
device without BRS or without the second LIF. -/
def fill_header_returns_early (vsp1 : vsp1_device) : Bool :=
  vsp1.gen3_vspdl && (!vsp1.brs || !vsp1.lif1)

/-- Header mode: the chain of lists 0 and 1 committed. -/
def ex_chain_3 : vsp1_dl_manager :=
  (vsp1_dl_list_commit 3 (set_mmio ex_chain_2 ex_mmio_idle) 0 0).get rfl

/-- Hardware status with the field bit of output 0 set (example register map). -/
def ex_mmio_field : Nat → Nat := fun r => if r = 56 then 2 ^ 28 else 0

/-- Two lists agree in everything but the content of the buffer of `body0`. -/
def same_but_entries (a b : vsp1_dl_list) : Prop :=
  b = { a with body0 := { a.body0 with entries := b.body0.entries } }

/-- The manager states `d` and `e` agree in everything but the buffer content of
the lists `dls`. -/
def only_entries_differ (d e : vsp1_dl_manager) (dls : List Nat) : Prop :=
  e = { d with lists := e.lists } ∧ (∀ x, same_but_entries (d.lists x) (e.lists x)) ∧
    ∀ x, x ∉ dls → e.lists x = d.lists x

/-- The chain nodes form a well-formed ring: from the node of list `n` the
`next` pointers lead through the lists `kids`, in order, and back to the node of
`head`, and the `prev` pointers lead back the same way. -/
def chain_ring (d : vsp1_dl_manager) (head : Nat) : Nat → List Nat → Bool
  | n, [] => (d.lists n).chain.next == some head && (d.lists head).chain.prev == some n
  | n, c :: cs =>
    (d.lists n).chain.next == some c && (d.lists c).chain.prev == some n &&
      chain_ring d head c cs

/-! ## Garbage collection of fragments -/

/-- The function `vsp1_dl_fragment_free`: the DMA memory and the body object are
released.  `freed` is the log of the bodies released so far, oldest first; a
null pointer is left alone. -/
def vsp1_dl_fragment_free (freed : List vsp1_dl_body) (dlb : Option vsp1_dl_body) :
    List vsp1_dl_body :=
  match dlb with
  | none => freed
  | some b => freed ++ [b]

/-- The function `vsp1_dlm_fragments_free`.  Every round of the `while` loop
takes the first body off `gc_fragments` (`list_first_entry`, `list_del`) and
frees it; the lock that is dropped around the free call is not modelled, so
nothing is added to the queue during the run.  The result is the manager, the
log of released bodies and the number of rounds; `fuel` bounds the number of
loop tests. -/
def vsp1_dlm_fragments_free :
    Nat → vsp1_dl_manager → List vsp1_dl_body → Nat →
      Option (vsp1_dl_manager × List vsp1_dl_body × Nat)
  | 0, _, _, _ => none
  | fuel + 1, dlm, freed, rounds =>
    match dlm.gc_fragments with
    | [] => some (dlm, freed, rounds)
    | dlb :: rest =>
      vsp1_dlm_fragments_free fuel { dlm with gc_fragments := rest }
        (vsp1_dl_fragment_free freed (some dlb)) (rounds + 1)

/-- The work function `vsp1_dlm_garbage_collect`. -/
def vsp1_dlm_garbage_collect (fuel : Nat) (dlm : vsp1_dl_manager) :
    Option (vsp1_dl_manager × List vsp1_dl_body × Nat) :=
  vsp1_dlm_fragments_free fuel dlm [] 0

/-! ## Size of the allocation of a body -/

/-- The size that `vsp1_dl_body_init` requests from `dma_alloc_wc`:
`dlb->size + (VSP1_DL_EXT_OFFSET * 2)`. -/
def dma_alloc_wc_size (dlb : vsp1_dl_body) : Nat :=
  dlb.size + VSP1_DL_EXT_OFFSET * 2

/-- Size of the packed `struct vsp1_ext_dl_body` (four `u32`). -/
def sizeof_vsp1_ext_dl_body : Nat := 16

/-- Size of the packed `struct vsp1_ext_addr` (one `u32`). -/
def sizeof_vsp1_ext_addr : Nat := 4

/-- The example input port with port index 3. -/
def ex_rpf_3 : vsp1_rwpf := { ex_rpf with index := 3 }

/-! ## Vocabulary for the header -/

/-- The local `rpf_update` of `vsp1_dl_list_fill_header` when the function
reaches the chain test: the loop over the BRS range for `lif_index == 1`, over
the BRU range otherwise, with the ranges of the gen3 VSPDL branch or of the
other branch.  The unsigned subtraction wraps modulo `2 ^ 32`. -/
def fill_header_rpf_update (vsp1 : vsp1_device) (lif_index : Nat) : Nat :=
  let init_bru_num := 0
  let init_brs_num :=
    if vsp1.gen3_vspdl then u32 (vsp1.info.rpf_count + 2 ^ 32 - u32 vsp1.num_brs_inputs)
    else 0
  let end_bru_num :=
    if vsp1.gen3_vspdl then u32 (vsp1.info.rpf_count + 2 ^ 32 - u32 vsp1.num_brs_inputs)
    else vsp1.info.rpf_count
  let end_brs_num := if vsp1.gen3_vspdl then vsp1.info.rpf_count else 0
  if lif_index = 1 then rpf_update_loop init_brs_num end_brs_num
  else rpf_update_loop init_bru_num end_bru_num

/-- The state of the fragment loop of `vsp1_dl_list_fill_header` for list `l`
with header at byte offset `h`, after the store to `lists[0].num_bytes`: the
buffer, `num_lists` and the byte offset of `hdr`. -/
def fill_header_loop (l : vsp1_dl_list) (h : Nat) : (Nat → Nat) × Nat × Nat :=
  fill_header_fragments l.fragments
    (store32 l.body0.entries (h + HDR_LIST_NUM_BYTES 0)
      (l.body0.num_entries * sizeof_vsp1_dl_header_list), 0, h + HDR_LIST_NUM_BYTES 0)

/-- The word at byte offset `off` of the header of a list that has one. -/
def header_word (l : vsp1_dl_list) (off : Nat) : Option Nat :=
  l.header.map (fun h => l.body0.entries (h + off))

/-- The word at byte offset `off` of the extended body of a list that has one. -/
def ext_body_word (l : vsp1_dl_list) (off : Nat) : Option Nat :=
  l.ext_body.map (fun e => l.body0.entries (e + off))

/-- An example gen3 VSPDL device without BRS. -/
def ex_device_vspdl : vsp1_device := { ex_device true with gen3_vspdl := true }

/-- An example gen3 VSPDL device with BRS and second LIF, five input ports, two
of them routed to the BRS. -/
def ex_device_brs : vsp1_device :=
  { ex_device true with gen3_vspdl := true, brs := true, lif1 := true, num_brs_inputs := 2 }

/-- The header-mode example (list 0 handed out, one entry, one fragment) on the
gen3 VSPDL device without BRS. -/
def ex_header_1w_vspdl : vsp1_dl_manager := { ex_header_1w with vsp1 := ex_device_vspdl }

/-- The header-mode example (list 0 handed out, one entry, one fragment) on the
gen3 VSPDL device with BRS and second LIF. -/
def ex_header_1w_brs : vsp1_dl_manager := { ex_header_1w with vsp1 := ex_device_brs }

/-! ## Ownership of the lists of a headerless manager -/

/-- The places a list can be in, one after the other: the free pool, the
active, queued and pending slot, and the hands of the caller. -/
def dl_owners (c : dl_client) : List Nat :=
  c.dlm.free ++ c.dlm.active.toList ++ c.dlm.queued.toList ++ c.dlm.pending.toList ++
    c.held

/-- The client states reachable from the manager state `init` by calls of
`vsp1_dl_list_get`, `vsp1_dl_list_write`, `vsp1_dl_list_commit`,
`vsp1_dlm_irq_display_start`, `vsp1_dlm_irq_frame_end`, `vsp1_dlm_reset` and
`vsp1_dl_list_put`, where the caller commits and releases only lists it holds,
does not write to a list that is in the free pool, a committed or released list
leaves its hands, and `mmio` is the hardware status at the time of a call. -/
inductive client_trace (fuel : Nat) (init : vsp1_dl_manager) : dl_client → Prop
  | start : client_trace fuel init { dlm := init, held := [] }
  | get_some (c : dl_client) (dl : Nat) (d : vsp1_dl_manager) :
      client_trace fuel init c → vsp1_dl_list_get c.dlm = (some dl, d) →
      client_trace fuel init { dlm := d, held := dl :: c.held }
  | get_none (c : dl_client) (d : vsp1_dl_manager) :
      client_trace fuel init c → vsp1_dl_list_get c.dlm = (none, d) →
      client_trace fuel init { dlm := d, held := c.held }
  | write (c : dl_client) (dl reg data : Nat) :
      client_trace fuel init c → dl ∉ c.dlm.free →
      client_trace fuel init { dlm := vsp1_dl_list_write c.dlm dl reg data, held := c.held }
  | commit (c : dl_client) (dl lif_index : Nat) (mmio : Nat → Nat) (d : vsp1_dl_manager) :
      client_trace fuel init c → dl ∈ c.held →
      vsp1_dl_list_commit fuel (set_mmio c.dlm mmio) dl lif_index = some d →
      client_trace fuel init { dlm := d, held := c.held.erase dl }
  | display_start (c : dl_client) (mmio : Nat → Nat) (d : vsp1_dl_manager) :
      client_trace fuel init c →
      vsp1_dlm_irq_display_start fuel (set_mmio c.dlm mmio) = some d →
      client_trace fuel init { dlm := d, held := c.held }
  | frame_end (c : dl_client) (interlaced : Bool) (mmio : Nat → Nat) (r : Bool)
      (d : vsp1_dl_manager) :
      client_trace fuel init c →
      vsp1_dlm_irq_frame_end fuel (set_mmio c.dlm mmio) interlaced = some (r, d) →
      client_trace fuel init { dlm := d, held := c.held }
  | reset (c : dl_client) (mmio : Nat → Nat) (d : vsp1_dl_manager) :
      client_trace fuel init c →
      vsp1_dlm_reset fuel (set_mmio c.dlm mmio) = some d →
      client_trace fuel init { dlm := d, held := c.held }
  | put (c : dl_client) (dl : Nat) (mmio : Nat → Nat) (d : vsp1_dl_manager) :
      client_trace fuel init c → dl ∈ c.held →
      vsp1_dl_list_put fuel (set_mmio c.dlm mmio) (some dl) = some d →
      client_trace fuel init { dlm := d, held := c.held.erase dl }

/-- The ownership invariant of a headerless manager with `n` lists: the places
of `dl_owners` hold the lists `0 .. n - 1`, each once; no list carries a chain
marker; the lists of the free pool have entry count 0. -/
structure own_inv (n : Nat) (c : dl_client) : Prop where
  perm : (dl_owners c).Perm (List.range n)
  no_chain : ∀ x, (c.dlm.lists x).has_chain = false
  free_zero : ∀ x ∈ c.dlm.free, (c.dlm.lists x).body0.num_entries = 0
  mode : c.dlm.mode = vsp1_dl_mode.VSP1_DL_MODE_HEADERLESS

/-- Headerless: list 0 handed out and released again by the caller. -/
def ex_headerless_1p : vsp1_dl_manager :=
  (vsp1_dl_list_put 1 ex_headerless_1 (some 0)).get rfl

/-! ## Basic facts about releasing a list -/

theorem put_null (fuel : Nat) (dlm : vsp1_dl_manager) :
    __vsp1_dl_list_put fuel dlm none = some dlm := by
  cases fuel <;> simp [__vsp1_dl_list_put]

theorem put_no_chain (fuel : Nat) (dlm : vsp1_dl_manager) (dl : Nat)
    (h : (dlm.lists dl).has_chain = false) :
    __vsp1_dl_list_put (fuel + 1) dlm (some dl) = some (vsp1_dl_list_put_tail dlm dl) := by
  simp [__vsp1_dl_list_put, h]

theorem put_tail_free (dlm : vsp1_dl_manager) (dl : Nat) :
    (vsp1_dl_list_put_tail dlm dl).free = dlm.free ++ [dl] := by
  unfold vsp1_dl_list_put_tail set_list
  by_cases h : (dlm.lists dl).fragments = [] <;> simp [h]

theorem put_tail_frame (dlm : vsp1_dl_manager) (dl : Nat) :
    (vsp1_dl_list_put_tail dlm dl).active = dlm.active ∧
    (vsp1_dl_list_put_tail dlm dl).queued = dlm.queued ∧
    (vsp1_dl_list_put_tail dlm dl).pending = dlm.pending ∧
    (vsp1_dl_list_put_tail dlm dl).vsp1 = dlm.vsp1 ∧
    (vsp1_dl_list_put_tail dlm dl).mode = dlm.mode ∧
    (vsp1_dl_list_put_tail dlm dl).index = dlm.index := by
  unfold vsp1_dl_list_put_tail set_list
  by_cases h : (dlm.lists dl).fragments = [] <;> simp [h]

theorem put_tail_lists_self (dlm : vsp1_dl_manager) (dl : Nat) :
    (vsp1_dl_list_put_tail dlm dl).lists dl =
      { dlm.lists dl with
        has_chain := false, fragments := []
        body0 := { (dlm.lists dl).body0 with num_entries := 0 } } := by
  unfold vsp1_dl_list_put_tail set_list
  by_cases h : (dlm.lists dl).fragments = [] <;> simp [h]

theorem put_tail_lists_other (dlm : vsp1_dl_manager) (dl x : Nat) (hx : x ≠ dl) :
    (vsp1_dl_list_put_tail dlm dl).lists x = dlm.lists x := by
  unfold vsp1_dl_list_put_tail set_list
  by_cases h : (dlm.lists dl).fragments = [] <;> simp [h, hx]

theorem put_tail_gc (dlm : vsp1_dl_manager) (dl : Nat) :
    (vsp1_dl_list_put_tail dlm dl).gc_fragments =
      (dlm.lists dl).fragments ++ dlm.gc_fragments := by
  unfold vsp1_dl_list_put_tail set_list
  by_cases h : (dlm.lists dl).fragments = [] <;> simp [h]


theorem put_frame_refl (a : vsp1_dl_manager) : put_frame a a := by
  simp [put_frame]

theorem put_frame_trans {a b c : vsp1_dl_manager} (h1 : put_frame a b) (h2 : put_frame b c) :
    put_frame a c := by
  obtain ⟨h11, h12, h13, h14, h15, h16⟩ := h1
  obtain ⟨h21, h22, h23, h24, h25, h26⟩ := h2
  exact ⟨h21.trans h11, h22.trans h12, h23.trans h13, h24.trans h14, h25.trans h15,
    h26.trans h16⟩

theorem put_frame_tail (dlm : vsp1_dl_manager) (dl : Nat) :
    put_frame dlm (vsp1_dl_list_put_tail dlm dl) :=
  put_tail_frame dlm dl

theorem put_frame_both (fuel : Nat) :
    (∀ dlm o d, __vsp1_dl_list_put fuel dlm o = some d → put_frame dlm d) ∧
    (∀ dlm head pos d, vsp1_dl_list_put_chain fuel dlm head pos = some d → put_frame dlm d) := by
  induction fuel with
  | zero =>
    constructor
    · intro dlm o d h
      cases o with
      | none =>
        simp [__vsp1_dl_list_put] at h
        subst h
        exact put_frame_refl _
      | some x => simp [__vsp1_dl_list_put] at h
    · intro dlm head pos d h
      simp [vsp1_dl_list_put_chain] at h
  | succ n ih =>
    obtain ⟨ih1, ih2⟩ := ih
    constructor
    · intro dlm o d h
      cases o with
      | none =>
        simp [__vsp1_dl_list_put] at h
        subst h
        exact put_frame_refl _
      | some x =>
        simp only [__vsp1_dl_list_put] at h
        by_cases hc : (dlm.lists x).has_chain = true
        · simp only [hc, if_true] at h
          cases hr : vsp1_dl_list_put_chain n dlm x (dlm.lists x).chain.next with
          | none => simp [hr] at h
          | some d1 =>
            simp only [hr, Option.some.injEq] at h
            subst h
            exact put_frame_trans (ih2 _ _ _ _ hr) (put_frame_tail _ _)
        · simp only [hc] at h
          simp at h
          subst h
          exact put_frame_tail _ _
    · intro dlm head pos d h
      cases pos with
      | none => simp [vsp1_dl_list_put_chain] at h
      | some c =>
        simp only [vsp1_dl_list_put_chain] at h
        by_cases hc : c = head
        · simp [hc] at h
          subst h
          exact put_frame_refl _
        · simp only [hc, if_false] at h
          cases hr : __vsp1_dl_list_put n dlm (some c) with
          | none => simp [hr] at h
          | some d1 =>
            simp only [hr] at h
            exact put_frame_trans (ih1 _ _ _ hr) (ih2 _ _ _ _ h)

theorem put_frame_of_put {fuel : Nat} {dlm d : vsp1_dl_manager} {o : Option Nat}
    (h : __vsp1_dl_list_put fuel dlm o = some d) : put_frame dlm d :=
  (put_frame_both fuel).1 dlm o d h


/-! ## Single calls -/

theorem put_retire (fuel : Nat) (dlm : vsp1_dl_manager) (o : Option Nat)
    (hchain : ∀ p, o = some p → (dlm.lists p).has_chain = false) :
    ∃ d, __vsp1_dl_list_put (fuel + 1) dlm o = some d ∧ put_frame dlm d ∧
      (o = none → d = dlm) ∧
      (∀ p, o = some p → d = vsp1_dl_list_put_tail dlm p) := by
  cases o with
  | none => exact ⟨dlm, put_null _ _, put_frame_refl _, fun _ => rfl, fun p hp => by cases hp⟩
  | some p =>
    refine ⟨_, put_no_chain fuel dlm p (hchain p rfl), put_frame_tail _ _, ?_, ?_⟩
    · intro h
      cases h
    · intro q hq
      cases hq
      rfl

/-- C3: in headerless mode, when the update-pending flag reads as set, commit
writes no register (the device is unchanged), releases the previously pending
list (if any) to the tail of the free pool with its entry count, fragments and
chain marker reset, sets pending to the committed list and leaves active and
queued unchanged.  The released list carries no chain marker, as is the case
for every list of a headerless manager. -/
theorem commit_headerless_update_set (fuel : Nat) (dlm : vsp1_dl_manager) (dl lif_index : Nat)
    (hmode : dlm.mode = vsp1_dl_mode.VSP1_DL_MODE_HEADERLESS)
    (hupd : vsp1_read dlm.vsp1 dlm.vsp1.regs.VI6_DL_BODY_SIZE &&&
      dlm.vsp1.regs.VI6_DL_BODY_SIZE_UPD ≠ 0)
    (hchain : ∀ p, dlm.pending = some p → (dlm.lists p).has_chain = false) :
    ∃ d, vsp1_dl_list_commit (fuel + 1) dlm dl lif_index = some d ∧
      d.vsp1 = dlm.vsp1 ∧ d.pending = some dl ∧ d.active = dlm.active ∧
      d.queued = dlm.queued ∧
      (dlm.pending = none → d.free = dlm.free ∧ d.lists = dlm.lists ∧
        d.gc_fragments = dlm.gc_fragments) ∧
      (∀ p, dlm.pending = some p →
        d.free = dlm.free ++ [p] ∧ (d.lists p).body0.num_entries = 0 ∧
        (d.lists p).fragments = [] ∧ (d.lists p).has_chain = false ∧
        d.gc_fragments = (dlm.lists p).fragments ++ dlm.gc_fragments ∧
        ∀ x, x ≠ p → d.lists x = dlm.lists x) := by
  obtain ⟨d1, hput, hfr, hnone, hsome⟩ := put_retire fuel dlm dlm.pending hchain
  obtain ⟨ha, hq, _, hv, _, _⟩ := hfr
  refine ⟨{ d1 with pending := some dl }, ?_, hv, rfl, ha, hq, ?_, ?_⟩
  · simp [vsp1_dl_list_commit, hmode, hupd, hput]
  · intro h
    have := hnone h
    subst this
    exact ⟨rfl, rfl, rfl⟩
  · intro p hp
    have := hsome p hp
    subst this
    refine ⟨put_tail_free _ _, ?_, ?_, ?_, put_tail_gc _ _, ?_⟩
    · show ((vsp1_dl_list_put_tail dlm p).lists p).body0.num_entries = 0
      rw [put_tail_lists_self]
    · show ((vsp1_dl_list_put_tail dlm p).lists p).fragments = []
      rw [put_tail_lists_self]
    · show ((vsp1_dl_list_put_tail dlm p).lists p).has_chain = false
      rw [put_tail_lists_self]
    · intro x hx
      exact put_tail_lists_other dlm p x hx

theorem put_tail_retired (dlm : vsp1_dl_manager) (p : Nat) :
    (vsp1_dl_list_put_tail dlm p).free = dlm.free ++ [p] ∧
    ((vsp1_dl_list_put_tail dlm p).lists p).body0.num_entries = 0 ∧
    ((vsp1_dl_list_put_tail dlm p).lists p).fragments = [] ∧
    ((vsp1_dl_list_put_tail dlm p).lists p).has_chain = false ∧
    (vsp1_dl_list_put_tail dlm p).gc_fragments = (dlm.lists p).fragments ++ dlm.gc_fragments ∧
    ∀ x, x ≠ p → (vsp1_dl_list_put_tail dlm p).lists x = dlm.lists x := by
  refine ⟨put_tail_free _ _, ?_, ?_, ?_, put_tail_gc _ _, ?_⟩
  · rw [put_tail_lists_self]
  · rw [put_tail_lists_self]
  · rw [put_tail_lists_self]
  · intro x hx
    exact put_tail_lists_other dlm p x hx

theorem device_programmed_writes (vsp1 : vsp1_device) (l : vsp1_dl_list) :
    (device_programmed vsp1 l).writes = vsp1.writes ++
      [(vsp1.regs.VI6_DL_HDR_ADDR 0, u32 l.body0.dma),
       (vsp1.regs.VI6_DL_BODY_SIZE,
        u32 (vsp1.regs.VI6_DL_BODY_SIZE_UPD ||| l.body0.num_entries * 8))] := by
  unfold device_programmed
  by_cases hq : vsp1.ths_quirks &&& vsp1.regs.VSP1_UNDERRUN_WORKAROUND = 0 <;>
    simp [hq, vsp1_write, sizeof_vsp1_dl_header_list]

theorem commit_headerless_clear_eq (fuel : Nat) (dlm : vsp1_dl_manager) (dl lif_index : Nat)
    (hmode : dlm.mode = vsp1_dl_mode.VSP1_DL_MODE_HEADERLESS)
    (hupd : vsp1_read dlm.vsp1 dlm.vsp1.regs.VI6_DL_BODY_SIZE &&&
      dlm.vsp1.regs.VI6_DL_BODY_SIZE_UPD = 0) :
    vsp1_dl_list_commit fuel dlm dl lif_index =
      (match __vsp1_dl_list_put fuel
          { dlm with vsp1 := device_programmed dlm.vsp1 (dlm.lists dl) } dlm.queued with
        | none => none
        | some d2 => some { d2 with queued := some dl }) := by
  simp only [vsp1_dl_list_commit, hmode, hupd, device_programmed]
  simp only [reduceCtorEq, if_false, ne_eq, not_true_eq_false, decide_False]

/-- C4: in headerless mode, when the update-pending flag reads as clear, commit
writes the device address of body0 to `VI6_DL_HDR_ADDR(0)` and
`VI6_DL_BODY_SIZE_UPD | 8 * entry count` to `VI6_DL_BODY_SIZE` (as 32-bit
values; they are the untruncated values when the address and the flag fit in
32 bits and the entry count is within the capacity), releases the previously
queued list (if any) to the tail of the free pool, sets queued to the committed
list and leaves active and pending unchanged. -/
theorem commit_headerless_update_clear (fuel : Nat) (dlm : vsp1_dl_manager)
    (dl lif_index : Nat)
    (hmode : dlm.mode = vsp1_dl_mode.VSP1_DL_MODE_HEADERLESS)
    (hupd : vsp1_read dlm.vsp1 dlm.vsp1.regs.VI6_DL_BODY_SIZE &&&
      dlm.vsp1.regs.VI6_DL_BODY_SIZE_UPD = 0)
    (hchain : ∀ q, dlm.queued = some q → (dlm.lists q).has_chain = false) :
    ∃ d, vsp1_dl_list_commit (fuel + 1) dlm dl lif_index = some d ∧
      d.vsp1.writes = dlm.vsp1.writes ++
        [(dlm.vsp1.regs.VI6_DL_HDR_ADDR 0, u32 (dlm.lists dl).body0.dma),
         (dlm.vsp1.regs.VI6_DL_BODY_SIZE,
          u32 (dlm.vsp1.regs.VI6_DL_BODY_SIZE_UPD ||| (dlm.lists dl).body0.num_entries * 8))] ∧
      ((dlm.lists dl).body0.dma < 2 ^ 32 → dlm.vsp1.regs.VI6_DL_BODY_SIZE_UPD < 2 ^ 32 →
        (dlm.lists dl).body0.num_entries ≤ VSP1_DL_NUM_ENTRIES →
        d.vsp1.writes = dlm.vsp1.writes ++
          [(dlm.vsp1.regs.VI6_DL_HDR_ADDR 0, (dlm.lists dl).body0.dma),
           (dlm.vsp1.regs.VI6_DL_BODY_SIZE,
            dlm.vsp1.regs.VI6_DL_BODY_SIZE_UPD ||| 8 * (dlm.lists dl).body0.num_entries)]) ∧
      d.queued = some dl ∧ d.active = dlm.active ∧ d.pending = dlm.pending ∧
      (dlm.queued = none → d.free = dlm.free ∧ d.lists = dlm.lists ∧
        d.gc_fragments = dlm.gc_fragments) ∧
      (∀ q, dlm.queued = some q →
        d.free = dlm.free ++ [q] ∧ (d.lists q).body0.num_entries = 0 ∧
        (d.lists q).fragments = [] ∧ (d.lists q).has_chain = false ∧
        d.gc_fragments = (dlm.lists q).fragments ++ dlm.gc_fragments ∧
        ∀ x, x ≠ q → d.lists x = dlm.lists x) := by
  have hc := commit_headerless_clear_eq (fuel + 1) dlm dl lif_index hmode hupd
  have hw := device_programmed_writes dlm.vsp1 (dlm.lists dl)
  obtain ⟨d1, hput, hfr, hnone, hsome⟩ := put_retire fuel
    { dlm with vsp1 := device_programmed dlm.vsp1 (dlm.lists dl) } dlm.queued hchain
  obtain ⟨ha, _, hp, hv, _, _⟩ := hfr
  have hv1 : d1.vsp1 = device_programmed dlm.vsp1 (dlm.lists dl) := hv
  refine ⟨{ d1 with queued := some dl }, ?_, ?_, ?_, rfl, ha, hp, ?_, ?_⟩
  · rw [hc, hput]
  · show d1.vsp1.writes = _
    rw [hv1, hw]
  · intro h1 h2 h3
    show d1.vsp1.writes = _
    rw [hv1, hw]
    have h4 : (dlm.lists dl).body0.num_entries * 8 < 2 ^ 32 := by
      unfold VSP1_DL_NUM_ENTRIES at h3
      omega
    have h5 := Nat.or_lt_two_pow h2 h4
    rw [Nat.mul_comm 8]
    simp only [u32, Nat.mod_eq_of_lt h1, Nat.mod_eq_of_lt h5]
  · intro h
    have := hnone h
    subst this
    exact ⟨rfl, rfl, rfl⟩
  · intro q hq
    have := hsome q hq
    subst this
    exact put_tail_retired _ q

theorem frame_end_headerless_eq (fuel : Nat) (dlm : vsp1_dl_manager) (interlaced : Bool)
    (hmode : dlm.mode = vsp1_dl_mode.VSP1_DL_MODE_HEADERLESS) (d0 : vsp1_dl_manager)
    (hput : __vsp1_dl_list_put fuel dlm dlm.active = some d0) :
    vsp1_dlm_irq_frame_end fuel dlm interlaced =
      if vsp1_read dlm.vsp1 dlm.vsp1.regs.VI6_DL_BODY_SIZE &&&
          dlm.vsp1.regs.VI6_DL_BODY_SIZE_UPD ≠ 0 then
        some (false, { d0 with active := none })
      else
        match dlm.pending with
        | some dl =>
          some (dlm.queued.isSome,
            { d0 with
              active := dlm.queued
              vsp1 := device_programmed dlm.vsp1 (d0.lists dl)
              queued := some dl
              pending := none })
        | none => some (dlm.queued.isSome, { d0 with active := dlm.queued, queued := none }) := by
  obtain ⟨_, hq, hp, hv, hm, _⟩ := put_frame_of_put hput
  have hm0 : d0.mode = vsp1_dl_mode.VSP1_DL_MODE_HEADERLESS := hm.trans hmode
  simp only [vsp1_dlm_irq_frame_end, hmode, hput]
  simp only [hm0, hv, hq, hp, reduceCtorEq, if_false, ne_eq, not_false_eq_true, if_true]
  by_cases hupd : vsp1_read dlm.vsp1 dlm.vsp1.regs.VI6_DL_BODY_SIZE &&&
      dlm.vsp1.regs.VI6_DL_BODY_SIZE_UPD = 0
  · simp only [hupd, not_true_eq_false, if_false]
    cases hqq : dlm.queued <;> cases hpp : dlm.pending <;>
      simp only [hq, hp, hqq, hpp, Option.isSome] <;> rfl
  · simp only [hupd, not_false_eq_true, if_true]

/-- C5: in headerless mode, when the update-pending flag reads as set, the
frame end handler returns false, releases the previously active list (if any)
to the tail of the free pool and leaves active empty, writes no register (the
device is unchanged) and leaves queued and pending unchanged. -/
theorem frame_end_headerless_update_set (fuel : Nat) (dlm : vsp1_dl_manager)
    (interlaced : Bool)
    (hmode : dlm.mode = vsp1_dl_mode.VSP1_DL_MODE_HEADERLESS)
    (hupd : vsp1_read dlm.vsp1 dlm.vsp1.regs.VI6_DL_BODY_SIZE &&&
      dlm.vsp1.regs.VI6_DL_BODY_SIZE_UPD ≠ 0)
    (hchain : ∀ a, dlm.active = some a → (dlm.lists a).has_chain = false) :
    ∃ d, vsp1_dlm_irq_frame_end (fuel + 1) dlm interlaced = some (false, d) ∧
      d.active = none ∧ d.vsp1 = dlm.vsp1 ∧ d.queued = dlm.queued ∧
      d.pending = dlm.pending ∧
      (dlm.active = none → d.free = dlm.free ∧ d.lists = dlm.lists ∧
        d.gc_fragments = dlm.gc_fragments) ∧
      (∀ a, dlm.active = some a →
        d.free = dlm.free ++ [a] ∧ (d.lists a).body0.num_entries = 0 ∧
        (d.lists a).fragments = [] ∧ (d.lists a).has_chain = false ∧
        d.gc_fragments = (dlm.lists a).fragments ++ dlm.gc_fragments ∧
        ∀ x, x ≠ a → d.lists x = dlm.lists x) := by
  obtain ⟨d0, hput, hfr, hnone, hsome⟩ := put_retire fuel dlm dlm.active hchain
  obtain ⟨_, hq, hp, hv, _, _⟩ := hfr
  refine ⟨{ d0 with active := none }, ?_, rfl, hv, hq, hp, ?_, ?_⟩
  · rw [frame_end_headerless_eq (fuel + 1) dlm interlaced hmode d0 hput]
    simp only [ne_eq, hupd, not_false_eq_true, if_true]
  · intro h
    have := hnone h
    subst this
    exact ⟨rfl, rfl, rfl⟩
  · intro a ha
    have := hsome a ha
    subst this
    exact put_tail_retired dlm a

/-- C6: in headerless mode, when the update-pending flag reads as clear, the
frame end handler returns true exactly when a queued list existed; afterwards
active is the previously queued list, queued is the previously pending list
and pending is empty; when a pending list existed the address and body-size
registers are written with the values that the flag-clear branch of commit
writes for that list (and the device ends in the very state that such a commit
of that list leaves, provided the list was not also the active one); without a
pending list the device is unchanged.  The previously active list is released
to the free pool. -/
theorem frame_end_headerless_update_clear (fuel : Nat) (dlm : vsp1_dl_manager)
    (interlaced : Bool)
    (hmode : dlm.mode = vsp1_dl_mode.VSP1_DL_MODE_HEADERLESS)
    (hupd : vsp1_read dlm.vsp1 dlm.vsp1.regs.VI6_DL_BODY_SIZE &&&
      dlm.vsp1.regs.VI6_DL_BODY_SIZE_UPD = 0)
    (hchain : ∀ a, dlm.active = some a → (dlm.lists a).has_chain = false) :
    ∃ d, vsp1_dlm_irq_frame_end (fuel + 1) dlm interlaced = some (dlm.queued.isSome, d) ∧
      d.active = dlm.queued ∧ d.queued = dlm.pending ∧ d.pending = none ∧
      (dlm.pending = none → d.vsp1 = dlm.vsp1) ∧
      (∀ p, dlm.pending = some p →
        d.vsp1.writes = dlm.vsp1.writes ++
          [(dlm.vsp1.regs.VI6_DL_HDR_ADDR 0, u32 (d.lists p).body0.dma),
           (dlm.vsp1.regs.VI6_DL_BODY_SIZE,
            u32 (dlm.vsp1.regs.VI6_DL_BODY_SIZE_UPD ||| (d.lists p).body0.num_entries * 8))] ∧
        (dlm.active ≠ some p → ∀ f lif_index dc,
          vsp1_dl_list_commit f dlm p lif_index = some dc → dc.vsp1 = d.vsp1)) ∧
      (dlm.active = none → d.free = dlm.free ∧ d.lists = dlm.lists ∧
        d.gc_fragments = dlm.gc_fragments) ∧
      (∀ a, dlm.active = some a →
        d.free = dlm.free ++ [a] ∧ (d.lists a).body0.num_entries = 0 ∧
        (d.lists a).fragments = [] ∧ (d.lists a).has_chain = false ∧
        d.gc_fragments = (dlm.lists a).fragments ++ dlm.gc_fragments ∧
        ∀ x, x ≠ a → d.lists x = dlm.lists x) := by
  obtain ⟨d0, hput, hfr, hnone, hsome⟩ := put_retire fuel dlm dlm.active hchain
  obtain ⟨_, hq, hp, hv, _, _⟩ := hfr
  have heq := frame_end_headerless_eq (fuel + 1) dlm interlaced hmode d0 hput
  simp only [ne_eq, hupd, not_true_eq_false, if_false] at heq
  have hother : ∀ p, dlm.active ≠ some p → d0.lists p = dlm.lists p := by
    intro p hne
    cases ha : dlm.active with
    | none => rw [hnone ha]
    | some a =>
      rw [hsome a ha]
      apply put_tail_lists_other
      intro hpa
      apply hne
      rw [ha, hpa]
  have hfree : (dlm.active = none → d0.free = dlm.free ∧ d0.lists = dlm.lists ∧
        d0.gc_fragments = dlm.gc_fragments) ∧
      (∀ a, dlm.active = some a →
        d0.free = dlm.free ++ [a] ∧ (d0.lists a).body0.num_entries = 0 ∧
        (d0.lists a).fragments = [] ∧ (d0.lists a).has_chain = false ∧
        d0.gc_fragments = (dlm.lists a).fragments ++ dlm.gc_fragments ∧
        ∀ x, x ≠ a → d0.lists x = dlm.lists x) := by
    constructor
    · intro h
      have := hnone h
      subst this
      exact ⟨rfl, rfl, rfl⟩
    · intro a ha
      have := hsome a ha
      subst this
      exact put_tail_retired dlm a
  cases hpp : dlm.pending with
  | none =>
    rw [hpp] at heq
    refine ⟨_, heq, rfl, rfl, hp.trans hpp, fun _ => hv, ?_, hfree.1, hfree.2⟩
    intro p h
    cases h
  | some p =>
    rw [hpp] at heq
    refine ⟨_, heq, rfl, rfl, rfl, ?_, ?_, hfree.1, hfree.2⟩
    · intro h
      cases h
    · intro p1 h1
      cases h1
      refine ⟨device_programmed_writes dlm.vsp1 (d0.lists p), ?_⟩
      intro hne f lif_index dc hc
      rw [commit_headerless_clear_eq f dlm p lif_index hmode hupd] at hc
      cases hput2 : __vsp1_dl_list_put f
          { dlm with vsp1 := device_programmed dlm.vsp1 (dlm.lists p) } dlm.queued with
      | none => simp [hput2] at hc
      | some d2 =>
        simp only [hput2, Option.some.injEq] at hc
        obtain ⟨_, _, _, hv2, _, _⟩ := put_frame_of_put hput2
        subst hc
        show d2.vsp1 = device_programmed dlm.vsp1 (d0.lists p)
        rw [hv2, hother p hne]

/-- C10: in headerless mode the display start handler releases the active list
(if any) to the tail of the free pool with its entry count reset to zero, sets
active to none and leaves queued and pending (and the device) unchanged. -/
theorem display_start_headerless (fuel : Nat) (dlm : vsp1_dl_manager)
    (hmode : dlm.mode = vsp1_dl_mode.VSP1_DL_MODE_HEADERLESS)
    (hchain : ∀ a, dlm.active = some a → (dlm.lists a).has_chain = false) :
    ∃ d, vsp1_dlm_irq_display_start (fuel + 1) dlm = some d ∧
      d.active = none ∧ d.queued = dlm.queued ∧ d.pending = dlm.pending ∧
      d.vsp1 = dlm.vsp1 ∧
      (dlm.active = none → d.free = dlm.free ∧ d.lists = dlm.lists ∧
        d.gc_fragments = dlm.gc_fragments) ∧
      (∀ a, dlm.active = some a →
        d.free = dlm.free ++ [a] ∧ (d.lists a).body0.num_entries = 0 ∧
        (d.lists a).fragments = [] ∧ (d.lists a).has_chain = false ∧
        d.gc_fragments = (dlm.lists a).fragments ++ dlm.gc_fragments ∧
        ∀ x, x ≠ a → d.lists x = dlm.lists x) := by
  obtain ⟨d0, hput, hfr, hnone, hsome⟩ := put_retire fuel dlm dlm.active hchain
  obtain ⟨_, hq, hp, hv, _, _⟩ := hfr
  refine ⟨{ d0 with active := none }, ?_, rfl, hq, hp, hv, ?_, ?_⟩
  · simp [vsp1_dlm_irq_display_start, hmode, hput]
  · intro h
    have := hnone h
    subst this
    exact ⟨rfl, rfl, rfl⟩
  · intro a ha
    have := hsome a ha
    subst this
    exact put_tail_retired dlm a

/-- C7 (amended): in header mode, when `VI6_CMD_UPDHDR` is set, or the output is
interlaced and the field status bit does not match, the frame end handler
returns false, clears active and leaves queued, pending and everything else
unchanged; otherwise a queued list becomes active, queued becomes none and the
call returns true; without a queued list it returns false with active
cleared. -/
theorem frame_end_header (fuel : Nat) (dlm : vsp1_dl_manager) (interlaced : Bool)
    (hmode : dlm.mode = vsp1_dl_mode.VSP1_DL_MODE_HEADER) :
    ((vsp1_read dlm.vsp1 (dlm.vsp1.regs.VI6_CMD dlm.index) &&&
          dlm.vsp1.regs.VI6_CMD_UPDHDR ≠ 0 ∨
        (interlaced = true ∧
          vsp1_read dlm.vsp1 dlm.vsp1.regs.VI6_STATUS &&&
            dlm.vsp1.regs.VI6_STATUS_FLD_STD dlm.index ≠
              dlm.vsp1.regs.VI6_STATUS_FLD_STD dlm.index)) →
      vsp1_dlm_irq_frame_end fuel dlm interlaced = some (false, { dlm with active := none })) ∧
    (¬ (vsp1_read dlm.vsp1 (dlm.vsp1.regs.VI6_CMD dlm.index) &&&
          dlm.vsp1.regs.VI6_CMD_UPDHDR ≠ 0 ∨
        (interlaced = true ∧
          vsp1_read dlm.vsp1 dlm.vsp1.regs.VI6_STATUS &&&
            dlm.vsp1.regs.VI6_STATUS_FLD_STD dlm.index ≠
              dlm.vsp1.regs.VI6_STATUS_FLD_STD dlm.index)) →
      (∀ q, dlm.queued = some q →
        vsp1_dlm_irq_frame_end fuel dlm interlaced =
          some (true, { dlm with active := some q, queued := none })) ∧
      (dlm.queued = none →
        vsp1_dlm_irq_frame_end fuel dlm interlaced =
          some (false, { dlm with active := none }))) := by
  constructor
  · intro h
    by_cases h1 : vsp1_read dlm.vsp1 (dlm.vsp1.regs.VI6_CMD dlm.index) &&&
        dlm.vsp1.regs.VI6_CMD_UPDHDR = 0
    · rcases h with h | ⟨h2, h3⟩
      · exact absurd h1 h
      · simp [vsp1_dlm_irq_frame_end, hmode, h1, h2, h3]
    · simp [vsp1_dlm_irq_frame_end, hmode, h1]
  · intro h
    push_neg at h
    obtain ⟨h1, h2⟩ := h
    constructor
    · intro q hq
      cases interlaced with
      | false => simp [vsp1_dlm_irq_frame_end, hmode, h1, hq]
      | true => simp [vsp1_dlm_irq_frame_end, hmode, h1, hq, h2 rfl]
    · intro hq
      cases interlaced with
      | false => simp [vsp1_dlm_irq_frame_end, hmode, h1, hq]
      | true => simp [vsp1_dlm_irq_frame_end, hmode, h1, hq, h2 rfl]

/-- C9 (amended): in header mode the display start handler clears the active
slot without releasing the list, and leaves every other part of the manager
state (queued, pending, free pool, lists, retirement queue, device)
unchanged. -/
theorem display_start_header (fuel : Nat) (dlm : vsp1_dl_manager)
    (hmode : dlm.mode = vsp1_dl_mode.VSP1_DL_MODE_HEADER) :
    vsp1_dlm_irq_display_start fuel dlm = some { dlm with active := none } := by
  simp [vsp1_dlm_irq_display_start, hmode]

/-! ## The single-call theorems at concrete states -/

/-- Witness of C3: list 3 committed while lists 0, 1, 2 are active, queued and
pending and the update flag is set. -/
theorem commit_headerless_update_set_witness :
    (set_mmio ex_headerless_8 ex_mmio_upd).mode = vsp1_dl_mode.VSP1_DL_MODE_HEADERLESS ∧
    ∃ d, vsp1_dl_list_commit 1 (set_mmio ex_headerless_8 ex_mmio_upd) 3 0 = some d ∧
      d.vsp1 = (set_mmio ex_headerless_8 ex_mmio_upd).vsp1 ∧ d.pending = some 3 ∧
      d.active = some 0 ∧ d.queued = some 1 ∧ d.free = [2] := by
  have hp : (set_mmio ex_headerless_8 ex_mmio_upd).pending = some 2 := rfl
  obtain ⟨d, hd, hv, hpd, ha, hq, _, hs⟩ :=
    commit_headerless_update_set 0 (set_mmio ex_headerless_8 ex_mmio_upd) 3 0 rfl
      (by decide) (fun p h => by
        have h2 : p = 2 := Option.some.inj (h.symm.trans hp)
        subst h2
        rfl)
  exact ⟨rfl, d, hd, hv, hpd, ha, hq, (hs 2 hp).1⟩

/-- Witness of C4: list 3 committed while list 1 is queued and the update flag
is clear. -/
theorem commit_headerless_update_clear_witness :
    (set_mmio ex_headerless_8 ex_mmio_idle).mode = vsp1_dl_mode.VSP1_DL_MODE_HEADERLESS ∧
    ∃ d, vsp1_dl_list_commit 1 (set_mmio ex_headerless_8 ex_mmio_idle) 3 0 = some d ∧
      d.vsp1.writes = (set_mmio ex_headerless_8 ex_mmio_idle).vsp1.writes ++
        [(260, 0x40000), (288, 2 ^ 24)] ∧
      d.queued = some 3 ∧ d.active = some 0 ∧ d.pending = some 2 ∧ d.free = [1] := by
  have hq : (set_mmio ex_headerless_8 ex_mmio_idle).queued = some 1 := rfl
  obtain ⟨d, hd, _, hw, hqd, ha, hp, _, hs⟩ :=
    commit_headerless_update_clear 0 (set_mmio ex_headerless_8 ex_mmio_idle) 3 0 rfl
      (by decide) (fun q h => by
        have h2 : q = 1 := Option.some.inj (h.symm.trans hq)
        subst h2
        rfl)
  exact ⟨rfl, d, hd, hw (by decide) (by decide) (by decide), hqd, ha, hp, (hs 1 hq).1⟩

/-- Witness of C5: frame end with the update flag set while list 0 is active,
list 1 queued and list 2 pending. -/
theorem frame_end_headerless_update_set_witness :
    (set_mmio ex_headerless_7 ex_mmio_upd).mode = vsp1_dl_mode.VSP1_DL_MODE_HEADERLESS ∧
    ∃ d, vsp1_dlm_irq_frame_end 1 (set_mmio ex_headerless_7 ex_mmio_upd) false =
        some (false, d) ∧
      d.active = none ∧ d.vsp1 = (set_mmio ex_headerless_7 ex_mmio_upd).vsp1 ∧
      d.queued = some 1 ∧ d.pending = some 2 ∧ d.free = [3, 0] := by
  have ha : (set_mmio ex_headerless_7 ex_mmio_upd).active = some 0 := rfl
  obtain ⟨d, hd, had, hv, hq, hp, _, hs⟩ :=
    frame_end_headerless_update_set 0 (set_mmio ex_headerless_7 ex_mmio_upd) false rfl
      (by decide) (fun a h => by
        have h2 : a = 0 := Option.some.inj (h.symm.trans ha)
        subst h2
        rfl)
  exact ⟨rfl, d, hd, had, hv, hq, hp, (hs 0 ha).1⟩

/-- Witness of C6: frame end with the update flag clear while list 0 is active,
list 1 queued and list 2 pending. -/
theorem frame_end_headerless_update_clear_witness :
    (set_mmio ex_headerless_7 ex_mmio_idle).mode = vsp1_dl_mode.VSP1_DL_MODE_HEADERLESS ∧
    ∃ d, vsp1_dlm_irq_frame_end 1 (set_mmio ex_headerless_7 ex_mmio_idle) false =
        some (true, d) ∧
      d.active = some 1 ∧ d.queued = some 2 ∧ d.pending = none ∧ d.free = [3, 0] := by
  have ha : (set_mmio ex_headerless_7 ex_mmio_idle).active = some 0 := rfl
  obtain ⟨d, hd, had, hq, hp, _, _, _, hs⟩ :=
    frame_end_headerless_update_clear 0 (set_mmio ex_headerless_7 ex_mmio_idle) false rfl
      (by decide) (fun a h => by
        have h2 : a = 0 := Option.some.inj (h.symm.trans ha)
        subst h2
        rfl)
  exact ⟨rfl, d, hd, had, hq, hp, (hs 0 ha).1⟩

/-- Witness of C10: display start while list 0 is active. -/
theorem display_start_headerless_witness :
    ex_headerless_7.mode = vsp1_dl_mode.VSP1_DL_MODE_HEADERLESS ∧
    ∃ d, vsp1_dlm_irq_display_start 1 ex_headerless_7 = some d ∧
      d.active = none ∧ d.queued = some 1 ∧ d.pending = some 2 ∧ d.free = [3, 0] ∧
      (d.lists 0).body0.num_entries = 0 := by
  have ha : ex_headerless_7.active = some 0 := rfl
  obtain ⟨d, hd, had, hq, hp, _, _, hs⟩ :=
    display_start_headerless 0 ex_headerless_7 rfl
      (fun a h => by
        have h2 : a = 0 := Option.some.inj (h.symm.trans ha)
        subst h2
        rfl)
  exact ⟨rfl, d, hd, had, hq, hp, (hs 0 ha).1, (hs 0 ha).2.1⟩

/-- Witness of C7 (amended): frame end in header mode with `VI6_CMD_UPDHDR` set
after list 0 was committed. -/
theorem frame_end_header_witness :
    (set_mmio ex_header_2 ex_mmio_updhdr).mode = vsp1_dl_mode.VSP1_DL_MODE_HEADER ∧
    vsp1_dlm_irq_frame_end 1 (set_mmio ex_header_2 ex_mmio_updhdr) false =
      some (false, { set_mmio ex_header_2 ex_mmio_updhdr with active := none }) :=
  ⟨rfl, (frame_end_header 1 (set_mmio ex_header_2 ex_mmio_updhdr) false rfl).1
    (Or.inl (by decide))⟩

/-- Witness of C9 (amended): display start in header mode after list 0 was
committed. -/
theorem display_start_header_witness :
    ex_header_2.mode = vsp1_dl_mode.VSP1_DL_MODE_HEADER ∧
    vsp1_dlm_irq_display_start 1 ex_header_2 = some { ex_header_2 with active := none } :=
  ⟨rfl, display_start_header 1 ex_header_2 rfl⟩

/-! ## Where the code departs from the claims -/

/-- Counterexample to C7 as stated: in header mode with `VI6_CMD_UPDHDR` set the
frame end handler returns false but does not leave the slots unchanged: list 0
was active before the call and active is empty after it. -/
theorem frame_end_header_defer_clears_active :
    (set_mmio ex_header_2 ex_mmio_updhdr).mode = vsp1_dl_mode.VSP1_DL_MODE_HEADER ∧
    vsp1_read (set_mmio ex_header_2 ex_mmio_updhdr).vsp1
        ((set_mmio ex_header_2 ex_mmio_updhdr).vsp1.regs.VI6_CMD
          (set_mmio ex_header_2 ex_mmio_updhdr).index) &&&
      (set_mmio ex_header_2 ex_mmio_updhdr).vsp1.regs.VI6_CMD_UPDHDR ≠ 0 ∧
    (set_mmio ex_header_2 ex_mmio_updhdr).active = some 0 ∧
    (vsp1_dlm_irq_frame_end 1 (set_mmio ex_header_2 ex_mmio_updhdr) false).map
      (fun r => (r.1, r.2.active, r.2.queued, r.2.pending)) =
        some (false, none, some 0, none) := by
  refine ⟨rfl, by decide, rfl, by decide⟩

/-- Counterexample to C9 as stated: in header mode the display start handler
does not leave the active slot unchanged: list 0 was active before the call and
active is empty after it. -/
theorem display_start_header_clears_active :
    ex_header_2.mode = vsp1_dl_mode.VSP1_DL_MODE_HEADER ∧
    ex_header_2.active = some 0 ∧
    (vsp1_dlm_irq_display_start 1 ex_header_2).map (fun d => d.active) = some none := by
  refine ⟨rfl, rfl, by decide⟩

/-- Counterexample to C8 as stated: in header mode, after list 0 was committed
and with `VI6_CMD_UPDHDR` set, the frame end handler returns false; on a fresh
manager (no queued list, all status bits clear) it returns false as well. -/
theorem frame_end_header_returns_false :
    (set_mmio ex_header_2 ex_mmio_updhdr).mode = vsp1_dl_mode.VSP1_DL_MODE_HEADER ∧
    (vsp1_dlm_irq_frame_end 1 (set_mmio ex_header_2 ex_mmio_updhdr) false).map
      (fun r => r.1) = some false ∧
    (vsp1_dlm_irq_frame_end 1 (set_mmio ex_header_0 ex_mmio_idle) false).map
      (fun r => r.1) = some false := by
  refine ⟨rfl, by decide, by decide⟩

/-! ## The invariant of commit traces -/

theorem set_list_lists_self (d : vsp1_dl_manager) (dl : Nat) (v : vsp1_dl_list) :
    (set_list d dl v).lists dl = v := by
  simp [set_list]

theorem set_list_lists_other (d : vsp1_dl_manager) (dl x : Nat) (v : vsp1_dl_list)
    (h : x ≠ dl) : (set_list d dl v).lists x = d.lists x := by
  simp [set_list, h]

theorem pool_inv_set_list {d : vsp1_dl_manager} {held : List Nat} (h : pool_inv d held)
    (dl : Nat) (v : vsp1_dl_list)
    (h1 : v.has_chain = false) (h2 : v.chain = (d.lists dl).chain)
    (h3 : v.header = (d.lists dl).header) (h4 : v.ext_body = (d.lists dl).ext_body)
    (h5 : dl ∈ d.free → v.fragments = []) :
    pool_inv (set_list d dl v) held := by
  have key : ∀ x, ((set_list d dl v).lists x).has_chain = false ∧
      ((set_list d dl v).lists x).chain = (d.lists x).chain ∧
      ((set_list d dl v).lists x).header = (d.lists x).header ∧
      ((set_list d dl v).lists x).ext_body = (d.lists x).ext_body ∧
      (x ∈ d.free → ((set_list d dl v).lists x).fragments = []) := by
    intro x
    by_cases hx : x = dl
    · subst hx
      rw [set_list_lists_self]
      exact ⟨h1, h2, h3, h4, h5⟩
    · rw [set_list_lists_other d dl x v hx]
      exact ⟨h.no_chain x, rfl, rfl, rfl, h.free_clean x⟩
  refine ⟨h.free_nodup, h.held_nodup, h.held_not_free, fun x => (key x).1,
    fun x hx => (key x).2.2.2.2 hx, ?_, ?_⟩
  · intro x hx
    rw [(key x).2.1]
    exact h.held_ring x hx
  · intro hm x hx
    rw [(key x).2.2.1, (key x).2.2.2.1]
    exact h.header_ok hm x hx

theorem pool_inv_put_tail {d : vsp1_dl_manager} {held : List Nat} (h : pool_inv d held)
    (p : Nat) (hp : p ∉ d.free)
    (hh : d.mode = vsp1_dl_mode.VSP1_DL_MODE_HEADER →
      (d.lists p).header.isSome = true ∧ (d.lists p).ext_body.isSome = true) :
    pool_inv (vsp1_dl_list_put_tail d p) (held.erase p) := by
  have key : ∀ x, ((vsp1_dl_list_put_tail d p).lists x).has_chain = false ∧
      ((vsp1_dl_list_put_tail d p).lists x).chain = (d.lists x).chain ∧
      ((vsp1_dl_list_put_tail d p).lists x).header = (d.lists x).header ∧
      ((vsp1_dl_list_put_tail d p).lists x).ext_body = (d.lists x).ext_body ∧
      (x ∈ d.free ++ [p] → ((vsp1_dl_list_put_tail d p).lists x).fragments = []) := by
    intro x
    by_cases hx : x = p
    · subst hx
      rw [put_tail_lists_self]
      exact ⟨rfl, rfl, rfl, rfl, fun _ => rfl⟩
    · rw [put_tail_lists_other d p x hx]
      refine ⟨h.no_chain x, rfl, rfl, rfl, ?_⟩
      intro hm
      rcases List.mem_append.1 hm with hm | hm
      · exact h.free_clean x hm
      · exact absurd (List.mem_singleton.1 hm) hx
  have hmode : (vsp1_dl_list_put_tail d p).mode = d.mode := (put_tail_frame d p).2.2.2.2.1
  refine ⟨?_, h.held_nodup.erase p, ?_, fun x => (key x).1, ?_, ?_, ?_⟩
  · rw [put_tail_free]
    exact List.Nodup.append h.free_nodup (List.nodup_singleton p)
      (by
        intro x hx hx2
        rw [List.mem_singleton.1 hx2] at hx
        exact hp hx)
  · intro x hx
    rw [put_tail_free]
    intro hm
    rcases List.mem_append.1 hm with hm | hm
    · exact h.held_not_free x (List.mem_of_mem_erase hx) hm
    · rw [List.mem_singleton.1 hm] at hx
      exact (List.Nodup.not_mem_erase h.held_nodup) hx
  · intro x hx
    rw [put_tail_free] at hx
    exact (key x).2.2.2.2 hx
  · intro x hx
    rw [(key x).2.1]
    exact h.held_ring x (List.mem_of_mem_erase hx)
  · intro hm x hx
    rw [hmode] at hm
    rw [(key x).2.2.1, (key x).2.2.2.1]
    rw [put_tail_free] at hx
    rcases hx with hx | hx
    · rcases List.mem_append.1 hx with hx | hx
      · exact h.header_ok hm x (Or.inl hx)
      · rw [List.mem_singleton.1 hx]
        exact hh hm
    · exact h.header_ok hm x (Or.inr (List.mem_of_mem_erase hx))

theorem pool_inv_of_eq {d e : vsp1_dl_manager} {held : List Nat} (h : pool_inv d held)
    (h1 : e.free = d.free) (h2 : e.lists = d.lists) (h3 : e.mode = d.mode) :
    pool_inv e held := by
  refine ⟨?_, h.held_nodup, ?_, ?_, ?_, ?_, ?_⟩
  · rw [h1]
    exact h.free_nodup
  · rw [h1]
    exact h.held_not_free
  · rw [h2]
    exact h.no_chain
  · rw [h1, h2]
    exact h.free_clean
  · rw [h2]
    exact h.held_ring
  · rw [h1, h2, h3]
    exact h.header_ok

theorem slots_inv_of_eq {d e : vsp1_dl_manager} {held : List Nat} (h : slots_inv d held)
    (h1 : e.free = d.free) (h3 : e.mode = d.mode) (h4 : e.active = d.active)
    (h5 : e.queued = d.queued) (h6 : e.pending = d.pending) :
    slots_inv e held := by
  refine ⟨?_, ?_, ?_, ?_⟩
  · rw [h1, h3, h4, h5, h6]
    exact h.active_ok
  · rw [h1, h3, h5, h6]
    exact h.queued_ok
  · rw [h1, h3, h6]
    exact h.pending_ok
  · rw [h3, h6]
    exact h.header_pending

theorem get_step {d : vsp1_dl_manager} {held : List Nat} (hp : pool_inv d held)
    (hs : slots_inv d held) :
    (∀ dl e, vsp1_dl_list_get d = (some dl, e) →
      pool_inv e (dl :: held) ∧ slots_inv e (dl :: held)) ∧
    (∀ e, vsp1_dl_list_get d = (none, e) → e = d) := by
  unfold vsp1_dl_list_get
  cases hfree : d.free with
  | nil =>
    constructor
    · intro dl e h
      simp at h
    · intro e h
      simp only [Prod.mk.injEq, true_and] at h
      exact h.symm
  | cons a rest =>
    constructor
    · intro dl e h
      simp only [Prod.mk.injEq, Option.some.injEq] at h
      obtain ⟨h1, h2⟩ := h
      subst h1
      subst h2
      have hnd : (a :: rest).Nodup := hfree ▸ hp.free_nodup
      have ha_free : a ∈ d.free := by
        rw [hfree]
        exact List.mem_cons_self a rest
      have hrest : ∀ x, x ∈ rest → x ∈ d.free := by
        intro x hx
        rw [hfree]
        exact List.mem_cons_of_mem a hx
      have ha_held : a ∉ held := fun hh => hp.held_not_free a hh ha_free
      have ha_rest : a ∉ rest := (List.nodup_cons.1 hnd).1
      have key : ∀ x, ((INIT_LIST_HEAD_chain { d with free := rest } a).lists x).has_chain =
            (d.lists x).has_chain ∧
          ((INIT_LIST_HEAD_chain { d with free := rest } a).lists x).fragments =
            (d.lists x).fragments ∧
          ((INIT_LIST_HEAD_chain { d with free := rest } a).lists x).header =
            (d.lists x).header ∧
          ((INIT_LIST_HEAD_chain { d with free := rest } a).lists x).ext_body =
            (d.lists x).ext_body ∧
          (x ≠ a → ((INIT_LIST_HEAD_chain { d with free := rest } a).lists x).chain =
            (d.lists x).chain) := by
        intro x
        unfold INIT_LIST_HEAD_chain
        by_cases hx : x = a
        · subst hx
          rw [set_list_lists_self]
          exact ⟨rfl, rfl, rfl, rfl, fun h => absurd rfl h⟩
        · rw [set_list_lists_other _ a x _ hx]
          exact ⟨rfl, rfl, rfl, rfl, fun _ => rfl⟩
      have hself : ((INIT_LIST_HEAD_chain { d with free := rest } a).lists a).chain.next =
          some a := by
        unfold INIT_LIST_HEAD_chain
        rw [set_list_lists_self]
      constructor
      · refine ⟨(List.nodup_cons.1 hnd).2, List.nodup_cons.2 ⟨ha_held, hp.held_nodup⟩,
          ?_, ?_, ?_, ?_, ?_⟩
        · intro x hx hx2
          rcases List.mem_cons.1 hx with hx | hx
          · rw [hx] at hx2
            exact ha_rest hx2
          · exact hp.held_not_free x hx (hrest x hx2)
        · intro x
          rw [(key x).1]
          exact hp.no_chain x
        · intro x hx
          rw [(key x).2.1]
          exact hp.free_clean x (hrest x hx)
        · intro x hx
          rcases List.mem_cons.1 hx with hx | hx
          · rw [hx]
            exact hself
          · have hne : x ≠ a := fun h => ha_held (h ▸ hx)
            rw [(key x).2.2.2.2 hne]
            exact hp.held_ring x hx
        · intro hm x hx
          rw [(key x).2.2.1, (key x).2.2.2.1]
          apply hp.header_ok hm x
          rcases hx with hx | hx
          · exact Or.inl (hrest x hx)
          · rcases List.mem_cons.1 hx with hx | hx
            · rw [hx]
              exact Or.inl ha_free
            · exact Or.inr hx
      · have notin : ∀ x, x ∉ d.free ∧ x ∉ held → x ∉ rest ∧ x ∉ a :: held := by
          intro x hx
          refine ⟨fun h => hx.1 (hrest x h), ?_⟩
          intro h
          rcases List.mem_cons.1 h with h | h
          · exact hx.1 (h ▸ ha_free)
          · exact hx.2 h
        refine ⟨?_, ?_, ?_, ?_⟩
        · intro hm x hx
          have := hs.active_ok hm x hx
          exact ⟨this.1, this.2.1, notin x this.2.2⟩
        · intro hm x hx
          have := hs.queued_ok hm x hx
          exact ⟨this.1, notin x this.2⟩
        · intro hm x hx
          exact notin x (hs.pending_ok hm x hx)
        · intro hm
          exact hs.header_pending hm
    · intro e h
      simp at h

theorem write_step {d : vsp1_dl_manager} {held : List Nat} (hp : pool_inv d held)
    (hs : slots_inv d held) (dl reg data : Nat) :
    pool_inv (vsp1_dl_list_write d dl reg data) held ∧
      slots_inv (vsp1_dl_list_write d dl reg data) held := by
  constructor
  · unfold vsp1_dl_list_write
    exact pool_inv_set_list hp dl _ (hp.no_chain dl) rfl rfl rfl (hp.free_clean dl)
  · exact slots_inv_of_eq hs rfl rfl rfl rfl rfl

theorem add_fragment_step {d : vsp1_dl_manager} {held : List Nat} (hp : pool_inv d held)
    (hs : slots_inv d held) (dl : Nat) (hdl : dl ∈ held) (dlb : vsp1_dl_body) :
    pool_inv (vsp1_dl_list_add_fragment d dl dlb).2 held ∧
      slots_inv (vsp1_dl_list_add_fragment d dl dlb).2 held := by
  unfold vsp1_dl_list_add_fragment
  by_cases hm : d.mode = vsp1_dl_mode.VSP1_DL_MODE_HEADER
  · simp only [hm, ne_eq, not_true_eq_false, if_false]
    constructor
    · exact pool_inv_set_list hp dl _ (hp.no_chain dl) rfl rfl rfl
        (fun h => absurd h (hp.held_not_free dl hdl))
    · exact slots_inv_of_eq hs rfl rfl rfl rfl rfl
  · simp only [hm, ne_eq, not_false_eq_true, if_true]
    exact ⟨hp, hs⟩

theorem pool_inv_erase {d : vsp1_dl_manager} {held : List Nat} (h : pool_inv d held)
    (x : Nat) : pool_inv d (held.erase x) :=
  ⟨h.free_nodup, h.held_nodup.erase x,
    fun y hy => h.held_not_free y (List.mem_of_mem_erase hy), h.no_chain, h.free_clean,
    fun y hy => h.held_ring y (List.mem_of_mem_erase hy),
    fun hm y hy => h.header_ok hm y (hy.imp id List.mem_of_mem_erase)⟩

theorem mode_headerless_ne {d : vsp1_dl_manager}
    (hm : d.mode = vsp1_dl_mode.VSP1_DL_MODE_HEADERLESS) :
    d.mode ≠ vsp1_dl_mode.VSP1_DL_MODE_HEADER := by
  rw [hm]
  decide

theorem retire_step (fuel : Nat) {d : vsp1_dl_manager} {held : List Nat}
    (hp : pool_inv d held) (o : Option Nat)
    (ho : ∀ p, o = some p → p ∉ d.free ∧ p ∉ held)
    (hm : d.mode = vsp1_dl_mode.VSP1_DL_MODE_HEADERLESS) :
    ∃ d1, __vsp1_dl_list_put (fuel + 1) d o = some d1 ∧ pool_inv d1 held ∧ put_frame d d1 ∧
      ∀ x, x ∈ d1.free ↔ (x ∈ d.free ∨ o = some x) := by
  cases o with
  | none =>
    refine ⟨d, put_null _ _, hp, put_frame_refl _, ?_⟩
    intro x
    simp
  | some p =>
    obtain ⟨hpf, hph⟩ := ho p rfl
    refine ⟨_, put_no_chain fuel d p (hp.no_chain p), ?_, put_frame_tail _ _, ?_⟩
    · have := pool_inv_put_tail hp p hpf (fun h => absurd h (mode_headerless_ne hm))
      rw [List.erase_of_not_mem hph] at this
      exact this
    · intro x
      rw [put_tail_free, List.mem_append, List.mem_singleton]
      constructor
      · rintro (h | h)
        · exact Or.inl h
        · exact Or.inr (by rw [h])
      · rintro (h | h)
        · exact Or.inl h
        · exact Or.inr (Option.some.inj h).symm

theorem commit_headerless_set_eq (fuel : Nat) (dlm : vsp1_dl_manager) (dl lif_index : Nat)
    (hmode : dlm.mode = vsp1_dl_mode.VSP1_DL_MODE_HEADERLESS)
    (hupd : vsp1_read dlm.vsp1 dlm.vsp1.regs.VI6_DL_BODY_SIZE &&&
      dlm.vsp1.regs.VI6_DL_BODY_SIZE_UPD ≠ 0) :
    vsp1_dl_list_commit fuel dlm dl lif_index =
      (match __vsp1_dl_list_put fuel dlm dlm.pending with
        | none => none
        | some d1 => some { d1 with pending := some dl }) := by
  simp [vsp1_dl_list_commit, hmode, hupd]

theorem commit_step_headerless (fuel : Nat) {d : vsp1_dl_manager} {held : List Nat}
    (hp : pool_inv d held) (hs : slots_inv d held) (dl lif_index : Nat) (hdl : dl ∈ held)
    (hm : d.mode = vsp1_dl_mode.VSP1_DL_MODE_HEADERLESS) :
    ∃ e, vsp1_dl_list_commit (fuel + 1) d dl lif_index = some e ∧
      pool_inv e (held.erase dl) ∧ slots_inv e (held.erase dl) ∧ e.mode = d.mode := by
  have hdl_free : dl ∉ d.free := hp.held_not_free dl hdl
  have hdl_erase : dl ∉ held.erase dl := List.Nodup.not_mem_erase hp.held_nodup
  have hne : ∀ x, x ∉ held → some dl ≠ some x := by
    intro x hx h
    exact hx ((Option.some.inj h) ▸ hdl)
  by_cases hupd : vsp1_read d.vsp1 d.vsp1.regs.VI6_DL_BODY_SIZE &&&
      d.vsp1.regs.VI6_DL_BODY_SIZE_UPD = 0
  · -- flag clear: the list is queued
    let d0 : vsp1_dl_manager := { d with vsp1 := device_programmed d.vsp1 (d.lists dl) }
    have hp0 : pool_inv d0 held := pool_inv_of_eq hp rfl rfl rfl
    obtain ⟨d1, hput, hp1, hfr, hfree⟩ := retire_step fuel hp0 d.queued
      (fun p h => (hs.queued_ok hm p h).2) hm
    obtain ⟨ha, _, hpe, _, hmo, _⟩ := hfr
    have hmo1 : d1.mode = d.mode := hmo
    have ha1 : d1.active = d.active := ha
    have hpe1 : d1.pending = d.pending := hpe
    have hfree1 : ∀ x, x ∈ d1.free ↔ (x ∈ d.free ∨ d.queued = some x) := hfree
    refine ⟨{ d1 with queued := some dl }, ?_, ?_, ?_, hmo1⟩
    · rw [commit_headerless_clear_eq (fuel + 1) d dl lif_index hm hupd, hput]
    · exact pool_inv_of_eq (pool_inv_erase hp1 dl) rfl rfl rfl
    · refine ⟨?_, ?_, ?_, ?_⟩
      · intro _ x hx
        have hx1 : d.active = some x := ha1 ▸ hx
        obtain ⟨h1, h2, h3, h4⟩ := hs.active_ok hm x hx1
        refine ⟨(hne x h4), ?_, ?_, fun h => h4 (List.mem_of_mem_erase h)⟩
        · show d1.pending ≠ some x
          rw [hpe1]
          exact h2
        · show x ∉ d1.free
          rw [hfree1]
          rintro (h | h)
          · exact h3 h
          · exact h1 h
      · intro _ x hx
        have hx1 : dl = x := Option.some.inj hx
        subst hx1
        refine ⟨?_, ?_, hdl_erase⟩
        · show d1.pending ≠ some dl
          rw [hpe1]
          intro h
          exact (hs.pending_ok hm dl h).2 hdl
        · show dl ∉ d1.free
          rw [hfree1]
          rintro (h | h)
          · exact hdl_free h
          · exact (hs.queued_ok hm dl h).2.2 hdl
      · intro _ x hx
        have hx1 : d.pending = some x := hpe1 ▸ hx
        obtain ⟨h3, h4⟩ := hs.pending_ok hm x hx1
        refine ⟨?_, fun h => h4 (List.mem_of_mem_erase h)⟩
        show x ∉ d1.free
        rw [hfree1]
        rintro (h | h)
        · exact h3 h
        · exact (hs.queued_ok hm x h).1 hx1
      · intro h
        exact absurd (h.symm.trans (hmo1.trans hm)) (by decide)
  · -- flag set: the list is pending
    obtain ⟨d1, hput, hp1, hfr, hfree⟩ := retire_step fuel hp d.pending
      (fun p h => hs.pending_ok hm p h) hm
    obtain ⟨ha, hq, _, _, hmo, _⟩ := hfr
    refine ⟨{ d1 with pending := some dl }, ?_, ?_, ?_, hmo⟩
    · rw [commit_headerless_set_eq (fuel + 1) d dl lif_index hm hupd, hput]
    · exact pool_inv_of_eq (pool_inv_erase hp1 dl) rfl rfl rfl
    · refine ⟨?_, ?_, ?_, ?_⟩
      · intro _ x hx
        have hx1 : d.active = some x := ha ▸ hx
        obtain ⟨h1, h2, h3, h4⟩ := hs.active_ok hm x hx1
        refine ⟨?_, hne x h4, ?_, fun h => h4 (List.mem_of_mem_erase h)⟩
        · show d1.queued ≠ some x
          rw [hq]
          exact h1
        · show x ∉ d1.free
          rw [hfree]
          rintro (h | h)
          · exact h3 h
          · exact h2 h
      · intro _ x hx
        have hx1 : d.queued = some x := hq ▸ hx
        obtain ⟨h2, h3, h4⟩ := hs.queued_ok hm x hx1
        refine ⟨hne x h4, ?_, fun h => h4 (List.mem_of_mem_erase h)⟩
        show x ∉ d1.free
        rw [hfree]
        rintro (h | h)
        · exact h3 h
        · exact h2 h
      · intro _ x hx
        have hx1 : dl = x := Option.some.inj hx
        subst hx1
        refine ⟨?_, hdl_erase⟩
        show dl ∉ d1.free
        rw [hfree]
        rintro (h | h)
        · exact hdl_free h
        · exact (hs.pending_ok hm dl h).2 hdl
      · intro h
        exact absurd (h.symm.trans (hmo.trans hm)) (by decide)

theorem frame_end_step_headerless (fuel : Nat) {d : vsp1_dl_manager} {held : List Nat}
    (hp : pool_inv d held) (hs : slots_inv d held) (interlaced : Bool)
    (hm : d.mode = vsp1_dl_mode.VSP1_DL_MODE_HEADERLESS) :
    ∃ r e, vsp1_dlm_irq_frame_end (fuel + 1) d interlaced = some (r, e) ∧
      pool_inv e held ∧ slots_inv e held ∧ e.mode = d.mode := by
  obtain ⟨d0, hput, hp0, hfr, hfree⟩ := retire_step fuel hp d.active
    (fun p h => (hs.active_ok hm p h).2.2) hm
  obtain ⟨_, hq, hpe, _, hmo, _⟩ := hfr
  have heq := frame_end_headerless_eq (fuel + 1) d interlaced hm d0 hput
  have hnoth : ∀ e : vsp1_dl_manager, e.mode = d0.mode →
      e.mode = vsp1_dl_mode.VSP1_DL_MODE_HEADER → e.pending = none := by
    intro e h1 h2
    exact absurd (h2.symm.trans (h1.trans (hmo.trans hm))) (by decide)
  -- a queued or pending list is not released by this call
  have hq_free : ∀ x, d.queued = some x → x ∉ d0.free := by
    intro x hx
    rw [hfree]
    rintro (h | h)
    · exact (hs.queued_ok hm x hx).2.1 h
    · exact (hs.active_ok hm x h).1 hx
  have hp_free : ∀ x, d.pending = some x → x ∉ d0.free := by
    intro x hx
    rw [hfree]
    rintro (h | h)
    · exact (hs.pending_ok hm x hx).1 h
    · exact (hs.active_ok hm x h).2.1 hx
  by_cases hupd : vsp1_read d.vsp1 d.vsp1.regs.VI6_DL_BODY_SIZE &&&
      d.vsp1.regs.VI6_DL_BODY_SIZE_UPD = 0
  · simp only [ne_eq, hupd, not_true_eq_false, if_false] at heq
    cases hpp : d.pending with
    | none =>
      rw [hpp] at heq
      refine ⟨_, _, heq, pool_inv_of_eq hp0 rfl rfl rfl, ?_, hmo⟩
      refine ⟨?_, ?_, ?_, hnoth _ rfl⟩
      · intro _ x hx
        have hx1 : d.queued = some x := hx
        refine ⟨by simp, ?_, hq_free x hx1, (hs.queued_ok hm x hx1).2.2⟩
        show d0.pending ≠ some x
        rw [hpe, hpp]
        simp
      · intro _ x hx
        simp at hx
      · intro _ x hx
        have hx1 : d0.pending = some x := hx
        rw [hpe, hpp] at hx1
        simp at hx1
    | some p =>
      rw [hpp] at heq
      refine ⟨_, _, heq, pool_inv_of_eq hp0 rfl rfl rfl, ?_, hmo⟩
      refine ⟨?_, ?_, ?_, hnoth _ rfl⟩
      · intro _ x hx
        have hx1 : d.queued = some x := hx
        refine ⟨?_, by simp, hq_free x hx1, (hs.queued_ok hm x hx1).2.2⟩
        show some p ≠ some x
        intro h
        exact (hs.queued_ok hm x hx1).1 (hpp.trans h)
      · intro _ x hx
        have hx1 : p = x := Option.some.inj hx
        subst hx1
        exact ⟨by simp, hp_free p hpp, (hs.pending_ok hm p hpp).2⟩
      · intro _ x hx
        simp at hx
  · simp only [ne_eq, hupd, not_false_eq_true, if_true] at heq
    refine ⟨_, _, heq, pool_inv_of_eq hp0 rfl rfl rfl, ?_, hmo⟩
    refine ⟨?_, ?_, ?_, hnoth _ rfl⟩
    · intro _ x hx
      simp at hx
    · intro _ x hx
      have hx1 : d.queued = some x := hq ▸ hx
      refine ⟨?_, hq_free x hx1, (hs.queued_ok hm x hx1).2.2⟩
      show d0.pending ≠ some x
      rw [hpe]
      exact (hs.queued_ok hm x hx1).1
    · intro _ x hx
      have hx1 : d.pending = some x := hpe ▸ hx
      exact ⟨hp_free x hx1, (hs.pending_ok hm x hx1).2⟩

theorem frame_end_header_shape (fuel : Nat) (d : vsp1_dl_manager) (interlaced : Bool)
    (hmode : d.mode = vsp1_dl_mode.VSP1_DL_MODE_HEADER) :
    ∃ r e, vsp1_dlm_irq_frame_end fuel d interlaced = some (r, e) ∧
      e.free = d.free ∧ e.lists = d.lists ∧ e.mode = d.mode ∧ e.pending = d.pending := by
  have defer : ∃ r e, some (false, { d with active := none }) = some (r, e) ∧
      e.free = d.free ∧ e.lists = d.lists ∧ e.mode = d.mode ∧ e.pending = d.pending :=
    ⟨false, { d with active := none }, rfl, rfl, rfl, rfl, rfl⟩
  have promote : ∀ q, ∃ r e,
      some (true, { d with active := some q, queued := none }) = some (r, e) ∧
      e.free = d.free ∧ e.lists = d.lists ∧ e.mode = d.mode ∧ e.pending = d.pending :=
    fun q => ⟨true, { d with active := some q, queued := none }, rfl, rfl, rfl, rfl, rfl⟩
  by_cases h1 : vsp1_read d.vsp1 (d.vsp1.regs.VI6_CMD d.index) &&&
      d.vsp1.regs.VI6_CMD_UPDHDR = 0
  · by_cases h3 : vsp1_read d.vsp1 d.vsp1.regs.VI6_STATUS &&&
        d.vsp1.regs.VI6_STATUS_FLD_STD d.index = d.vsp1.regs.VI6_STATUS_FLD_STD d.index
    · cases hq : d.queued with
      | none =>
        have : vsp1_dlm_irq_frame_end fuel d interlaced =
            some (false, { d with active := none }) := by
          simp [vsp1_dlm_irq_frame_end, hmode, h1, h3, hq]
        rw [this]
        exact defer
      | some q =>
        have : vsp1_dlm_irq_frame_end fuel d interlaced =
            some (true, { d with active := some q, queued := none }) := by
          simp [vsp1_dlm_irq_frame_end, hmode, h1, h3, hq]
        rw [this]
        exact promote q
    · cases interlaced with
      | true =>
        have : vsp1_dlm_irq_frame_end fuel d true =
            some (false, { d with active := none }) := by
          simp [vsp1_dlm_irq_frame_end, hmode, h1, h3]
        rw [this]
        exact defer
      | false =>
        cases hq : d.queued with
        | none =>
          have : vsp1_dlm_irq_frame_end fuel d false =
              some (false, { d with active := none }) := by
            simp [vsp1_dlm_irq_frame_end, hmode, h1, hq]
          rw [this]
          exact defer
        | some q =>
          have : vsp1_dlm_irq_frame_end fuel d false =
              some (true, { d with active := some q, queued := none }) := by
            simp [vsp1_dlm_irq_frame_end, hmode, h1, hq]
          rw [this]
          exact promote q
  · have : vsp1_dlm_irq_frame_end fuel d interlaced =
        some (false, { d with active := none }) := by
      simp [vsp1_dlm_irq_frame_end, hmode, h1]
    rw [this]
    exact defer

theorem fill_header_last (d : vsp1_dl_manager) (dl lif_index h e : Nat)
    (hh : (d.lists dl).header = some h) (he : (d.lists dl).ext_body = some e) :
    ∃ m, vsp1_dl_list_fill_header d dl true lif_index =
      some (set_list d dl { d.lists dl with
        body0 := { (d.lists dl).body0 with entries := m } }) := by
  unfold vsp1_dl_list_fill_header
  simp only [hh, he, Bool.not_true, Bool.and_false, Bool.false_eq_true, if_false]
  split_ifs <;> exact ⟨_, rfl⟩

theorem commit_header_eq (fuel : Nat) (d d1 : vsp1_dl_manager) (dl lif_index : Nat)
    (hm : d.mode = vsp1_dl_mode.VSP1_DL_MODE_HEADER)
    (hfill : vsp1_dl_list_fill_header d dl (list_empty_chain d dl) lif_index = some d1)
    (hring : (d1.lists dl).chain.next = some dl)
    (hnc : (d1.lists dl).has_chain = false) :
    ∃ v, vsp1_dl_list_commit (fuel + 1) d dl lif_index =
      some (vsp1_dl_list_put_tail
        { d1 with vsp1 := v, active := some dl, queued := some dl } dl) := by
  unfold vsp1_dl_list_commit
  simp only [hm, if_true, hfill, hring, vsp1_dl_list_commit_chain]
  exact ⟨_, put_no_chain fuel _ dl hnc⟩

theorem commit_step_header (fuel : Nat) {d : vsp1_dl_manager} {held : List Nat}
    (hp : pool_inv d held) (hs : slots_inv d held) (dl lif_index : Nat) (hdl : dl ∈ held)
    (hm : d.mode = vsp1_dl_mode.VSP1_DL_MODE_HEADER) :
    ∃ e, vsp1_dl_list_commit (fuel + 1) d dl lif_index = some e ∧
      pool_inv e (held.erase dl) ∧ slots_inv e (held.erase dl) ∧ e.mode = d.mode := by
  obtain ⟨hh, he⟩ := hp.header_ok hm dl (Or.inr hdl)
  obtain ⟨h, hh⟩ := Option.isSome_iff_exists.1 hh
  obtain ⟨e, he⟩ := Option.isSome_iff_exists.1 he
  have hring : (d.lists dl).chain.next = some dl := hp.held_ring dl hdl
  have hempty : list_empty_chain d dl = true := by
    simp [list_empty_chain, hring]
  obtain ⟨m, hfill⟩ := fill_header_last d dl lif_index h e hh he
  rw [← hempty] at hfill
  -- the state after the header was filled
  obtain ⟨d1, hd1⟩ : ∃ d1, d1 = set_list d dl
      { d.lists dl with body0 := { (d.lists dl).body0 with entries := m } } := ⟨_, rfl⟩
  rw [← hd1] at hfill
  have hp1 : pool_inv d1 held := by
    rw [hd1]
    exact pool_inv_set_list hp dl _ (hp.no_chain dl) rfl rfl rfl (hp.free_clean dl)
  have hfree1 : d1.free = d.free := by rw [hd1]; rfl
  have hmode1 : d1.mode = d.mode := by rw [hd1]; rfl
  have hpend1 : d1.pending = d.pending := by rw [hd1]; rfl
  obtain ⟨v, hc⟩ := commit_header_eq fuel d d1 dl lif_index hm hfill
    (hp1.held_ring dl hdl) (hp1.no_chain dl)
  -- the state that is handed to the final put
  obtain ⟨d3, hd3⟩ : ∃ d3, d3 = { d1 with vsp1 := v, active := some dl, queued := some dl } :=
    ⟨_, rfl⟩
  rw [← hd3] at hc
  have hp3 : pool_inv d3 held := by
    rw [hd3]
    exact pool_inv_of_eq hp1 rfl rfl rfl
  have hfree3 : d3.free = d.free := by rw [hd3]; exact hfree1
  have hmode3 : d3.mode = d.mode := by rw [hd3]; exact hmode1
  have hpend3 : d3.pending = d.pending := by rw [hd3]; exact hpend1
  obtain ⟨_, _, hpt, _, hmt, _⟩ := put_tail_frame d3 dl
  have habs : (vsp1_dl_list_put_tail d3 dl).mode ≠ vsp1_dl_mode.VSP1_DL_MODE_HEADERLESS := by
    rw [hmt, hmode3, hm]
    decide
  refine ⟨_, hc, ?_, ?_, hmt.trans hmode3⟩
  · apply pool_inv_put_tail hp3 dl
    · rw [hfree3]
      exact hp.held_not_free dl hdl
    · intro hm3
      exact hp3.header_ok hm3 dl (Or.inr hdl)
  · refine ⟨fun h => absurd h habs, fun h => absurd h habs, fun h => absurd h habs, ?_⟩
    intro _
    rw [hpt, hpend3]
    exact hs.header_pending hm

theorem list_alloc_props (mode : vsp1_dl_mode) (buf : dma_buffer) :
    (vsp1_dl_list_alloc mode buf).has_chain = false ∧
    (vsp1_dl_list_alloc mode buf).fragments = [] ∧
    (mode = vsp1_dl_mode.VSP1_DL_MODE_HEADER →
      (vsp1_dl_list_alloc mode buf).header.isSome = true ∧
      (vsp1_dl_list_alloc mode buf).ext_body.isSome = true) := by
  cases mode <;> simp [vsp1_dl_list_alloc, vsp1_dl_list_zero]

theorem create_loop_inv (alloc : Nat → Option dma_buffer) :
    ∀ (n i : Nat) (d e : vsp1_dl_manager), vsp1_dlm_create_loop alloc n i d = some e →
      pool_inv d [] → (∀ x ∈ d.free, x < i) →
      pool_inv e [] ∧ e.active = d.active ∧ e.queued = d.queued ∧ e.pending = d.pending ∧
        e.mode = d.mode := by
  intro n
  induction n with
  | zero =>
    intro i d e h hp _
    simp only [vsp1_dlm_create_loop, Option.some.injEq] at h
    subst h
    exact ⟨hp, rfl, rfl, rfl, rfl⟩
  | succ n ih =>
    intro i d e h hp hlt
    simp only [vsp1_dlm_create_loop] at h
    cases ha : alloc i with
    | none => simp [ha] at h
    | some buf =>
      simp only [ha] at h
      obtain ⟨hnc, hfr, hhd⟩ := list_alloc_props d.mode buf
      have hi : i ∉ d.free := fun hmem => Nat.lt_irrefl i (hlt i hmem)
      have key : ∀ x, x ∈ d.free ++ [i] →
          ((set_list d i (vsp1_dl_list_alloc d.mode buf)).lists x).fragments = [] ∧
          (d.mode = vsp1_dl_mode.VSP1_DL_MODE_HEADER →
            ((set_list d i (vsp1_dl_list_alloc d.mode buf)).lists x).header.isSome = true ∧
            ((set_list d i (vsp1_dl_list_alloc d.mode buf)).lists x).ext_body.isSome =
              true) := by
        intro x hx
        by_cases hxi : x = i
        · subst hxi
          rw [set_list_lists_self]
          exact ⟨hfr, hhd⟩
        · rw [set_list_lists_other d i x _ hxi]
          rcases List.mem_append.1 hx with hx | hx
          · exact ⟨hp.free_clean x hx, fun hm => hp.header_ok hm x (Or.inl hx)⟩
          · exact absurd (List.mem_singleton.1 hx) hxi
      have hp2 : pool_inv
          { set_list d i (vsp1_dl_list_alloc d.mode buf) with
            free := (set_list d i (vsp1_dl_list_alloc d.mode buf)).free ++ [i] } [] := by
        refine ⟨?_, List.nodup_nil, ?_, ?_, ?_, ?_, ?_⟩
        · show (d.free ++ [i]).Nodup
          exact List.Nodup.append hp.free_nodup (List.nodup_singleton i)
            (by
              intro x hx hx2
              rw [List.mem_singleton.1 hx2] at hx
              exact hi hx)
        · intro x hx
          cases hx
        · intro x
          by_cases hxi : x = i
          · subst hxi
            show ((set_list d x (vsp1_dl_list_alloc d.mode buf)).lists x).has_chain = false
            rw [set_list_lists_self]
            exact hnc
          · show ((set_list d i (vsp1_dl_list_alloc d.mode buf)).lists x).has_chain = false
            rw [set_list_lists_other d i x _ hxi]
            exact hp.no_chain x
        · intro x hx
          exact (key x hx).1
        · intro x hx
          cases hx
        · intro hm x hx
          rcases hx with hx | hx
          · exact (key x hx).2 hm
          · cases hx
      have hlt2 : ∀ x ∈ ({ set_list d i (vsp1_dl_list_alloc d.mode buf) with
            free := (set_list d i (vsp1_dl_list_alloc d.mode buf)).free ++ [i] } :
            vsp1_dl_manager).free, x < i + 1 := by
        intro x hx
        rcases List.mem_append.1 hx with hx | hx
        · exact Nat.lt_succ_of_lt (hlt x hx)
        · rw [List.mem_singleton.1 hx]
          exact Nat.lt_succ_self i
      obtain ⟨h1, h2, h3, h4, h5⟩ := ih (i + 1) _ e h hp2 hlt2
      exact ⟨h1, h2, h3, h4, h5⟩

theorem create_inv (vsp1 : vsp1_device) (index prealloc : Nat)
    (alloc : Nat → Option dma_buffer) (init : vsp1_dl_manager)
    (h : vsp1_dlm_create vsp1 index prealloc alloc = some init) :
    pool_inv init [] ∧ slots_inv init [] := by
  unfold vsp1_dlm_create at h
  have hp0 : ∀ m : vsp1_dl_mode, pool_inv
      { index := index, mode := m, vsp1 := vsp1, lists := fun _ => vsp1_dl_list_zero,
        free := [], active := none, queued := none, pending := none,
        gc_scheduled := false, gc_fragments := [] } [] := by
    intro m
    refine ⟨List.nodup_nil, List.nodup_nil, ?_, fun _ => rfl, ?_, ?_, ?_⟩
    · intro x hx
      cases hx
    · intro x hx
      cases hx
    · intro x hx
      cases hx
    · intro _ x hx
      rcases hx with hx | hx <;> cases hx
  obtain ⟨hp, ha, hq, hpe, _⟩ := create_loop_inv alloc prealloc 0 _ init h (hp0 _)
    (by
      intro x hx
      cases hx)
  refine ⟨hp, ?_, ?_, ?_, ?_⟩
  · intro _ x hx
    rw [ha] at hx
    cases hx
  · intro _ x hx
    rw [hq] at hx
    cases hx
  · intro _ x hx
    rw [hpe] at hx
    cases hx
  · intro _
    rw [hpe]

theorem commit_step (fuel : Nat) {d : vsp1_dl_manager} {held : List Nat}
    (hp : pool_inv d held) (hs : slots_inv d held) (dl lif_index : Nat) (hdl : dl ∈ held) :
    ∃ e, vsp1_dl_list_commit (fuel + 1) d dl lif_index = some e ∧
      pool_inv e (held.erase dl) ∧ slots_inv e (held.erase dl) ∧ e.mode = d.mode := by
  cases hm : d.mode with
  | VSP1_DL_MODE_HEADER =>
    have := commit_step_header fuel hp hs dl lif_index hdl hm
    rw [hm] at this
    exact this
  | VSP1_DL_MODE_HEADERLESS =>
    have := commit_step_headerless fuel hp hs dl lif_index hdl hm
    rw [hm] at this
    exact this

theorem frame_end_step (fuel : Nat) {d : vsp1_dl_manager} {held : List Nat}
    (hp : pool_inv d held) (hs : slots_inv d held) (interlaced : Bool) :
    ∃ r e, vsp1_dlm_irq_frame_end (fuel + 1) d interlaced = some (r, e) ∧
      pool_inv e held ∧ slots_inv e held := by
  cases hm : d.mode with
  | VSP1_DL_MODE_HEADER =>
    obtain ⟨r, e, he, h1, h2, h3, h4⟩ := frame_end_header_shape (fuel + 1) d interlaced hm
    refine ⟨r, e, he, pool_inv_of_eq hp h1 h2 h3, ?_⟩
    have habs : e.mode ≠ vsp1_dl_mode.VSP1_DL_MODE_HEADERLESS := by
      rw [h3, hm]
      decide
    refine ⟨fun h => absurd h habs, fun h => absurd h habs, fun h => absurd h habs, ?_⟩
    intro _
    rw [h4]
    exact hs.header_pending hm
  | VSP1_DL_MODE_HEADERLESS =>
    obtain ⟨r, e, he, h1, h2, _⟩ := frame_end_step_headerless fuel hp hs interlaced hm
    exact ⟨r, e, he, h1, h2⟩

theorem commit_trace_inv (fuel : Nat) (init : vsp1_dl_manager)
    (h0 : pool_inv init [] ∧ slots_inv init []) (c : dl_client)
    (h : commit_trace (fuel + 1) init c) : pool_inv c.dlm c.held ∧ slots_inv c.dlm c.held := by
  induction h with
  | start => exact h0
  | get_some c dl d _ hget ih => exact (get_step ih.1 ih.2).1 dl d hget
  | get_none c d _ hget ih =>
    have := (get_step ih.1 ih.2).2 d hget
    subst this
    exact ih
  | write c dl reg data _ _ _ ih => exact write_step ih.1 ih.2 dl reg data
  | add_fragment c dl dlb _ hdl ih => exact add_fragment_step ih.1 ih.2 dl hdl dlb
  | commit c dl lif_index mmio d _ hdl hc ih =>
    have hp : pool_inv (set_mmio c.dlm mmio) c.held := pool_inv_of_eq ih.1 rfl rfl rfl
    have hs : slots_inv (set_mmio c.dlm mmio) c.held :=
      slots_inv_of_eq ih.2 rfl rfl rfl rfl rfl
    obtain ⟨e, he, hpe, hse, _⟩ := commit_step fuel hp hs dl lif_index hdl
    have : e = d := Option.some.inj (he.symm.trans hc)
    subst this
    exact ⟨hpe, hse⟩
  | frame_end c interlaced mmio r d _ hf ih =>
    have hp : pool_inv (set_mmio c.dlm mmio) c.held := pool_inv_of_eq ih.1 rfl rfl rfl
    have hs : slots_inv (set_mmio c.dlm mmio) c.held :=
      slots_inv_of_eq ih.2 rfl rfl rfl rfl rfl
    obtain ⟨r1, e, he, hpe, hse⟩ := frame_end_step fuel hp hs interlaced
    have : (r1, e) = (r, d) := Option.some.inj (he.symm.trans hf)
    have h2 : e = d := (Prod.mk.inj this).2
    subst h2
    exact ⟨hpe, hse⟩

/-! ## Headerless managers never carry a chain marker

The single-call theorems on headerless managers assume that the list being
released carries no chain marker.  The marker is only ever set by
`vsp1_dl_list_add_chain`, which refuses in headerless mode, so the assumption
holds in every state that a headerless manager can reach. -/

theorem no_chain_put_tail {d : vsp1_dl_manager} (h : no_chain d) (p : Nat) :
    no_chain (vsp1_dl_list_put_tail d p) := by
  intro x
  by_cases hx : x = p
  · subst hx
    rw [put_tail_lists_self]
  · rw [put_tail_lists_other d p x hx]
    exact h x

theorem no_chain_put {fuel : Nat} {d e : vsp1_dl_manager} {o : Option Nat} (h : no_chain d)
    (hput : __vsp1_dl_list_put fuel d o = some e) : no_chain e := by
  cases o with
  | none =>
    rw [put_null] at hput
    cases hput
    exact h
  | some p =>
    cases fuel with
    | zero => simp [__vsp1_dl_list_put] at hput
    | succ n =>
      rw [put_no_chain n d p (h p)] at hput
      cases hput
      exact no_chain_put_tail h p

theorem no_chain_of_lists_eq {d e : vsp1_dl_manager} (h : no_chain d)
    (he : e.lists = d.lists) : no_chain e := by
  intro x
  rw [he]
  exact h x

theorem no_chain_headerless (d : vsp1_dl_manager)
    (hm : d.mode = vsp1_dl_mode.VSP1_DL_MODE_HEADERLESS) (h : no_chain d) :
    no_chain (vsp1_dl_list_get d).2 ∧
    (∀ dl reg data, no_chain (vsp1_dl_list_write d dl reg data)) ∧
    (∀ dl dlb, vsp1_dl_list_add_fragment d dl dlb = (EINVAL_neg, d)) ∧
    (∀ head dl, vsp1_dl_list_add_chain d head dl = some (EINVAL_neg, d)) ∧
    (∀ fuel dl lif_index e, vsp1_dl_list_commit fuel d dl lif_index = some e → no_chain e) ∧
    (∀ fuel e, vsp1_dlm_irq_display_start fuel d = some e → no_chain e) ∧
    (∀ fuel interlaced r e,
      vsp1_dlm_irq_frame_end fuel d interlaced = some (r, e) → no_chain e) ∧
    (∀ fuel e, vsp1_dlm_reset fuel d = some e → no_chain e) := by
  refine ⟨?_, ?_, ?_, ?_, ?_, ?_, ?_, ?_⟩
  · unfold vsp1_dl_list_get
    cases d.free with
    | nil => exact h
    | cons a rest =>
      intro x
      show ((INIT_LIST_HEAD_chain { d with free := rest } a).lists x).has_chain = false
      unfold INIT_LIST_HEAD_chain
      by_cases hx : x = a
      · subst hx
        rw [set_list_lists_self]
        exact h x
      · rw [set_list_lists_other _ a x _ hx]
        exact h x
  · intro dl reg data x
    unfold vsp1_dl_list_write
    by_cases hx : x = dl
    · subst hx
      rw [set_list_lists_self]
      exact h x
    · rw [set_list_lists_other _ dl x _ hx]
      exact h x
  · intro dl dlb
    simp [vsp1_dl_list_add_fragment, hm]
  · intro head dl
    simp [vsp1_dl_list_add_chain, hm]
  · intro fuel dl lif_index e he
    by_cases hupd : vsp1_read d.vsp1 d.vsp1.regs.VI6_DL_BODY_SIZE &&&
        d.vsp1.regs.VI6_DL_BODY_SIZE_UPD = 0
    · rw [commit_headerless_clear_eq fuel d dl lif_index hm hupd] at he
      cases hput : __vsp1_dl_list_put fuel
          { d with vsp1 := device_programmed d.vsp1 (d.lists dl) } d.queued with
      | none => simp [hput] at he
      | some d2 =>
        simp only [hput, Option.some.injEq] at he
        subst he
        have h0 : no_chain { d with vsp1 := device_programmed d.vsp1 (d.lists dl) } :=
          no_chain_of_lists_eq h rfl
        exact no_chain_of_lists_eq (no_chain_put h0 hput) rfl
    · rw [commit_headerless_set_eq fuel d dl lif_index hm hupd] at he
      cases hput : __vsp1_dl_list_put fuel d d.pending with
      | none => simp [hput] at he
      | some d2 =>
        simp only [hput, Option.some.injEq] at he
        subst he
        exact no_chain_of_lists_eq (no_chain_put h hput) rfl
  · intro fuel e he
    simp only [vsp1_dlm_irq_display_start, hm] at he
    cases hput : __vsp1_dl_list_put fuel d d.active with
    | none => simp [hput] at he
    | some d2 =>
      simp [hput] at he
      subst he
      exact no_chain_of_lists_eq (no_chain_put h hput) rfl
  · intro fuel interlaced r e he
    cases hput : __vsp1_dl_list_put fuel d d.active with
    | none => simp [vsp1_dlm_irq_frame_end, hm, hput] at he
    | some d0 =>
      have h0 := no_chain_put h hput
      rw [frame_end_headerless_eq fuel d interlaced hm d0 hput] at he
      by_cases hupd : vsp1_read d.vsp1 d.vsp1.regs.VI6_DL_BODY_SIZE &&&
          d.vsp1.regs.VI6_DL_BODY_SIZE_UPD = 0
      · simp only [ne_eq, hupd, not_true_eq_false, if_false] at he
        cases hpp : d.pending with
        | none =>
          simp only [hpp, Option.some.injEq, Prod.mk.injEq] at he
          obtain ⟨_, he⟩ := he
          subst he
          exact no_chain_of_lists_eq h0 rfl
        | some p =>
          simp only [hpp, Option.some.injEq, Prod.mk.injEq] at he
          obtain ⟨_, he⟩ := he
          subst he
          exact no_chain_of_lists_eq h0 rfl
      · simp only [ne_eq, hupd, not_false_eq_true, if_true, Option.some.injEq,
          Prod.mk.injEq] at he
        obtain ⟨_, he⟩ := he
        subst he
        exact no_chain_of_lists_eq h0 rfl
  · intro fuel e he
    simp only [vsp1_dlm_reset] at he
    cases h1 : __vsp1_dl_list_put fuel d d.active with
    | none => simp [h1] at he
    | some d1 =>
      simp only [h1] at he
      cases h2 : __vsp1_dl_list_put fuel d1 d1.queued with
      | none => simp [h2] at he
      | some d2 =>
        simp only [h2] at he
        cases h3 : __vsp1_dl_list_put fuel d2 d2.pending with
        | none => simp [h3] at he
        | some d3 =>
          simp only [h3, Option.some.injEq] at he
          subst he
          exact no_chain_of_lists_eq
            (no_chain_put (no_chain_put (no_chain_put h h1) h2) h3) rfl

theorem no_chain_create (vsp1 : vsp1_device) (index prealloc : Nat)
    (alloc : Nat → Option dma_buffer) (init : vsp1_dl_manager)
    (h : vsp1_dlm_create vsp1 index prealloc alloc = some init) : no_chain init :=
  (create_inv vsp1 index prealloc alloc init h).1.no_chain

/-- C1 (amended): start from a freshly created manager and let the caller call
`vsp1_dl_list_get`, write to and attach fragments to lists it holds, commit
lists it holds, and let the frame end handler run, with any hardware status.
After every call: in headerless mode no list is referenced by two of the slots
active, queued, pending and no list referenced by a slot is in the free pool;
in header mode the pending slot is empty (active and queued may reference the
same list); in both modes every list in the free pool has no fragments and a
cleared chain marker, the free pool holds no list twice and none that the
caller holds.  Every such commit and every frame end returns. -/
theorem commit_trace_invariant (vsp1 : vsp1_device) (index prealloc : Nat)
    (alloc : Nat → Option dma_buffer) (init : vsp1_dl_manager)
    (hcreate : vsp1_dlm_create vsp1 index prealloc alloc = some init)
    (fuel : Nat) (c : dl_client) (htrace : commit_trace (fuel + 1) init c) :
    (c.dlm.mode = vsp1_dl_mode.VSP1_DL_MODE_HEADERLESS →
      (∀ x, c.dlm.active = some x →
        c.dlm.queued ≠ some x ∧ c.dlm.pending ≠ some x ∧ x ∉ c.dlm.free) ∧
      (∀ x, c.dlm.queued = some x → c.dlm.pending ≠ some x ∧ x ∉ c.dlm.free) ∧
      (∀ x, c.dlm.pending = some x → x ∉ c.dlm.free)) ∧
    (c.dlm.mode = vsp1_dl_mode.VSP1_DL_MODE_HEADER → c.dlm.pending = none) ∧
    (∀ x ∈ c.dlm.free,
      (c.dlm.lists x).fragments = [] ∧ (c.dlm.lists x).has_chain = false) ∧
    c.dlm.free.Nodup ∧ (∀ x ∈ c.held, x ∉ c.dlm.free) ∧
    (∀ dl ∈ c.held, ∀ lif_index mmio,
      ∃ d, vsp1_dl_list_commit (fuel + 1) (set_mmio c.dlm mmio) dl lif_index = some d) ∧
    (∀ interlaced mmio,
      ∃ r d, vsp1_dlm_irq_frame_end (fuel + 1) (set_mmio c.dlm mmio) interlaced =
        some (r, d)) := by
  obtain ⟨hp, hs⟩ := commit_trace_inv fuel init
    (create_inv vsp1 index prealloc alloc init hcreate) c htrace
  refine ⟨?_, hs.header_pending, ?_, hp.free_nodup, hp.held_not_free, ?_, ?_⟩
  · intro hm
    refine ⟨?_, ?_, ?_⟩
    · intro x hx
      obtain ⟨h1, h2, h3, _⟩ := hs.active_ok hm x hx
      exact ⟨h1, h2, h3⟩
    · intro x hx
      obtain ⟨h1, h2, _⟩ := hs.queued_ok hm x hx
      exact ⟨h1, h2⟩
    · intro x hx
      exact (hs.pending_ok hm x hx).1
  · intro x hx
    exact ⟨hp.free_clean x hx, hp.no_chain x⟩
  · intro dl hdl lif_index mmio
    have hp1 : pool_inv (set_mmio c.dlm mmio) c.held := pool_inv_of_eq hp rfl rfl rfl
    have hs1 : slots_inv (set_mmio c.dlm mmio) c.held :=
      slots_inv_of_eq hs rfl rfl rfl rfl rfl
    obtain ⟨e, he, _⟩ := commit_step fuel hp1 hs1 dl lif_index hdl
    exact ⟨e, he⟩
  · intro interlaced mmio
    have hp1 : pool_inv (set_mmio c.dlm mmio) c.held := pool_inv_of_eq hp rfl rfl rfl
    have hs1 : slots_inv (set_mmio c.dlm mmio) c.held :=
      slots_inv_of_eq hs rfl rfl rfl rfl rfl
    obtain ⟨r, e, he, _⟩ := frame_end_step fuel hp1 hs1 interlaced
    exact ⟨r, e, he⟩

theorem ex_headerless_trace :
    commit_trace 1 ex_headerless_0 { dlm := ex_headerless_3, held := [] } := by
  have h1 : commit_trace 1 ex_headerless_0 { dlm := ex_headerless_1, held := [0] } :=
    commit_trace.get_some { dlm := ex_headerless_0, held := [] } 0 ex_headerless_1
      commit_trace.start rfl
  have h2 : commit_trace 1 ex_headerless_0 { dlm := ex_headerless_2, held := [] } :=
    commit_trace.commit { dlm := ex_headerless_1, held := [0] } 0 0 ex_mmio_idle
      ex_headerless_2 h1 (List.mem_singleton.2 rfl) (Option.some_get _).symm
  exact commit_trace.frame_end { dlm := ex_headerless_2, held := [] } false ex_mmio_idle true
    ex_headerless_3 h2 rfl

/-- Witness of C1 (amended): the headerless manager after list 0 was obtained,
committed and made active by a frame end. -/
theorem commit_trace_invariant_witness :
    vsp1_dlm_create (ex_device false) 0 4 ex_alloc = some ex_headerless_0 ∧
    commit_trace 1 ex_headerless_0 { dlm := ex_headerless_3, held := [] } ∧
    ex_headerless_3.active = some 0 ∧ 0 ∉ ex_headerless_3.free ∧
    ex_headerless_3.free.Nodup := by
  have hc : vsp1_dlm_create (ex_device false) 0 4 ex_alloc = some ex_headerless_0 :=
    (Option.some_get _).symm
  have h := commit_trace_invariant (ex_device false) 0 4 ex_alloc ex_headerless_0 hc 0
    { dlm := ex_headerless_3, held := [] } ex_headerless_trace
  exact ⟨hc, ex_headerless_trace, rfl, (h.1 rfl).1 0 rfl |>.2.2, h.2.2.2.1⟩

/-- Counterexample to C1 as stated: in header mode, after list 0 was obtained
from a fresh manager and committed, list 0 is referenced by the active and by
the queued slot and is in the free pool as well. -/
theorem commit_trace_header_shares_list :
    vsp1_dlm_create (ex_device true) 0 2 ex_alloc = some ex_header_0 ∧
    commit_trace 1 ex_header_0 { dlm := ex_header_2, held := [] } ∧
    ex_header_2.mode = vsp1_dl_mode.VSP1_DL_MODE_HEADER ∧
    ex_header_2.active = some 0 ∧ ex_header_2.queued = some 0 ∧ 0 ∈ ex_header_2.free := by
  refine ⟨(Option.some_get _).symm, ?_, rfl, rfl, rfl, by decide⟩
  have h1 : commit_trace 1 ex_header_0 { dlm := ex_header_1, held := [0] } :=
    commit_trace.get_some { dlm := ex_header_0, held := [] } 0 ex_header_1
      commit_trace.start rfl
  exact commit_trace.commit { dlm := ex_header_1, held := [0] } 0 0 ex_mmio_idle
    ex_header_2 h1 (List.mem_singleton.2 rfl) (Option.some_get _).symm

/-! ## Obtaining lists from the pool -/

theorem create_loop_free (alloc : Nat → Option dma_buffer) :
    ∀ (n i : Nat) (d : vsp1_dl_manager), (∀ j, i ≤ j → j < i + n → (alloc j).isSome = true) →
      ∃ e, vsp1_dlm_create_loop alloc n i d = some e ∧ e.free = d.free ++ List.range' i n ∧
        e.active = d.active ∧ e.queued = d.queued ∧ e.pending = d.pending := by
  intro n
  induction n with
  | zero =>
    intro i d _
    exact ⟨d, rfl, by simp, rfl, rfl, rfl⟩
  | succ n ih =>
    intro i d h
    obtain ⟨buf, hbuf⟩ := Option.isSome_iff_exists.1 (h i (Nat.le_refl i) (by omega))
    obtain ⟨e, he, hfree, ha, hq, hp⟩ := ih (i + 1)
      { set_list d i (vsp1_dl_list_alloc d.mode buf) with
        free := (set_list d i (vsp1_dl_list_alloc d.mode buf)).free ++ [i] }
      (by
        intro j h1 h2
        exact h j (by omega) (by omega))
    refine ⟨e, ?_, ?_, ha, hq, hp⟩
    · simp only [vsp1_dlm_create_loop, hbuf]
      exact he
    · rw [hfree]
      show (d.free ++ [i]) ++ List.range' (i + 1) n = d.free ++ List.range' i (n + 1)
      simp [List.range'_succ]

theorem get_cons (d : vsp1_dl_manager) (x : Nat) (rest : List Nat) (h : d.free = x :: rest) :
    (vsp1_dl_list_get d).1 = some x ∧ (vsp1_dl_list_get d).2.free = rest ∧
    (vsp1_dl_list_get d).2.active = d.active ∧ (vsp1_dl_list_get d).2.queued = d.queued ∧
    (vsp1_dl_list_get d).2.pending = d.pending := by
  simp [vsp1_dl_list_get, h, INIT_LIST_HEAD_chain, set_list]

theorem get_nil (d : vsp1_dl_manager) (h : d.free = []) :
    vsp1_dl_list_get d = (none, d) := by
  simp [vsp1_dl_list_get, h]

theorem get_n_all (l : List Nat) :
    ∀ d : vsp1_dl_manager, d.free = l →
      (vsp1_dl_list_get_n (l.length + 1) d).1 = l.map some ++ [none] := by
  induction l with
  | nil =>
    intro d h
    simp [vsp1_dl_list_get_n, get_nil d h]
  | cons x rest ih =>
    intro d h
    obtain ⟨h1, h2, _⟩ := get_cons d x rest h
    have := ih (vsp1_dl_list_get d).2 h2
    have e : (vsp1_dl_list_get_n ((x :: rest).length + 1) d).1 =
        (vsp1_dl_list_get d).1 ::
          (vsp1_dl_list_get_n (rest.length + 1) (vsp1_dl_list_get d).2).1 := rfl
    rw [e, h1, this]
    rfl

/-- C11: a manager created with `prealloc = n`, all allocations succeeding,
answers `n` consecutive `vsp1_dl_list_get` calls with the `n` pairwise distinct
lists it allocated and the call after them with none.  In every state the call
returns none exactly when the free pool is empty, and otherwise removes and
returns the head of the pool; the slots are unchanged. -/
theorem get_free_list_exhausts_pool (vsp1 : vsp1_device) (index n : Nat)
    (alloc : Nat → Option dma_buffer) (halloc : ∀ i, i < n → (alloc i).isSome = true) :
    (∃ init, vsp1_dlm_create vsp1 index n alloc = some init ∧
      (vsp1_dl_list_get_n (n + 1) init).1 = (List.range n).map some ++ [none] ∧
      ((List.range n).map some).Nodup ∧ ((List.range n).map some).length = n) ∧
    (∀ d : vsp1_dl_manager,
      ((vsp1_dl_list_get d).1 = none ↔ d.free = []) ∧
      (d.free = [] → (vsp1_dl_list_get d).2 = d) ∧
      (∀ x rest, d.free = x :: rest →
        (vsp1_dl_list_get d).1 = some x ∧ (vsp1_dl_list_get d).2.free = rest) ∧
      (vsp1_dl_list_get d).2.active = d.active ∧
      (vsp1_dl_list_get d).2.queued = d.queued ∧
      (vsp1_dl_list_get d).2.pending = d.pending) := by
  constructor
  · obtain ⟨e, he, hfree, _⟩ := create_loop_free alloc n 0
      { index := index,
        mode := if (index = 0 && !vsp1.info.uapi && !vsp1.info.header_mode) = true then
          vsp1_dl_mode.VSP1_DL_MODE_HEADERLESS else vsp1_dl_mode.VSP1_DL_MODE_HEADER,
        vsp1 := vsp1, lists := fun _ => vsp1_dl_list_zero,
        free := [], active := none, queued := none, pending := none,
        gc_scheduled := false, gc_fragments := [] }
      (by
        intro j _ h2
        exact halloc j (by omega))
    refine ⟨e, he, ?_, ?_, by simp⟩
    · have hf : e.free = List.range n := by
        rw [hfree, List.range_eq_range']
        rfl
      have := get_n_all (List.range n) e hf
      rw [List.length_range] at this
      exact this
    · exact (List.nodup_range n).map (Option.some_injective Nat)
  · intro d
    cases hfree : d.free with
    | nil =>
      have := get_nil d hfree
      refine ⟨?_, ?_, ?_, ?_, ?_, ?_⟩
      · simp [this]
      · intro _
        rw [this]
      · intro x rest h
        cases h
      · rw [this]
      · rw [this]
      · rw [this]
    | cons x rest =>
      obtain ⟨h1, h2, h3, h4, h5⟩ := get_cons d x rest hfree
      refine ⟨?_, ?_, ?_, h3, h4, h5⟩
      · simp [h1]
      · intro h
        cases h
      · intro y r h
        cases h
        exact ⟨h1, h2⟩

/-- Witness of C11: the headerless example manager with four lists. -/
theorem get_free_list_exhausts_pool_witness :
    (∀ i, i < 4 → (ex_alloc i).isSome = true) ∧
    ∃ init, vsp1_dlm_create (ex_device false) 0 4 ex_alloc = some init ∧
      (vsp1_dl_list_get_n 5 init).1 = [some 0, some 1, some 2, some 3, none] := by
  have h : ∀ i, i < 4 → (ex_alloc i).isSome = true := fun _ _ => rfl
  obtain ⟨init, h1, h2, _⟩ := (get_free_list_exhausts_pool (ex_device false) 0 4 ex_alloc h).1
  exact ⟨h, init, h1, h2⟩

/-! ## Attaching fragments and chained lists -/

theorem add_fragment_header (dlm : vsp1_dl_manager) (dl : Nat) (dlb : vsp1_dl_body)
    (hmode : dlm.mode = vsp1_dl_mode.VSP1_DL_MODE_HEADER) :
    vsp1_dl_list_add_fragment dlm dl dlb =
      (0, set_list dlm dl
        { dlm.lists dl with fragments := (dlm.lists dl).fragments ++ [dlb] }) := by
  simp [vsp1_dl_list_add_fragment, hmode]

theorem same_but_chain_refl (a : vsp1_dl_list) : same_but_chain a a :=
  ⟨rfl, rfl, rfl, rfl, rfl, rfl, rfl, rfl, rfl⟩

theorem same_but_chain_trans {a b c : vsp1_dl_list} (h1 : same_but_chain a b)
    (h2 : same_but_chain b c) : same_but_chain a c := by
  obtain ⟨a1, a2, a3, a4, a5, a6, a7, a8, a9⟩ := h1
  obtain ⟨b1, b2, b3, b4, b5, b6, b7, b8, b9⟩ := h2
  exact ⟨b1.trans a1, b2.trans a2, b3.trans a3, b4.trans a4, b5.trans a5, b6.trans a6,
    b7.trans a7, b8.trans a8, b9.trans a9⟩

theorem set_chain_same (d : vsp1_dl_manager) (x : Nat) (c : list_head) (y : Nat) :
    same_but_chain (d.lists y)
      ((set_list d x { d.lists x with chain := c }).lists y) := by
  by_cases h : y = x
  · subst h
    rw [set_list_lists_self]
    exact ⟨rfl, rfl, rfl, rfl, rfl, rfl, rfl, rfl, rfl⟩
  · rw [set_list_lists_other d x y _ h]
    exact same_but_chain_refl _

theorem list_add_tail_chain_same (d e : vsp1_dl_manager) (dl head : Nat)
    (h : list_add_tail_chain d dl head = some e) :
    (∀ y, same_but_chain (d.lists y) (e.lists y)) ∧ e.free = d.free ∧ e.active = d.active ∧
      e.queued = d.queued ∧ e.pending = d.pending ∧ e.mode = d.mode ∧ e.vsp1 = d.vsp1 ∧
      e.index = d.index ∧ e.gc_fragments = d.gc_fragments := by
  unfold list_add_tail_chain at h
  cases hp : (d.lists head).chain.prev with
  | none => simp [hp] at h
  | some prev =>
    simp only [hp, Option.some.injEq] at h
    subst h
    refine ⟨?_, rfl, rfl, rfl, rfl, rfl, rfl, rfl, rfl⟩
    intro y
    exact same_but_chain_trans
      (same_but_chain_trans
        (same_but_chain_trans (set_chain_same d head _ y) (set_chain_same _ dl _ y))
        (set_chain_same _ dl _ y))
      (set_chain_same _ prev _ y)

/-- C14: in headerless mode `vsp1_dl_list_add_fragment` and
`vsp1_dl_list_add_chain` return `-EINVAL` for every list, fragment and pair of
lists and leave the whole manager state (hence the fragment sequence, the chain
node and the chain marker of every list) unchanged; in header mode
`vsp1_dl_list_add_fragment` returns 0 and appends the fragment, and
`vsp1_dl_list_add_chain` returns 0 and sets the chain marker of the head,
provided the chain node of the head was initialised, as it is for every list
handed out by `vsp1_dl_list_get`. -/
theorem attach_mode_check (dlm : vsp1_dl_manager) :
    EINVAL_neg = -22 ∧
    (dlm.mode = vsp1_dl_mode.VSP1_DL_MODE_HEADERLESS →
      (∀ dl dlb, vsp1_dl_list_add_fragment dlm dl dlb = (EINVAL_neg, dlm)) ∧
      (∀ head dl, vsp1_dl_list_add_chain dlm head dl = some (EINVAL_neg, dlm))) ∧
    (dlm.mode = vsp1_dl_mode.VSP1_DL_MODE_HEADER →
      (∀ dl dlb, (vsp1_dl_list_add_fragment dlm dl dlb).1 = 0 ∧
        ((vsp1_dl_list_add_fragment dlm dl dlb).2.lists dl).fragments =
          (dlm.lists dl).fragments ++ [dlb]) ∧
      (∀ head dl, (dlm.lists head).chain.prev ≠ none →
        ∃ d, vsp1_dl_list_add_chain dlm head dl = some (0, d) ∧
          (d.lists head).has_chain = true)) := by
  refine ⟨rfl, ?_, ?_⟩
  · intro hm
    constructor
    · intro dl dlb
      simp [vsp1_dl_list_add_fragment, hm]
    · intro head dl
      simp [vsp1_dl_list_add_chain, hm]
  · intro hm
    constructor
    · intro dl dlb
      rw [add_fragment_header dlm dl dlb hm]
      exact ⟨rfl, by rw [set_list_lists_self]⟩
    · intro head dl hprev
      obtain ⟨prev, hp⟩ := Option.ne_none_iff_exists'.1 hprev
      have hp1 : ((set_list dlm head { dlm.lists head with has_chain := true }).lists
          head).chain.prev = some prev := by
        rw [set_list_lists_self]
        exact hp
      cases hadd : list_add_tail_chain
          (set_list dlm head { dlm.lists head with has_chain := true }) dl head with
      | none => simp [list_add_tail_chain, hp1] at hadd
      | some d =>
        refine ⟨d, by simp [vsp1_dl_list_add_chain, hm, hadd], ?_⟩
        have := ((list_add_tail_chain_same _ d dl head hadd).1 head).2.2.2.2.2.2.2.2
        rw [this, set_list_lists_self]

/-- Witness of C14: the header-mode and the headerless example manager after a
list was handed out. -/
theorem attach_mode_check_witness :
    ex_headerless_1.mode = vsp1_dl_mode.VSP1_DL_MODE_HEADERLESS ∧
    vsp1_dl_list_add_fragment ex_headerless_1 0 ex_fragment = (EINVAL_neg, ex_headerless_1) ∧
    vsp1_dl_list_add_chain ex_headerless_1 0 1 = some (EINVAL_neg, ex_headerless_1) ∧
    ex_header_1.mode = vsp1_dl_mode.VSP1_DL_MODE_HEADER ∧
    (vsp1_dl_list_add_fragment ex_header_1 0 ex_fragment).1 = 0 :=
  ⟨rfl, ((attach_mode_check ex_headerless_1).2.1 rfl).1 0 ex_fragment,
    ((attach_mode_check ex_headerless_1).2.1 rfl).2 0 1, rfl,
    (((attach_mode_check ex_header_1).2.2 rfl).1 0 ex_fragment).1⟩

/-- C15 (amended): `vsp1_dl_list_add_fragment` performs no check of the state
of the list: in header mode it returns 0 and appends the fragment to the list,
for every state and every list, whether or not the list has been committed. -/
theorem add_fragment_never_rejects (dlm : vsp1_dl_manager) (dl : Nat) (dlb : vsp1_dl_body)
    (hmode : dlm.mode = vsp1_dl_mode.VSP1_DL_MODE_HEADER) :
    (vsp1_dl_list_add_fragment dlm dl dlb).1 = 0 ∧
    ((vsp1_dl_list_add_fragment dlm dl dlb).2.lists dl).fragments =
      (dlm.lists dl).fragments ++ [dlb] ∧
    (∀ x, x ≠ dl → (vsp1_dl_list_add_fragment dlm dl dlb).2.lists x = dlm.lists x) ∧
    (vsp1_dl_list_add_fragment dlm dl dlb).2.active = dlm.active ∧
    (vsp1_dl_list_add_fragment dlm dl dlb).2.queued = dlm.queued ∧
    (vsp1_dl_list_add_fragment dlm dl dlb).2.pending = dlm.pending ∧
    (vsp1_dl_list_add_fragment dlm dl dlb).2.free = dlm.free := by
  rw [add_fragment_header dlm dl dlb hmode]
  refine ⟨rfl, by rw [set_list_lists_self], ?_, rfl, rfl, rfl, rfl⟩
  intro x hx
  exact set_list_lists_other dlm dl x _ hx

/-- Witness of C15 (amended): a fragment attached to list 0 of the header-mode
example manager after list 0 was committed. -/
theorem add_fragment_never_rejects_witness :
    ex_header_2.mode = vsp1_dl_mode.VSP1_DL_MODE_HEADER ∧
    (vsp1_dl_list_add_fragment ex_header_2 0 ex_fragment).1 = 0 :=
  ⟨rfl, (add_fragment_never_rejects ex_header_2 0 ex_fragment rfl).1⟩

/-- Counterexample to C15 as stated: list 0 of the header-mode example manager
was committed (it is active and queued) and has not been obtained again;
`vsp1_dl_list_add_fragment` on it returns 0 and the list then has the
fragment. -/
theorem add_fragment_after_commit_accepted :
    ex_header_2.mode = vsp1_dl_mode.VSP1_DL_MODE_HEADER ∧
    vsp1_dl_list_commit 1 (set_mmio ex_header_1 ex_mmio_idle) 0 0 = some ex_header_2 ∧
    ex_header_2.active = some 0 ∧ ex_header_2.queued = some 0 ∧
    ((ex_header_2.lists 0).fragments.map (fun b => b.dma)) = [] ∧
    (vsp1_dl_list_add_fragment ex_header_2 0 ex_fragment).1 = 0 ∧
    (((vsp1_dl_list_add_fragment ex_header_2 0 ex_fragment).2.lists 0).fragments.map
      (fun b => b.dma)) = [ex_fragment.dma] := by
  refine ⟨rfl, (Option.some_get _).symm, rfl, rfl, by decide, by decide, by decide⟩

/-! ## Auto-field addresses -/

theorem auto_fld_stride_eq (rpf : vsp1_rwpf) (hw : rpf.crop_width + 15 < 2 ^ 32)
    (hs : ALIGN rpf.crop_width 16 * rpf.bpp0 < 2 ^ 32) :
    auto_fld_stride rpf = ALIGN rpf.crop_width 16 * rpf.bpp0 / 8 := by
  have h1 : ALIGN_u32 rpf.crop_width 16 = ALIGN rpf.crop_width 16 := by
    simp only [ALIGN_u32, ALIGN, u32]
    rw [Nat.mod_eq_of_lt hw]
  simp only [auto_fld_stride, h1, u32]
  rw [Nat.mod_eq_of_lt hs]

theorem auto_fld_switch_eq_stated (rpf : vsp1_rwpf) (s : Nat)
    (hstride : auto_fld_stride rpf = s)
    (hs : s = ALIGN rpf.crop_width 16 * rpf.bpp0 / 8)
    (h3 : 3 * s < 2 ^ 32)
    (ha : ∀ i j, i < 3 → j < 2 → rpf.mem_addr i + rpf.offsets j + 3 * s < 2 ^ 64) :
    auto_fld_switch rpf = auto_fld_stated rpf := by
  have e1 : ∀ i j, i < 3 → j < 2 →
      dma64 (rpf.mem_addr i + rpf.offsets j) = rpf.mem_addr i + rpf.offsets j := by
    intro i j hi hj
    have := ha i j hi hj
    exact Nat.mod_eq_of_lt (by omega)
  have e2 : ∀ i j k, i < 3 → j < 2 → k ≤ 3 * s →
      dma64 (rpf.mem_addr i + rpf.offsets j + k) = rpf.mem_addr i + rpf.offsets j + k := by
    intro i j k hi hj hk
    have := ha i j hi hj
    exact Nat.mod_eq_of_lt (by omega)
  have e3 : u32 (s * 2) = 2 * s := by
    rw [Nat.mul_comm]
    exact Nat.mod_eq_of_lt (by omega)
  have e4 : u32 (s * 3) = 3 * s := by
    rw [Nat.mul_comm]
    exact Nat.mod_eq_of_lt (by omega)
  have e5 : s / 2 ≤ 3 * s := by omega
  have e6 : s ≤ 3 * s := by omega
  have e7 : 2 * s ≤ 3 * s := by omega
  have a00 := e1 0 0 (by omega) (by omega)
  have a11 := e1 1 1 (by omega) (by omega)
  have a21 := e1 2 1 (by omega) (by omega)
  have b00 := fun k hk => e2 0 0 k (by omega) (by omega) hk
  have b11 := fun k hk => e2 1 1 k (by omega) (by omega) hk
  have b21 := fun k hk => e2 2 1 k (by omega) (by omega) hk
  unfold auto_fld_switch auto_fld_stated
  rw [hstride, ← hs]
  cases hf : rpf.fourcc <;>
    simp only [a00, a11, a21, e3, e4, b00 _ e5, b00 _ e6, b00 _ e7, b00 _ (Nat.le_refl _),
      b11 _ e5, b11 _ e6, b11 _ e7, b11 _ (Nat.le_refl _),
      b21 _ e5, b21 _ e6, b21 _ e7, b21 _ (Nat.le_refl _)]

theorem auto_fld_switch_swap (rpf : vsp1_rwpf) :
    auto_fld_switch rpf =
      auto_fld_switch { rpf with
        fourcc := yuv_of_yvu rpf.fourcc
        mem_addr :=
          if rpf.fourcc = yuv_of_yvu rpf.fourcc then rpf.mem_addr
          else swap_chroma_planes rpf.mem_addr } := by
  cases hf : rpf.fourcc <;>
    simp [auto_fld_switch, auto_fld_stride, yuv_of_yvu, swap_chroma_planes, hf]

theorem auto_fld_table_spec (m : Nat → Nat) (t s : Nat) (a : auto_fld_addrs) :
    auto_fld_table m t s a (t + 4 * s) = u32 a.y_top_addr ∧
    auto_fld_table m t s a (t + 4 * (s + 1)) = u32 a.y_bot_addr ∧
    auto_fld_table m t s a (t + 4 * (s + 2)) = u32 a.u_top_addr ∧
    auto_fld_table m t s a (t + 4 * (s + 3)) = u32 a.u_bot_addr ∧
    auto_fld_table m t s a (t + 4 * (s + 4)) = u32 a.v_top_addr ∧
    auto_fld_table m t s a (t + 4 * (s + 5)) = u32 a.v_bot_addr ∧
    ∀ x, (∀ k, k < 6 → x ≠ t + 4 * (s + k)) → auto_fld_table m t s a x = m x := by
  refine ⟨?_, ?_, ?_, ?_, ?_, ?_, ?_⟩
  · simp only [auto_fld_table, store32]
    split_ifs <;> first | rfl | omega
  · simp only [auto_fld_table, store32]
    split_ifs <;> first | rfl | omega
  · simp only [auto_fld_table, store32]
    split_ifs <;> first | rfl | omega
  · simp only [auto_fld_table, store32]
    split_ifs <;> first | rfl | omega
  · simp only [auto_fld_table, store32]
    split_ifs <;> first | rfl | omega
  · simp [auto_fld_table, store32]
  · intro x hx
    have h0 := hx 0 (by omega)
    have h1 := hx 1 (by omega)
    have h2 := hx 2 (by omega)
    have h3 := hx 3 (by omega)
    have h4 := hx 4 (by omega)
    have h5 := hx 5 (by omega)
    simp only [auto_fld_table, store32]
    split_ifs <;> first | rfl | omega

theorem set_addr_auto_fld_eq (dlm : vsp1_dl_manager) (dl : Nat) (rpf : vsp1_rwpf) (t : Nat)
    (ht : (dlm.lists dl).src_dst_addr = some t) (hp : rpf.index * 8 + 5 < 2 ^ 32) :
    vsp1_dl_set_addr_auto_fld dlm dl rpf =
      some (set_list dlm dl
        { dlm.lists dl with
          body0 := { (dlm.lists dl).body0 with
            entries := auto_fld_table (dlm.lists dl).body0.entries t (8 * rpf.index)
              (auto_fld_switch rpf) } }) := by
  have i0 : u32 (rpf.index * 8) = 8 * rpf.index := by
    rw [Nat.mul_comm]
    exact Nat.mod_eq_of_lt (by omega)
  have ik : ∀ k, k ≤ 5 → u32 (rpf.index * 8 + k) = 8 * rpf.index + k := by
    intro k hk
    rw [Nat.mul_comm]
    exact Nat.mod_eq_of_lt (by omega)
  simp only [vsp1_dl_set_addr_auto_fld, ht, i0, ik 1 (by omega), ik 2 (by omega),
    ik 3 (by omega), ik 4 (by omega), ik 5 (by omega), auto_fld_table]

/-- C18: the six addresses that `vsp1_dl_set_addr_auto_fld` computes are the
ones the specification states (stride `ALIGN(crop width, 16) * bpp[0] / 8`,
chroma planes `(2, 1)` for the YVU formats and `(1, 2)` otherwise, per-format
steps between top and bottom field) whenever the machine arithmetic does not
wrap; the function stores their 32-bit values in the address table of the list;
and for every format the computation equals the one for the matching YUV format
with planes 1 and 2 exchanged. -/
theorem set_addr_auto_fld_addresses (dlm : vsp1_dl_manager) (dl : Nat) (rpf : vsp1_rwpf)
    (t : Nat) (ht : (dlm.lists dl).src_dst_addr = some t)
    (hp : rpf.index * 8 + 5 < 2 ^ 32)
    (hw : rpf.crop_width + 15 < 2 ^ 32)
    (hs : ALIGN rpf.crop_width 16 * rpf.bpp0 < 2 ^ 32)
    (h3 : 3 * (ALIGN rpf.crop_width 16 * rpf.bpp0 / 8) < 2 ^ 32)
    (ha : ∀ i j, i < 3 → j < 2 → rpf.mem_addr i + rpf.offsets j +
      3 * (ALIGN rpf.crop_width 16 * rpf.bpp0 / 8) < 2 ^ 64) :
    auto_fld_switch rpf = auto_fld_stated rpf ∧
    (∃ d, vsp1_dl_set_addr_auto_fld dlm dl rpf = some d ∧
      (d.lists dl).body0.entries (t + 4 * (8 * rpf.index)) =
        u32 (auto_fld_stated rpf).y_top_addr ∧
      (d.lists dl).body0.entries (t + 4 * (8 * rpf.index + 1)) =
        u32 (auto_fld_stated rpf).y_bot_addr ∧
      (d.lists dl).body0.entries (t + 4 * (8 * rpf.index + 2)) =
        u32 (auto_fld_stated rpf).u_top_addr ∧
      (d.lists dl).body0.entries (t + 4 * (8 * rpf.index + 3)) =
        u32 (auto_fld_stated rpf).u_bot_addr ∧
      (d.lists dl).body0.entries (t + 4 * (8 * rpf.index + 4)) =
        u32 (auto_fld_stated rpf).v_top_addr ∧
      (d.lists dl).body0.entries (t + 4 * (8 * rpf.index + 5)) =
        u32 (auto_fld_stated rpf).v_bot_addr) ∧
    auto_fld_switch rpf =
      auto_fld_switch { rpf with
        fourcc := yuv_of_yvu rpf.fourcc
        mem_addr :=
          if rpf.fourcc = yuv_of_yvu rpf.fourcc then rpf.mem_addr
          else swap_chroma_planes rpf.mem_addr } := by
  have hsw := auto_fld_switch_eq_stated rpf _ (auto_fld_stride_eq rpf hw hs) rfl h3 ha
  refine ⟨hsw, ?_, auto_fld_switch_swap rpf⟩
  refine ⟨_, set_addr_auto_fld_eq dlm dl rpf t ht hp, ?_⟩
  rw [set_list_lists_self, ← hsw]
  obtain ⟨h0, h1, h2, h3, h4, h5, _⟩ := auto_fld_table_spec (dlm.lists dl).body0.entries t
    (8 * rpf.index) (auto_fld_switch rpf)
  exact ⟨h0, h1, h2, h3, h4, h5⟩

/-- Witness of C18: the example port on list 0 of the header-mode example
manager. -/
theorem set_addr_auto_fld_addresses_witness :
    (ex_header_1.lists 0).src_dst_addr = some 10240 ∧
    auto_fld_switch ex_rpf = auto_fld_stated ex_rpf ∧
    auto_fld_stated ex_rpf =
      { y_top_addr := 0x1000100, y_bot_addr := 0x1000170, u_top_addr := 0x3000200,
        u_bot_addr := 0x3000238, v_top_addr := 0x2000200, v_bot_addr := 0x2000238 } := by
  have h := set_addr_auto_fld_addresses ex_header_1 0 ex_rpf 10240 rfl (by decide)
    (by decide) (by decide) (by decide)
    (by
      intro i j hi hj
      show 0x1000000 * (i + 1) + 0x100 * (j + 1) + 3 * (ALIGN 100 16 * 8 / 8) < 2 ^ 64
      have : ALIGN 100 16 * 8 / 8 = 112 := by decide
      rw [this]
      omega)
  exact ⟨rfl, h.1, by decide⟩

/-- C19 (amended): `vsp1_dl_set_addr_auto_fld` writes exactly six entries of
the address table of the list and nothing else, and the table has 8 slots per
input port: for port `p` the addresses (Y top, Y bottom, U top, U bottom,
V top, V bottom) go to slots `8 * p`, .., `8 * p + 5`; every other word of the
buffer, every other field of the list, every other list and the rest of the
manager are unchanged, and the slots of different ports never coincide. -/
theorem set_addr_auto_fld_writes (dlm : vsp1_dl_manager) (dl : Nat) (rpf : vsp1_rwpf)
    (t : Nat) (ht : (dlm.lists dl).src_dst_addr = some t)
    (hp : rpf.index * 8 + 5 < 2 ^ 32) :
    ∃ d, vsp1_dl_set_addr_auto_fld dlm dl rpf = some d ∧
      (d.lists dl).body0.entries (t + 4 * (8 * rpf.index)) =
        u32 (auto_fld_switch rpf).y_top_addr ∧
      (d.lists dl).body0.entries (t + 4 * (8 * rpf.index + 1)) =
        u32 (auto_fld_switch rpf).y_bot_addr ∧
      (d.lists dl).body0.entries (t + 4 * (8 * rpf.index + 2)) =
        u32 (auto_fld_switch rpf).u_top_addr ∧
      (d.lists dl).body0.entries (t + 4 * (8 * rpf.index + 3)) =
        u32 (auto_fld_switch rpf).u_bot_addr ∧
      (d.lists dl).body0.entries (t + 4 * (8 * rpf.index + 4)) =
        u32 (auto_fld_switch rpf).v_top_addr ∧
      (d.lists dl).body0.entries (t + 4 * (8 * rpf.index + 5)) =
        u32 (auto_fld_switch rpf).v_bot_addr ∧
      (∀ a, (∀ k, k < 6 → a ≠ t + 4 * (8 * rpf.index + k)) →
        (d.lists dl).body0.entries a = (dlm.lists dl).body0.entries a) ∧
      { d.lists dl with
        body0 := { (d.lists dl).body0 with entries := (dlm.lists dl).body0.entries } } =
        dlm.lists dl ∧
      (∀ x, x ≠ dl → d.lists x = dlm.lists x) ∧
      d.free = dlm.free ∧ d.active = dlm.active ∧ d.queued = dlm.queued ∧
      d.pending = dlm.pending ∧ d.vsp1 = dlm.vsp1 ∧ d.gc_fragments = dlm.gc_fragments ∧
      (∀ q k j, q ≠ rpf.index → k < 6 → j < 6 → 8 * q + j ≠ 8 * rpf.index + k) := by
  refine ⟨_, set_addr_auto_fld_eq dlm dl rpf t ht hp, ?_⟩
  rw [set_list_lists_self]
  obtain ⟨h0, h1, h2, h3, h4, h5, h6⟩ := auto_fld_table_spec (dlm.lists dl).body0.entries t
    (8 * rpf.index) (auto_fld_switch rpf)
  refine ⟨h0, h1, h2, h3, h4, h5, h6, rfl, ?_, rfl, rfl, rfl, rfl, rfl, rfl, ?_⟩
  · intro x hx
    exact set_list_lists_other dlm dl x _ hx
  · intro q k j hq hk hj
    omega

/-- Witness of C19 (amended): the example port (port 1) on list 0 of the
header-mode example manager. -/
theorem set_addr_auto_fld_writes_witness :
    (ex_header_1.lists 0).src_dst_addr = some 10240 ∧
    ∃ d, vsp1_dl_set_addr_auto_fld ex_header_1 0 ex_rpf = some d ∧
      (d.lists 0).body0.entries (10240 + 4 * (8 * 1)) = 0x1000100 ∧
      d.free = ex_header_1.free := by
  obtain ⟨d, hd, h0, _, _, _, _, _, _, _, _, hf, _⟩ :=
    set_addr_auto_fld_writes ex_header_1 0 ex_rpf 10240 rfl (by decide)
  exact ⟨rfl, d, hd, h0, hf⟩

/-- Counterexample to C19 as stated: for port 1 the table is not written at
slots 6 .. 11: slots 6 and 7 keep their old content (zero) and the six
addresses are in slots 8 .. 13. -/
theorem set_addr_auto_fld_port_1_slots :
    ex_rpf.index = 1 ∧
    (List.range 16).map
      (fun i => (ex_header_1.lists 0).body0.entries (10240 + 4 * i)) =
      [0, 0, 0, 0, 0, 0, 0, 0, 0, 0, 0, 0, 0, 0, 0, 0] ∧
    (vsp1_dl_set_addr_auto_fld ex_header_1 0 ex_rpf).map
      (fun d => (List.range 16).map
        (fun i => (d.lists 0).body0.entries (10240 + 4 * i))) =
      some [0, 0, 0, 0, 0, 0, 0, 0,
        0x1000100, 0x1000170, 0x3000200, 0x3000238, 0x2000200, 0x2000238, 0, 0] := by
  refine ⟨rfl, by decide, by decide⟩

/-! ## Writing entries and the byte length in the header -/

theorem write_all_spec (dl : Nat) :
    ∀ (pairs : List (Nat × Nat)) (d : vsp1_dl_manager),
      (d.lists dl).body0.num_entries + pairs.length ≤ VSP1_DL_NUM_ENTRIES →
      ((vsp1_dl_list_write_all d dl pairs).lists dl).body0.num_entries =
        (d.lists dl).body0.num_entries + pairs.length ∧
      (∀ i p, pairs[i]? = some p →
        ((vsp1_dl_list_write_all d dl pairs).lists dl).body0.entries
          (8 * ((d.lists dl).body0.num_entries + i)) = u32 p.1 ∧
        ((vsp1_dl_list_write_all d dl pairs).lists dl).body0.entries
          (8 * ((d.lists dl).body0.num_entries + i) + 4) = u32 p.2) ∧
      (∀ a, a < 8 * (d.lists dl).body0.num_entries ∨
          8 * ((d.lists dl).body0.num_entries + pairs.length) ≤ a →
        ((vsp1_dl_list_write_all d dl pairs).lists dl).body0.entries a =
          (d.lists dl).body0.entries a) ∧
      { (vsp1_dl_list_write_all d dl pairs).lists dl with body0 := (d.lists dl).body0 } =
        d.lists dl ∧
      ((vsp1_dl_list_write_all d dl pairs).lists dl).body0.dma = (d.lists dl).body0.dma ∧
      (∀ x, x ≠ dl → (vsp1_dl_list_write_all d dl pairs).lists x = d.lists x) := by
  intro pairs
  induction pairs with
  | nil =>
    intro d _
    refine ⟨rfl, ?_, fun _ _ => rfl, rfl, rfl, fun _ _ => rfl⟩
    intro i p h
    simp at h
  | cons q rest ih =>
    intro d hlen
    simp only [List.length_cons] at hlen
    have hn1 : ((vsp1_dl_list_write d dl q.1 q.2).lists dl).body0.num_entries =
        (d.lists dl).body0.num_entries + 1 := by
      unfold vsp1_dl_list_write vsp1_dl_fragment_write
      rw [set_list_lists_self]
      show u32 ((d.lists dl).body0.num_entries + 1) = _
      unfold VSP1_DL_NUM_ENTRIES at hlen
      exact Nat.mod_eq_of_lt (by omega)
    have hmem : ∀ a, ((vsp1_dl_list_write d dl q.1 q.2).lists dl).body0.entries a =
        if a = 8 * (d.lists dl).body0.num_entries + 4 then u32 q.2
        else if a = 8 * (d.lists dl).body0.num_entries then u32 q.1
        else (d.lists dl).body0.entries a := by
      intro a
      unfold vsp1_dl_list_write vsp1_dl_fragment_write
      rw [set_list_lists_self]
      simp only [store32, sizeof_vsp1_dl_entry]
    have hrest : { (vsp1_dl_list_write d dl q.1 q.2).lists dl with
        body0 := (d.lists dl).body0 } = d.lists dl := by
      unfold vsp1_dl_list_write
      rw [set_list_lists_self]
    have hdma : ((vsp1_dl_list_write d dl q.1 q.2).lists dl).body0.dma =
        (d.lists dl).body0.dma := by
      unfold vsp1_dl_list_write vsp1_dl_fragment_write
      rw [set_list_lists_self]
    obtain ⟨h1, h2, h3, h4, h5, h6⟩ := ih (vsp1_dl_list_write d dl q.1 q.2)
      (by rw [hn1]; omega)
    have hunf : vsp1_dl_list_write_all d dl (q :: rest) =
        vsp1_dl_list_write_all (vsp1_dl_list_write d dl q.1 q.2) dl rest := rfl
    rw [hunf]
    rw [hn1] at h1 h2 h3
    refine ⟨?_, ?_, ?_, ?_, ?_, ?_⟩
    · rw [h1, List.length_cons]
      omega
    · intro i p hp
      cases i with
      | zero =>
        simp only [List.getElem?_cons_zero, Option.some.injEq] at hp
        subst hp
        rw [h3 _ (Or.inl (by omega)), h3 _ (Or.inl (by omega)), hmem, hmem]
        constructor
        · rw [if_neg (by omega), if_pos (by omega)]
        · rw [if_pos (by omega)]
      | succ j =>
        simp only [List.getElem?_cons_succ] at hp
        have := h2 j p hp
        have e : (d.lists dl).body0.num_entries + 1 + j =
            (d.lists dl).body0.num_entries + (j + 1) := by omega
        rw [e] at this
        exact this
    · intro a ha
      rw [h3 a (by simp only [List.length_cons] at ha; omega), hmem]
      simp only [List.length_cons] at ha
      rw [if_neg (by omega), if_neg (by omega)]
    · have e : ∀ (l l2 : vsp1_dl_list) (b : vsp1_dl_body),
          { l with body0 := l2.body0 } = l2 → { l with body0 := b } = { l2 with body0 := b } := by
        intro l l2 b h
        rw [← h]
      have := e _ _ (d.lists dl).body0 h4
      rw [this]
      exact hrest
    · rw [h5, hdma]
    · intro x hx
      rw [h6 x hx]
      unfold vsp1_dl_list_write
      exact set_list_lists_other d dl x _ hx

theorem store32_same (m : Nat → Nat) (a v : Nat) : store32 m a v a = u32 v := by
  simp [store32]

theorem store32_other (m : Nat → Nat) (a v b : Nat) (h : b ≠ a) :
    store32 m a v b = m b := by
  simp [store32, h]

set_option maxHeartbeats 1000000 in
theorem fill_header_unchained_mem (d : vsp1_dl_manager) (dl lif_index h : Nat)
    (is_last : Bool)
    (hh : (d.lists dl).header = some h)
    (he : (d.lists dl).ext_body = some (h + VSP1_DL_EXT_OFFSET))
    (hfrag : (d.lists dl).fragments = [])
    (hring : (d.lists dl).chain.next = some dl) :
    ∃ m, vsp1_dl_list_fill_header d dl is_last lif_index =
        some (set_list d dl { d.lists dl with
          body0 := { (d.lists dl).body0 with entries := m } }) ∧
      m (h + HDR_LIST_NUM_BYTES 0) = u32 ((d.lists dl).body0.num_entries * 8) ∧
      m (h + HDR_LIST_ADDR 0) = (d.lists dl).body0.entries (h + HDR_LIST_ADDR 0) ∧
      m (h + HDR_NUM_LISTS) = 0 ∧
      ∀ a, a < h → m a = (d.lists dl).body0.entries a := by
  have hempty : list_empty_chain d dl = true := by
    simp [list_empty_chain, hring]
  unfold vsp1_dl_list_fill_header
  simp only [hh, he, hfrag, hempty, Bool.not_true, Bool.false_and, Bool.false_eq_true,
    if_false, fill_header_fragments, List.foldl_nil]
  have h0 : u32 0 = 0 := rfl
  split_ifs <;>
    (refine ⟨_, rfl, ?_, ?_, ?_, ?_⟩
     · simp only [HDR_LIST_NUM_BYTES, HDR_NUM_LISTS, HDR_FLAGS, HDR_NEXT_HEADER,
         HDR_PRE_POST_NUM, HDR_PRE_EXT_DL_PLIST, HDR_POST_EXT_DL_NUM_CMD,
         HDR_POST_EXT_DL_P_LIST, EXT_DL_CMD, EXT_DL_DATA, VSP1_DL_EXT_OFFSET,
         sizeof_vsp1_dl_header_list]
       simp (disch := omega) only [store32_other, store32_same]
     · simp only [HDR_LIST_NUM_BYTES, HDR_LIST_ADDR, HDR_NUM_LISTS, HDR_FLAGS,
         HDR_NEXT_HEADER,
         HDR_PRE_POST_NUM, HDR_PRE_EXT_DL_PLIST, HDR_POST_EXT_DL_NUM_CMD,
         HDR_POST_EXT_DL_P_LIST, EXT_DL_CMD, EXT_DL_DATA, VSP1_DL_EXT_OFFSET,
         sizeof_vsp1_dl_header_list]
       simp (disch := omega) only [store32_other, store32_same]
     · simp only [HDR_LIST_NUM_BYTES, HDR_LIST_ADDR, HDR_NUM_LISTS, HDR_FLAGS,
         HDR_NEXT_HEADER,
         HDR_PRE_POST_NUM, HDR_PRE_EXT_DL_PLIST, HDR_POST_EXT_DL_NUM_CMD,
         HDR_POST_EXT_DL_P_LIST, EXT_DL_CMD, EXT_DL_DATA, VSP1_DL_EXT_OFFSET,
         sizeof_vsp1_dl_header_list]
       simp (disch := omega) only [store32_other, store32_same, h0]
     · intro a ha
       simp only [HDR_LIST_NUM_BYTES, HDR_NUM_LISTS, HDR_FLAGS, HDR_NEXT_HEADER,
         HDR_PRE_POST_NUM, HDR_PRE_EXT_DL_PLIST, HDR_POST_EXT_DL_NUM_CMD,
         HDR_POST_EXT_DL_P_LIST, EXT_DL_CMD, EXT_DL_DATA, VSP1_DL_EXT_OFFSET,
         sizeof_vsp1_dl_header_list]
       simp (disch := omega) only [store32_other])

theorem get_some_list (d0 d : vsp1_dl_manager) (dl : Nat)
    (hget : vsp1_dl_list_get d0 = (some dl, d)) :
    d.lists dl = { d0.lists dl with chain := { next := some dl, prev := some dl } } := by
  unfold vsp1_dl_list_get at hget
  cases hfree : d0.free with
  | nil => simp [hfree] at hget
  | cons x rest =>
    simp only [hfree, Prod.mk.injEq, Option.some.injEq] at hget
    obtain ⟨hx, hd⟩ := hget
    subst hx
    rw [← hd]
    simp [INIT_LIST_HEAD_chain, set_list]

/-- C16: the entry count makes the round trip.  A list just obtained from
`vsp1_dl_list_get`, with the header-mode layout of `vsp1_dl_list_alloc`, no
entries and no fragments, receives `N ≤ 256` pairs through
`vsp1_dl_list_write`.  Then the body holds the `N` pairs (as 32-bit words) in
write order, the entry count is `N`, `vsp1_dl_list_fill_header` returns, keeps
the pairs and the count, and leaves `N * 8` in `lists[0].num_bytes`. -/
theorem write_fill_header_round_trip (d0 d : vsp1_dl_manager) (dl lif_index : Nat)
    (is_last : Bool) (pairs : List (Nat × Nat))
    (hget : vsp1_dl_list_get d0 = (some dl, d))
    (hh : (d0.lists dl).header = some (VSP1_DL_NUM_ENTRIES * sizeof_vsp1_dl_entry))
    (he : (d0.lists dl).ext_body =
      some (VSP1_DL_NUM_ENTRIES * sizeof_vsp1_dl_entry + VSP1_DL_EXT_OFFSET))
    (hn : (d0.lists dl).body0.num_entries = 0)
    (hf : (d0.lists dl).fragments = [])
    (hlen : pairs.length ≤ VSP1_DL_NUM_ENTRIES) :
    ((vsp1_dl_list_write_all d dl pairs).lists dl).body0.num_entries = pairs.length ∧
    (∀ i p, pairs[i]? = some p →
      ((vsp1_dl_list_write_all d dl pairs).lists dl).body0.entries
        (sizeof_vsp1_dl_entry * i) = u32 p.1 ∧
      ((vsp1_dl_list_write_all d dl pairs).lists dl).body0.entries
        (sizeof_vsp1_dl_entry * i + 4) = u32 p.2) ∧
    ∃ e, vsp1_dl_list_fill_header (vsp1_dl_list_write_all d dl pairs) dl is_last lif_index =
        some e ∧
      (e.lists dl).body0.num_entries = pairs.length ∧
      (∀ i p, pairs[i]? = some p →
        (e.lists dl).body0.entries (sizeof_vsp1_dl_entry * i) = u32 p.1 ∧
        (e.lists dl).body0.entries (sizeof_vsp1_dl_entry * i + 4) = u32 p.2) ∧
      (e.lists dl).body0.entries
          (VSP1_DL_NUM_ENTRIES * sizeof_vsp1_dl_entry + HDR_LIST_NUM_BYTES 0) =
        pairs.length * sizeof_vsp1_dl_entry := by
  have hd := get_some_list d0 d dl hget
  have hn0 : (d.lists dl).body0.num_entries = 0 := by
    rw [hd]
    exact hn
  obtain ⟨h1, h2, _, h4, _, _⟩ := write_all_spec dl pairs d (by rw [hn0]; omega)
  rw [hn0] at h1 h2
  simp only [Nat.zero_add] at h1 h2
  obtain ⟨w, hw⟩ : ∃ w, w = vsp1_dl_list_write_all d dl pairs := ⟨_, rfl⟩
  rw [← hw] at h1 h2 h4 ⊢
  have hwh : (w.lists dl).header = some (VSP1_DL_NUM_ENTRIES * sizeof_vsp1_dl_entry) := by
    have := congrArg vsp1_dl_list.header h4
    rw [hd] at this
    exact this.trans hh
  have hwe : (w.lists dl).ext_body =
      some (VSP1_DL_NUM_ENTRIES * sizeof_vsp1_dl_entry + VSP1_DL_EXT_OFFSET) := by
    have := congrArg vsp1_dl_list.ext_body h4
    rw [hd] at this
    exact this.trans he
  have hwf : (w.lists dl).fragments = [] := by
    have := congrArg vsp1_dl_list.fragments h4
    rw [hd] at this
    exact this.trans hf
  have hwc : (w.lists dl).chain.next = some dl := by
    have := congrArg (fun l => l.chain.next) h4
    rw [hd] at this
    exact this
  obtain ⟨m, hfill, hm1, _, _, hm4⟩ :=
    fill_header_unchained_mem w dl lif_index _ is_last hwh hwe hwf hwc
  have hlt : ∀ i p, pairs[i]? = some p → i < pairs.length := by
    intro i p hp
    by_contra hc
    rw [List.getElem?_eq_none (by omega)] at hp
    cases hp
  unfold VSP1_DL_NUM_ENTRIES at hlen
  refine ⟨h1, ?_, _, hfill, ?_, ?_, ?_⟩
  · intro i p hp
    exact h2 i p hp
  · rw [set_list_lists_self]
    exact h1
  · intro i p hp
    have hi := hlt i p hp
    rw [set_list_lists_self]
    show m (sizeof_vsp1_dl_entry * i) = u32 p.1 ∧ m (sizeof_vsp1_dl_entry * i + 4) = u32 p.2
    rw [hm4 _ (by unfold VSP1_DL_NUM_ENTRIES sizeof_vsp1_dl_entry; omega),
      hm4 _ (by unfold VSP1_DL_NUM_ENTRIES sizeof_vsp1_dl_entry; omega)]
    exact h2 i p hp
  · rw [set_list_lists_self]
    show m _ = _
    rw [hm1, h1]
    unfold sizeof_vsp1_dl_entry u32
    exact Nat.mod_eq_of_lt (by omega)

/-- Witness of C16: three pairs written to list 0 of the header-mode example. -/
theorem write_fill_header_round_trip_witness :
    vsp1_dl_list_get ex_header_0 = (some 0, ex_header_1) ∧
    ∃ e, vsp1_dl_list_fill_header
        (vsp1_dl_list_write_all ex_header_1 0 [(0x300, 1), (0x304, 2), (0x308, 3)])
        0 true 0 = some e ∧
      (e.lists 0).body0.num_entries = 3 ∧
      (e.lists 0).body0.entries 2052 = 24 :=
  ⟨rfl, (write_fill_header_round_trip ex_header_0 ex_header_1 0 0 true
    [(0x300, 1), (0x304, 2), (0x308, 3)] rfl rfl rfl rfl rfl (by decide)).2.2.imp
    (fun _ h => ⟨h.1, h.2.1, h.2.2.2⟩)⟩

/-! ## The free pool at pointer level: refinement and double insertion -/

theorem ex_pool_checks :
    pool_repr ex_pool_4 [0, 1, 2, 3] ∧ pool_repr ex_pool_3 [1, 2, 3] ∧
    pool_entries ex_pool_4 5 = some [0, 1, 2, 3] := by
  refine ⟨by decide, by decide, by decide⟩

theorem pool_chain_nil (r : pool_ring) (n : pool_node) :
    pool_chain r n [] = true ↔ r.next n = pool_node.head ∧ r.prev pool_node.head = n := by
  simp [pool_chain]

theorem pool_chain_cons (r : pool_ring) (n : pool_node) (x : Nat) (xs : List Nat) :
    pool_chain r n (x :: xs) = true ↔
      r.next n = pool_node.entry x ∧ r.prev (pool_node.entry x) = n ∧
        pool_chain r (pool_node.entry x) xs = true := by
  simp [pool_chain, and_assoc]

theorem pool_last_append (l1 l2 : List Nat) :
    ∀ n, pool_last n (l1 ++ l2) = pool_last (pool_last n l1) l2 := by
  induction l1 with
  | nil => intro n; rfl
  | cons x xs ih => intro n; exact ih (pool_node.entry x)

theorem pool_last_cases (l : List Nat) :
    ∀ n, pool_last n l = n ∨ ∃ z ∈ l, pool_last n l = pool_node.entry z := by
  induction l with
  | nil => intro n; exact Or.inl rfl
  | cons x xs ih =>
    intro n
    right
    rcases ih (pool_node.entry x) with h | ⟨z, hz, h⟩
    · exact ⟨x, List.mem_cons_self _ _, h⟩
    · exact ⟨z, List.mem_cons_of_mem _ hz, h⟩

theorem pool_last_mem (l : List Nat) (n : pool_node) (h : l ≠ []) :
    ∃ z ∈ l, pool_last n l = pool_node.entry z := by
  cases l with
  | nil => exact absurd rfl h
  | cons x xs =>
    rcases pool_last_cases xs (pool_node.entry x) with h1 | ⟨z, hz, h1⟩
    · exact ⟨x, List.mem_cons_self _ _, h1⟩
    · exact ⟨z, List.mem_cons_of_mem _ hz, h1⟩

theorem pool_chain_last (r : pool_ring) (l : List Nat) :
    ∀ n, pool_chain r n l = true →
      r.next (pool_last n l) = pool_node.head ∧ r.prev pool_node.head = pool_last n l := by
  induction l with
  | nil =>
    intro n h
    exact (pool_chain_nil r n).1 h
  | cons x xs ih =>
    intro n h
    exact ih _ ((pool_chain_cons r n x xs).1 h).2.2

theorem pool_tail_is_object (r : pool_ring) (l : List Nat)
    (h : pool_chain r pool_node.head l = true) :
    (r.prev pool_node.head).is_object = true := by
  rw [(pool_chain_last r l _ h).2]
  rcases pool_last_cases l pool_node.head with h1 | ⟨z, _, h1⟩ <;> rw [h1] <;> rfl

theorem list_add_tail_pool_eq (r : pool_ring) (x : Nat)
    (h : (r.prev pool_node.head).is_object = true) :
    ∃ r1, list_add_tail_pool r (pool_node.entry x) = some r1 ∧
      r1.next = Function.update (Function.update r.next (pool_node.entry x) pool_node.head)
        (r.prev pool_node.head) (pool_node.entry x) ∧
      r1.prev = Function.update (Function.update r.prev pool_node.head (pool_node.entry x))
        (pool_node.entry x) (r.prev pool_node.head) := by
  refine ⟨pool_ring.mk
    (Function.update (Function.update r.next (pool_node.entry x) pool_node.head)
      (r.prev pool_node.head) (pool_node.entry x))
    (Function.update (Function.update r.prev pool_node.head (pool_node.entry x))
      (pool_node.entry x) (r.prev pool_node.head)), ?_, rfl, rfl⟩
  have h1 : (pool_node.entry x).is_object = true := rfl
  have h2 : pool_node.head.is_object = true := rfl
  simp [list_add_tail_pool, __list_add, h, h1, h2]

theorem pool_chain_add_tail (r r1 : pool_ring) (x : Nat)
    (hn : r1.next = Function.update (Function.update r.next (pool_node.entry x) pool_node.head)
        (r.prev pool_node.head) (pool_node.entry x))
    (hp : r1.prev = Function.update (Function.update r.prev pool_node.head (pool_node.entry x))
        (pool_node.entry x) (r.prev pool_node.head)) :
    ∀ (l : List Nat) (n : pool_node), pool_chain r n l = true → n ≠ pool_node.entry x →
      (∀ z ∈ l, n ≠ pool_node.entry z) → l.Nodup → x ∉ l →
      pool_chain r1 n (l ++ [x]) = true := by
  intro l
  induction l with
  | nil =>
    intro n h hnx _ _ _
    obtain ⟨h1, h2⟩ := (pool_chain_nil r n).1 h
    rw [h2] at hn hp
    show pool_chain r1 n [x] = true
    rw [pool_chain_cons, pool_chain_nil, hn, hp]
    simp [Function.update, hnx, Ne.symm hnx]
  | cons y ys ih =>
    intro n h hnx hnl hnd hx
    obtain ⟨h1, h2, h3⟩ := (pool_chain_cons r n y ys).1 h
    have ht := (pool_chain_last r (y :: ys) n h).2
    have hxy : x ≠ y := fun e => hx (e ▸ List.mem_cons_self _ _)
    obtain ⟨z, hz, hlast⟩ := pool_last_mem (y :: ys) n (List.cons_ne_nil _ _)
    have hnt : n ≠ r.prev pool_node.head := by
      rw [ht, hlast]
      exact hnl z hz
    show pool_chain r1 n (y :: (ys ++ [x])) = true
    rw [pool_chain_cons]
    refine ⟨?_, ?_, ?_⟩
    · rw [hn]
      simp [Function.update, hnx, hnt, h1]
    · rw [hp]
      simp [Function.update, h2, Ne.symm hxy]
    · refine ih (pool_node.entry y) h3 ?_ ?_ (List.nodup_cons.1 hnd).2 ?_
      · intro e
        cases e
        exact hxy rfl
      · intro z hz e
        cases e
        exact (List.nodup_cons.1 hnd).1 hz
      · intro hm
        exact hx (List.mem_cons_of_mem _ hm)

theorem pool_repr_add_tail (r : pool_ring) (l : List Nat) (x : Nat)
    (hr : pool_repr r l) (hx : x ∉ l) :
    ∃ r1, vsp1_dl_list_put_pool r x = some r1 ∧ pool_repr r1 (l ++ [x]) := by
  obtain ⟨r1, h1, hn, hp⟩ := list_add_tail_pool_eq r x (pool_tail_is_object r l hr.1)
  refine ⟨r1, h1, ?_, ?_⟩
  · exact pool_chain_add_tail r r1 x hn hp l pool_node.head hr.1 (by simp) (by simp) hr.2 hx
  · exact List.Nodup.append hr.2 (List.nodup_singleton x) (by simpa using hx)

theorem pool_chain_suffix (r : pool_ring) (l1 l2 : List Nat) :
    ∀ n, pool_chain r n (l1 ++ l2) = true → pool_chain r (pool_last n l1) l2 = true := by
  induction l1 with
  | nil => intro n h; exact h
  | cons y ys ih =>
    intro n h
    exact ih _ ((pool_chain_cons r n y (ys ++ l2)).1 h).2.2

theorem pool_chain_prefix (r r1 : pool_ring) (x : Nat) (l2 : List Nat) :
    ∀ (l1 : List Nat) (n : pool_node) (l' : List Nat),
      pool_chain r n (l1 ++ x :: l2) = true → pool_chain r1 n l' = true →
      r1.next n = r.next n →
      (∀ y ∈ l1, r1.next (pool_node.entry y) = r.next (pool_node.entry y)) →
      ∃ l'', l' = l1 ++ l'' ∧ pool_chain r1 (pool_last n l1) l'' = true := by
  intro l1
  induction l1 with
  | nil =>
    intro n l' _ h' _ _
    exact ⟨l', rfl, h'⟩
  | cons y ys ih =>
    intro n l' h h' hn hl
    obtain ⟨h1, _, h3⟩ := (pool_chain_cons r n y (ys ++ x :: l2)).1 h
    cases l' with
    | nil =>
      have := ((pool_chain_nil r1 n).1 h').1
      rw [hn, h1] at this
      cases this
    | cons w ws =>
      obtain ⟨g1, _, g3⟩ := (pool_chain_cons r1 n w ws).1 h'
      rw [hn, h1] at g1
      cases g1
      obtain ⟨l'', e, hc⟩ := ih (pool_node.entry y) ws h3 g3
        (hl y (List.mem_cons_self _ _)) (fun z hz => hl z (List.mem_cons_of_mem _ hz))
      exact ⟨l'', by rw [e]; rfl, hc⟩

theorem pool_chain_add_tail_twice (r r1 : pool_ring) (l : List Nat) (x : Nat)
    (hr : pool_repr r l) (hx : x ∈ l)
    (hn : r1.next = Function.update (Function.update r.next (pool_node.entry x) pool_node.head)
        (r.prev pool_node.head) (pool_node.entry x))
    (hp : r1.prev = Function.update (Function.update r.prev pool_node.head (pool_node.entry x))
        (pool_node.entry x) (r.prev pool_node.head)) :
    ∀ l', pool_chain r1 pool_node.head l' = false := by
  intro l'
  cases hc : pool_chain r1 pool_node.head l' with
  | false => rfl
  | true =>
    exfalso
    obtain ⟨l1, l2, hl⟩ := List.append_of_mem hx
    obtain ⟨hch, hnd⟩ := hr
    rw [hl] at hch hnd
    -- the old tail
    have ht : r.prev pool_node.head = pool_last (pool_node.entry x) l2 := by
      rw [(pool_chain_last r _ _ hch).2, pool_last_append]
      rfl
    obtain ⟨g1, g2⟩ := pool_chain_last r1 l' _ hc
    have hph : r1.prev pool_node.head = pool_node.entry x := by
      rw [hp]
      simp [Function.update]
    rw [← g2, hph] at g1
    have hnd2 := List.nodup_append.1 hnd
    have hx1 : x ∉ l1 := fun h => hnd2.2.2 h (List.mem_cons_self _ _)
    cases l2 with
    | nil =>
      -- the list is the tail of the pool: its next pointer now points at itself
      have : r1.next (pool_node.entry x) = pool_node.entry x := by
        rw [hn, ht]
        simp [Function.update, pool_last]
      rw [this] at g1
      cases g1
    | cons c cs =>
      obtain ⟨z, hz, hlast⟩ := pool_last_mem (c :: cs) (pool_node.entry x)
        (List.cons_ne_nil _ _)
      rw [hlast] at ht
      have hzx : z ≠ x := by
        intro e
        exact (List.nodup_cons.1 hnd2.2.1).1 (e ▸ hz)
      have hz1 : z ∉ l1 := fun h => hnd2.2.2 h (List.mem_cons_of_mem _ hz)
      have hagree : ∀ m, m ≠ pool_node.entry x → m ≠ pool_node.entry z →
          r1.next m = r.next m := by
        intro m h1 h2
        rw [hn, ht]
        simp [Function.update, h1, h2]
      obtain ⟨l'', _, hc2⟩ := pool_chain_prefix r r1 x (c :: cs) l1 pool_node.head l' hch hc
        (hagree _ (by simp) (by simp))
        (fun y hy => hagree _
          (by intro e; cases e; exact hx1 hy) (by intro e; cases e; exact hz1 hy))
      have hsuf := pool_chain_suffix r l1 (x :: c :: cs) _ hch
      have hnext := ((pool_chain_cons r _ x (c :: cs)).1 hsuf).1
      have hp1 : pool_last pool_node.head l1 ≠ pool_node.entry x ∧
          pool_last pool_node.head l1 ≠ pool_node.entry z := by
        rcases pool_last_cases l1 pool_node.head with h | ⟨y, hy, h⟩
        · rw [h]
          simp
        · rw [h]
          constructor
          · intro e; cases e; exact hx1 hy
          · intro e; cases e; exact hz1 hy
      have hnext1 : r1.next (pool_last pool_node.head l1) = pool_node.entry x := by
        rw [hagree _ hp1.1 hp1.2, hnext]
      have hprev1 : r1.prev (pool_node.entry x) = pool_node.entry z := by
        rw [hp, ht]
        simp [Function.update]
      cases l'' with
      | nil =>
        have := ((pool_chain_nil r1 _).1 hc2).1
        rw [hnext1] at this
        cases this
      | cons w ws =>
        obtain ⟨k1, k2, _⟩ := (pool_chain_cons r1 _ w ws).1 hc2
        rw [hnext1] at k1
        cases k1
        rw [hprev1] at k2
        exact hp1.2 k2.symm

theorem pool_repr_add_tail_twice (r : pool_ring) (l : List Nat) (x : Nat)
    (hr : pool_repr r l) (hx : x ∈ l) :
    ∃ r1, vsp1_dl_list_put_pool r x = some r1 ∧ ∀ l', ¬ pool_repr r1 l' := by
  obtain ⟨r1, h1, hn, hp⟩ := list_add_tail_pool_eq r x (pool_tail_is_object r l hr.1)
  refine ⟨r1, h1, ?_⟩
  intro l' h
  have := pool_chain_add_tail_twice r r1 l x hr hx hn hp l'
  rw [h.1] at this
  cases this

theorem pool_chain_congr (r r1 : pool_ring) :
    ∀ (l : List Nat) (n : pool_node), pool_chain r n l = true → r1.next n = r.next n →
      (∀ y ∈ l, r1.next (pool_node.entry y) = r.next (pool_node.entry y) ∧
        r1.prev (pool_node.entry y) = r.prev (pool_node.entry y)) →
      r1.prev pool_node.head = r.prev pool_node.head →
      pool_chain r1 n l = true := by
  intro l
  induction l with
  | nil =>
    intro n h hn _ hp
    rw [pool_chain_nil] at h ⊢
    rw [hn, hp]
    exact h
  | cons y ys ih =>
    intro n h hn hl hp
    rw [pool_chain_cons] at h ⊢
    rw [hn, (hl y (List.mem_cons_self _ _)).2]
    exact ⟨h.1, h.2.1, ih _ h.2.2 (hl y (List.mem_cons_self _ _)).1
      (fun z hz => hl z (List.mem_cons_of_mem _ hz)) hp⟩

theorem pool_repr_get_nil (r : pool_ring) (hr : pool_repr r []) :
    vsp1_dl_list_get_pool r = some (none, r) := by
  have := ((pool_chain_nil r _).1 hr.1).1
  simp [vsp1_dl_list_get_pool, list_empty_pool, this]

theorem pool_repr_get_cons (r : pool_ring) (x : Nat) (l : List Nat)
    (hr : pool_repr r (x :: l)) :
    ∃ r1, vsp1_dl_list_get_pool r = some (some x, r1) ∧ pool_repr r1 l := by
  obtain ⟨hch, hnd⟩ := hr
  obtain ⟨h1, h2, h3⟩ := (pool_chain_cons r _ x l).1 hch
  have hxl : x ∉ l := (List.nodup_cons.1 hnd).1
  have ho1 : (pool_node.entry x).is_object = true := rfl
  have ho2 : pool_node.head.is_object = true := rfl
  cases l with
  | nil =>
    obtain ⟨k1, k2⟩ := (pool_chain_nil r _).1 h3
    refine ⟨pool_ring.mk
      (Function.update (Function.update r.next pool_node.head pool_node.head)
        (pool_node.entry x) pool_node.poison)
      (Function.update (Function.update r.prev pool_node.head pool_node.head)
        (pool_node.entry x) pool_node.poison), ?_, ?_, List.nodup_nil⟩
    · simp [vsp1_dl_list_get_pool, list_empty_pool, list_del_pool, h1, h2, k1, ho1, ho2]
    · rw [pool_chain_nil]
      simp [Function.update]
  | cons y ys =>
    obtain ⟨k1, k2, k3⟩ := (pool_chain_cons r _ y ys).1 h3
    have hxy : x ≠ y := fun e => hxl (e ▸ List.mem_cons_self _ _)
    have hnd1 := (List.nodup_cons.1 hnd).2
    have ho3 : (pool_node.entry y).is_object = true := rfl
    refine ⟨pool_ring.mk
      (Function.update (Function.update r.next pool_node.head (pool_node.entry y))
        (pool_node.entry x) pool_node.poison)
      (Function.update (Function.update r.prev (pool_node.entry y) pool_node.head)
        (pool_node.entry x) pool_node.poison), ?_, ?_, hnd1⟩
    · simp [vsp1_dl_list_get_pool, list_empty_pool, list_del_pool, h1, h2, k1, ho1, ho2, ho3]
    · rw [pool_chain_cons]
      refine ⟨by simp [Function.update], by simp [Function.update, Ne.symm hxy], ?_⟩
      refine pool_chain_congr r _ ys _ k3 ?_ ?_ ?_
      · simp [Function.update, Ne.symm hxy]
      · intro z hz
        have hzx : z ≠ x := fun e => hxl (e ▸ List.mem_cons_of_mem _ hz)
        have hzy : z ≠ y := fun e => (List.nodup_cons.1 hnd1).1 (e ▸ hz)
        simp [Function.update, hzx, hzy]
      · simp [Function.update]

/-! ## Releasing a list twice, and reset -/

theorem put_option_free (fuel : Nat) (d : vsp1_dl_manager) (o : Option Nat)
    (hchain : ∀ p, o = some p → (d.lists p).has_chain = false) :
    ∃ e, __vsp1_dl_list_put (fuel + 1) d o = some e ∧ put_frame d e ∧
      e.free = d.free ++ o.toList ∧
      (∀ q, (d.lists q).has_chain = false → (e.lists q).has_chain = false) := by
  obtain ⟨e, he, hf, hnone, hsome⟩ := put_retire fuel d o hchain
  refine ⟨e, he, hf, ?_, ?_⟩
  · cases o with
    | none =>
      rw [hnone rfl]
      simp
    | some p =>
      rw [hsome p rfl, put_tail_free]
      rfl
  · intro q hq
    cases o with
    | none =>
      rw [hnone rfl]
      exact hq
    | some p =>
      rw [hsome p rfl]
      by_cases hqp : q = p
      · subst hqp
        rw [put_tail_lists_self]
      · rw [put_tail_lists_other _ _ _ hqp]
        exact hq

theorem reset_eq (fuel : Nat) (d : vsp1_dl_manager)
    (ha : ∀ x, d.active = some x → (d.lists x).has_chain = false)
    (hq : ∀ x, d.queued = some x → (d.lists x).has_chain = false)
    (hp : ∀ x, d.pending = some x → (d.lists x).has_chain = false) :
    ∃ e, vsp1_dlm_reset (fuel + 1) d = some e ∧
      e.active = none ∧ e.queued = none ∧ e.pending = none ∧
      e.free = d.free ++ d.active.toList ++ d.queued.toList ++ d.pending.toList := by
  obtain ⟨d1, h1, f1, e1, c1⟩ := put_option_free fuel d d.active ha
  obtain ⟨d2, h2, f2, e2, c2⟩ := put_option_free fuel d1 d1.queued
    (fun x hx => c1 x (hq x (f1.2.1 ▸ hx)))
  obtain ⟨d3, h3, f3, e3, c3⟩ := put_option_free fuel d2 d2.pending
    (fun x hx => c2 x (c1 x (hp x (f1.2.2.1 ▸ f2.2.2.1 ▸ hx))))
  refine ⟨{ d3 with active := none, queued := none, pending := none }, ?_, rfl, rfl, rfl, ?_⟩
  · unfold vsp1_dlm_reset
    simp only [h1, h2, h3]
  · show d3.free = _
    rw [e3, e2, e1, f2.2.2.1, f1.2.2.1, f1.2.1]

theorem slots_nodup_iff (free : List Nat) (a q p : Option Nat) :
    (free ++ a.toList ++ q.toList ++ p.toList).Nodup ↔
      free.Nodup ∧
      (∀ x, a = some x → x ∉ free ∧ q ≠ some x ∧ p ≠ some x) ∧
      (∀ x, q = some x → x ∉ free ∧ p ≠ some x) ∧
      (∀ x, p = some x → x ∉ free) := by
  cases a <;> cases q <;> cases p <;>
    simp [List.nodup_append, Option.toList] <;> tauto

/-- C13 (amended): `vsp1_dl_list_put` is not idempotent.  For a list without
chain marker the call returns and links the list at the tail of the free pool,
whether or not it is there already.  If the list was not in the pool, the pool
(a well-formed ring before the call) is a well-formed ring afterwards, holds the
list exactly once and is one longer.  If the list was in the pool, the call is
neither a no-op nor rejected: the sequence view grows by a second occurrence,
and the ring of pointers that `list_add_tail` leaves behind is not a
well-formed circular list of any sequence of lists. -/
theorem put_twice_not_idempotent (fuel : Nat) (d : vsp1_dl_manager) (dl : Nat)
    (r : pool_ring) (hr : pool_repr r d.free)
    (hc : (d.lists dl).has_chain = false) :
    ∃ e r1, vsp1_dl_list_put (fuel + 1) d (some dl) = some e ∧
      vsp1_dl_list_put_pool r dl = some r1 ∧
      e.free = d.free ++ [dl] ∧ e.free.length = d.free.length + 1 ∧
      (dl ∉ d.free → pool_repr r1 e.free ∧ e.free.count dl = 1) ∧
      (dl ∈ d.free → e.free ≠ d.free ∧ ∀ l, ¬ pool_repr r1 l) := by
  have hput : vsp1_dl_list_put (fuel + 1) d (some dl) =
      some (vsp1_dl_list_put_tail d dl) := put_no_chain fuel d dl hc
  have hfree := put_tail_free d dl
  by_cases hmem : dl ∈ d.free
  · obtain ⟨r1, h1, h2⟩ := pool_repr_add_tail_twice r d.free dl hr hmem
    refine ⟨_, r1, hput, h1, hfree, by rw [hfree]; simp, fun h => absurd hmem h, fun _ => ⟨?_, h2⟩⟩
    rw [hfree]
    intro h
    have := congrArg List.length h
    simp at this
  · obtain ⟨r1, h1, h2⟩ := pool_repr_add_tail r d.free dl hr hmem
    refine ⟨_, r1, hput, h1, hfree, by rw [hfree]; simp, fun _ => ⟨?_, ?_⟩,
      fun h => absurd h hmem⟩
    · rw [hfree]
      exact h2
    · rw [hfree, List.count_append, List.count_eq_zero_of_not_mem hmem]
      simp

/-- Witness of C13 (amended): list 0 of the headerless example, handed out
before, is released into the pool of lists 1, 2, 3. -/
theorem put_twice_not_idempotent_witness :
    pool_repr ex_pool_3 ex_headerless_1.free ∧
    (ex_headerless_1.lists 0).has_chain = false ∧
    ∃ e r1, vsp1_dl_list_put 1 ex_headerless_1 (some 0) = some e ∧
      vsp1_dl_list_put_pool ex_pool_3 0 = some r1 ∧
      e.free = ex_headerless_1.free ++ [0] ∧ pool_repr r1 e.free := by
  have hr : pool_repr ex_pool_3 ex_headerless_1.free := by decide
  obtain ⟨e, r1, h1, h2, h3, _, h5, _⟩ :=
    put_twice_not_idempotent 0 ex_headerless_1 0 ex_pool_3 hr rfl
  exact ⟨hr, rfl, e, r1, h1, h2, h3, (h5 (by decide)).1⟩

/-- Counterexample to C13 as stated: in the fresh headerless example manager
list 0 is in the free pool (lists 0, 1, 2, 3).  Releasing it again returns; in
the sequence view the pool has five elements and list 0 twice; on the ring, the
traversal from the head now visits list 0 only, lists 1, 2 and 3 are no longer
reachable.  Releasing list 3, the tail of the pool, makes its `next` pointer
point at itself, so that a traversal never comes back to the head. -/
theorem put_pooled_list_changes_pool :
    ex_headerless_0.free = [0, 1, 2, 3] ∧ pool_repr ex_pool_4 [0, 1, 2, 3] ∧
    pool_entries ex_pool_4 8 = some [0, 1, 2, 3] ∧
    (vsp1_dl_list_put 1 ex_headerless_0 (some 0)).map (fun e => e.free) =
      some [0, 1, 2, 3, 0] ∧
    (vsp1_dl_list_put_pool ex_pool_4 0).map (fun r => pool_entries r 8) = some (some [0]) ∧
    (vsp1_dl_list_put_pool ex_pool_4 3).map
      (fun r => (r.next (pool_node.entry 3), pool_entries r 8)) =
      some (pool_node.entry 3, none) := by
  refine ⟨by decide, by decide, by decide, by decide, by decide, by decide⟩

theorem reset_after_headerless_trace (vsp1 : vsp1_device) (index prealloc : Nat)
    (alloc : Nat → Option dma_buffer) (init : vsp1_dl_manager)
    (hcreate : vsp1_dlm_create vsp1 index prealloc alloc = some init)
    (fuel : Nat) (c : dl_client) (htrace : commit_trace (fuel + 1) init c)
    (hm : c.dlm.mode = vsp1_dl_mode.VSP1_DL_MODE_HEADERLESS) :
    ∃ e, vsp1_dlm_reset (fuel + 1) c.dlm = some e ∧
      e.active = none ∧ e.queued = none ∧ e.pending = none ∧
      (∀ x, c.dlm.active = some x ∨ c.dlm.queued = some x ∨ c.dlm.pending = some x →
        x ∈ e.free) ∧
      e.free.Nodup := by
  obtain ⟨hp, hs⟩ := commit_trace_inv fuel init
    (create_inv vsp1 index prealloc alloc init hcreate) c htrace
  obtain ⟨e, he, h1, h2, h3, hfree⟩ := reset_eq fuel c.dlm
    (fun x _ => hp.no_chain x) (fun x _ => hp.no_chain x) (fun x _ => hp.no_chain x)
  refine ⟨e, he, h1, h2, h3, ?_, ?_⟩
  · intro x hx
    rw [hfree]
    rcases hx with h | h | h <;> simp [h]
  · rw [hfree, slots_nodup_iff]
    refine ⟨hp.free_nodup, ?_, ?_, ?_⟩
    · intro x hx
      obtain ⟨k1, k2, k3, _⟩ := hs.active_ok hm x hx
      exact ⟨k3, k1, k2⟩
    · intro x hx
      obtain ⟨k1, k2, _⟩ := hs.queued_ok hm x hx
      exact ⟨k2, k1⟩
    · intro x hx
      exact (hs.pending_ok hm x hx).1

/-- C20 (amended): when no list referenced by a slot carries a chain marker,
`vsp1_dlm_reset` returns, the slots active, queued and pending are null
afterwards, every list that a slot referenced is in the free pool, and the
lists of the slots were appended to the pool, one insertion for each slot.
The pool then holds no list twice exactly when it held none twice before and
the lists of the slots were pairwise different and not in the pool. -/
theorem reset_drains_slots (fuel : Nat) (d : vsp1_dl_manager)
    (ha : ∀ x, d.active = some x → (d.lists x).has_chain = false)
    (hq : ∀ x, d.queued = some x → (d.lists x).has_chain = false)
    (hp : ∀ x, d.pending = some x → (d.lists x).has_chain = false) :
    ∃ e, vsp1_dlm_reset (fuel + 1) d = some e ∧
      e.active = none ∧ e.queued = none ∧ e.pending = none ∧
      (∀ x, d.active = some x ∨ d.queued = some x ∨ d.pending = some x → x ∈ e.free) ∧
      e.free = d.free ++ d.active.toList ++ d.queued.toList ++ d.pending.toList ∧
      (e.free.Nodup ↔
        d.free.Nodup ∧
        (∀ x, d.active = some x → x ∉ d.free ∧ d.queued ≠ some x ∧ d.pending ≠ some x) ∧
        (∀ x, d.queued = some x → x ∉ d.free ∧ d.pending ≠ some x) ∧
        (∀ x, d.pending = some x → x ∉ d.free)) := by
  obtain ⟨e, he, h1, h2, h3, hfree⟩ := reset_eq fuel d ha hq hp
  refine ⟨e, he, h1, h2, h3, ?_, hfree, ?_⟩
  · intro x hx
    rw [hfree]
    rcases hx with h | h | h <;> simp [h]
  · rw [hfree, slots_nodup_iff]

/-- Witness of C20 (amended): the headerless example with list 0 active, list 1
queued, list 2 pending and list 3 in the pool. -/
theorem reset_drains_slots_witness :
    (∀ x, ex_headerless_7.active = some x → (ex_headerless_7.lists x).has_chain = false) ∧
    (∀ x, ex_headerless_7.queued = some x → (ex_headerless_7.lists x).has_chain = false) ∧
    (∀ x, ex_headerless_7.pending = some x → (ex_headerless_7.lists x).has_chain = false) ∧
    ∃ e, vsp1_dlm_reset 1 ex_headerless_7 = some e ∧
      e.active = none ∧ e.queued = none ∧ e.pending = none ∧
      e.free = [3, 0, 1, 2] ∧ e.free.Nodup := by
  have ha : ∀ x, ex_headerless_7.active = some x →
      (ex_headerless_7.lists x).has_chain = false := by
    intro x h
    have : some 0 = some x := h
    cases this
    rfl
  have hq : ∀ x, ex_headerless_7.queued = some x →
      (ex_headerless_7.lists x).has_chain = false := by
    intro x h
    have : some 1 = some x := h
    cases this
    rfl
  have hp : ∀ x, ex_headerless_7.pending = some x →
      (ex_headerless_7.lists x).has_chain = false := by
    intro x h
    have : some 2 = some x := h
    cases this
    rfl
  obtain ⟨e, he, h1, h2, h3, _, hfree, _⟩ := reset_drains_slots 0 ex_headerless_7 ha hq hp
  have hf : e.free = [3, 0, 1, 2] := by
    rw [hfree]
    decide
  exact ⟨ha, hq, hp, e, he, h1, h2, h3, hf, by rw [hf]; decide⟩

/-- Counterexample to C20 as stated: in the header-mode example, after list 0
was obtained and committed, it is referenced by the active and by the queued
slot and is in the pool (lists 1, 0).  Reset returns and clears the slots, but
links list 0 in again for each of the two slots: the sequence view of the pool
holds it three times, and on the ring its `next` pointer points at itself, so
that a traversal of the pool never comes back to the head. -/
theorem reset_header_after_commit_relinks :
    ex_header_2.mode = vsp1_dl_mode.VSP1_DL_MODE_HEADER ∧
    vsp1_dl_list_commit 1 (set_mmio ex_header_1 ex_mmio_idle) 0 0 = some ex_header_2 ∧
    ex_header_2.active = some 0 ∧ ex_header_2.queued = some 0 ∧
    ex_header_2.pending = none ∧ ex_header_2.free = [1, 0] ∧
    pool_repr ex_pool_header_2 [1, 0] ∧
    (vsp1_dlm_reset 1 ex_header_2).map (fun e => (e.active, e.queued, e.pending, e.free)) =
      some (none, none, none, [1, 0, 0, 0]) ∧
    ((vsp1_dl_list_put_pool ex_pool_header_2 0).bind
      (fun r => vsp1_dl_list_put_pool r 0)).map
      (fun r => (r.next (pool_node.entry 0), pool_entries r 8)) =
      some (pool_node.entry 0, none) := by
  refine ⟨rfl, (Option.some_get _).symm, rfl, rfl, rfl, by decide, by decide, by decide,
    by decide⟩

/-! ## Releasing a list with chained children -/

theorem put_tail_chain (d : vsp1_dl_manager) (dl x : Nat) :
    ((vsp1_dl_list_put_tail d dl).lists x).chain = (d.lists x).chain := by
  by_cases h : x = dl
  · subst h
    rw [put_tail_lists_self]
  · rw [put_tail_lists_other _ _ _ h]

theorem put_tail_has_chain (d : vsp1_dl_manager) (dl x : Nat)
    (h : (d.lists x).has_chain = false) :
    ((vsp1_dl_list_put_tail d dl).lists x).has_chain = false := by
  by_cases hx : x = dl
  · subst hx
    rw [put_tail_lists_self]
  · rw [put_tail_lists_other _ _ _ hx]
    exact h

theorem chain_children_congr (d e : vsp1_dl_manager) (head : Nat)
    (h : ∀ x, (e.lists x).chain = (d.lists x).chain) :
    ∀ (kids : List Nat) (n : Nat), chain_children e head n kids = chain_children d head n kids := by
  intro kids
  induction kids with
  | nil =>
    intro n
    simp [chain_children, h]
  | cons c cs ih =>
    intro n
    simp [chain_children, h, ih]

theorem put_chain_children (head : Nat) :
    ∀ (kids : List Nat) (fuel : Nat) (d : vsp1_dl_manager) (n : Nat),
      chain_children d head n kids = true → head ∉ kids →
      (∀ c ∈ kids, (d.lists c).has_chain = false) →
      vsp1_dl_list_put_chain (fuel + kids.length + 1) d head (d.lists n).chain.next =
        some (vsp1_dl_list_put_tail_all d kids) := by
  intro kids
  induction kids with
  | nil =>
    intro fuel d n h _ _
    simp only [chain_children, beq_iff_eq] at h
    rw [h]
    simp [vsp1_dl_list_put_chain, vsp1_dl_list_put_tail_all]
  | cons c cs ih =>
    intro fuel d n h hhead hmark
    simp only [chain_children, Bool.and_eq_true, beq_iff_eq] at h
    obtain ⟨h1, h2⟩ := h
    have hc : c ≠ head := fun e => hhead (e ▸ List.mem_cons_self _ _)
    rw [h1]
    have hfuel : fuel + (c :: cs).length + 1 = (fuel + cs.length + 1) + 1 := by
      simp only [List.length_cons]
      omega
    rw [hfuel]
    simp only [vsp1_dl_list_put_chain, hc, if_false]
    have hfuel2 : fuel + cs.length + 1 = (fuel + cs.length) + 1 := rfl
    rw [hfuel2, put_no_chain _ d c (hmark c (List.mem_cons_self _ _))]
    have := ih fuel (vsp1_dl_list_put_tail d c) c
      (by rw [chain_children_congr d _ head (fun x => put_tail_chain d c x)]; exact h2)
      (fun hm => hhead (List.mem_cons_of_mem _ hm))
      (fun x hx => put_tail_has_chain d c x (hmark x (List.mem_cons_of_mem _ hx)))
    exact this

theorem foldl_congr_mem {α β : Type} (f g : β → α → β) :
    ∀ (l : List α) (b : β), (∀ x ∈ l, ∀ b, f b x = g b x) → l.foldl f b = l.foldl g b := by
  intro l
  induction l with
  | nil => intro b _; rfl
  | cons x xs ih =>
    intro b h
    simp only [List.foldl_cons]
    rw [h x (List.mem_cons_self _ _)]
    exact ih _ (fun y hy => h y (List.mem_cons_of_mem _ hy))

theorem put_tail_all_spec :
    ∀ (kids : List Nat) (d : vsp1_dl_manager), kids.Nodup →
      (vsp1_dl_list_put_tail_all d kids).free = d.free ++ kids ∧
      (vsp1_dl_list_put_tail_all d kids).gc_fragments =
        kids.foldl (fun g c => (d.lists c).fragments ++ g) d.gc_fragments ∧
      (∀ x, x ∉ kids → (vsp1_dl_list_put_tail_all d kids).lists x = d.lists x) ∧
      (∀ c ∈ kids, (vsp1_dl_list_put_tail_all d kids).lists c =
        { d.lists c with
          has_chain := false, fragments := []
          body0 := { (d.lists c).body0 with num_entries := 0 } }) ∧
      put_frame d (vsp1_dl_list_put_tail_all d kids) := by
  intro kids
  induction kids with
  | nil =>
    intro d _
    refine ⟨by simp [vsp1_dl_list_put_tail_all], rfl, fun _ _ => rfl, ?_, put_frame_refl _⟩
    intro c hc
    cases hc
  | cons c cs ih =>
    intro d hnd
    obtain ⟨hc, hcs⟩ := List.nodup_cons.1 hnd
    obtain ⟨h1, h2, h3, h4, h5⟩ := ih (vsp1_dl_list_put_tail d c) hcs
    have hunf : vsp1_dl_list_put_tail_all d (c :: cs) =
        vsp1_dl_list_put_tail_all (vsp1_dl_list_put_tail d c) cs := rfl
    rw [hunf]
    refine ⟨?_, ?_, ?_, ?_, put_frame_trans (put_frame_tail d c) h5⟩
    · rw [h1, put_tail_free]
      simp
    · rw [h2, put_tail_gc]
      simp only [List.foldl_cons]
      apply foldl_congr_mem
      intro x hx b
      have hxc : x ≠ c := fun e => hc (e ▸ hx)
      rw [put_tail_lists_other _ _ _ hxc]
    · intro x hx
      have hxc : x ≠ c := fun e => hx (e ▸ List.mem_cons_self _ _)
      rw [h3 x (fun h => hx (List.mem_cons_of_mem _ h)), put_tail_lists_other _ _ _ hxc]
    · intro x hx
      rcases List.mem_cons.1 hx with e | hmem
      · subst e
        rw [h3 x hc, put_tail_lists_self]
      · have hxc : x ≠ c := fun e => hc (e ▸ hmem)
        rw [h4 x hmem, put_tail_lists_other _ _ _ hxc]

theorem put_chain_eq (fuel : Nat) (d : vsp1_dl_manager) (L : Nat) (kids : List Nat)
    (hring : chain_children d L L kids = true)
    (hnd : (L :: kids).Nodup)
    (hkids : ∀ c ∈ kids, (d.lists c).has_chain = false)
    (hmark : kids ≠ [] → (d.lists L).has_chain = true) :
    __vsp1_dl_list_put (fuel + kids.length + 2) d (some L) =
      some (vsp1_dl_list_put_tail (vsp1_dl_list_put_tail_all d kids) L) := by
  by_cases hc : (d.lists L).has_chain = true
  · have hf : fuel + kids.length + 2 = (fuel + kids.length + 1) + 1 := rfl
    rw [hf]
    simp only [__vsp1_dl_list_put, hc, if_true]
    rw [put_chain_children L kids fuel d L hring (List.nodup_cons.1 hnd).1 hkids]
  · have hk : kids = [] := by
      by_contra h
      exact hc (hmark h)
    subst hk
    simp only [Bool.not_eq_true] at hc
    exact put_no_chain _ d L hc

/-- C12: `vsp1_dl_list_put` on a list `L` with chained children `kids`
(`C1 .. Cn`, `n ≥ 0`, none of them with a chain marker of its own) returns.
Afterwards `C1 .. Cn` followed by `L` are appended to the free pool; the
fragments of `L` are at the front of the retirement queue, followed by those of
`Cn`, .., `C1` and by what was queued before; `L` and every child have no
fragments, entry count 0 and a cleared chain marker, and are otherwise
unchanged; every other list and the slots are unchanged; the pool holds no list
twice if it held none twice before and neither `L` nor a child was in it.
A call with null returns the manager state unchanged. -/
theorem put_releases_chain (fuel : Nat) (d : vsp1_dl_manager) (L : Nat) (kids : List Nat)
    (hring : chain_children d L L kids = true)
    (hnd : (L :: kids).Nodup)
    (hkids : ∀ c ∈ kids, (d.lists c).has_chain = false)
    (hmark : kids ≠ [] → (d.lists L).has_chain = true) :
    (∃ e, vsp1_dl_list_put (fuel + kids.length + 2) d (some L) = some e ∧
      e.free = d.free ++ kids ++ [L] ∧
      e.gc_fragments = (d.lists L).fragments ++
        kids.foldl (fun g c => (d.lists c).fragments ++ g) d.gc_fragments ∧
      (∀ F ∈ (d.lists L).fragments, F ∈ e.gc_fragments) ∧
      (∀ x ∈ L :: kids, e.lists x =
        { d.lists x with
          has_chain := false, fragments := []
          body0 := { (d.lists x).body0 with num_entries := 0 } }) ∧
      (∀ x, x ∉ L :: kids → e.lists x = d.lists x) ∧
      put_frame d e ∧
      (d.free.Nodup → (∀ x ∈ L :: kids, x ∉ d.free) → e.free.Nodup)) ∧
    vsp1_dl_list_put fuel d none = some d := by
  refine ⟨?_, rfl⟩
  obtain ⟨hL, hkn⟩ := List.nodup_cons.1 hnd
  obtain ⟨h1, h2, h3, h4, h5⟩ := put_tail_all_spec kids d hkn
  have hfree : (vsp1_dl_list_put_tail (vsp1_dl_list_put_tail_all d kids) L).free =
      d.free ++ kids ++ [L] := by
    rw [put_tail_free, h1]
  have hgc : (vsp1_dl_list_put_tail (vsp1_dl_list_put_tail_all d kids) L).gc_fragments =
      (d.lists L).fragments ++
        kids.foldl (fun g c => (d.lists c).fragments ++ g) d.gc_fragments := by
    rw [put_tail_gc, h2, h3 L hL]
  refine ⟨_, put_chain_eq fuel d L kids hring hnd hkids hmark, hfree, hgc, ?_, ?_, ?_,
    put_frame_trans h5 (put_frame_tail _ L), ?_⟩
  · intro F hF
    rw [hgc]
    exact List.mem_append_left _ hF
  · intro x hx
    rcases List.mem_cons.1 hx with e | hmem
    · subst e
      rw [put_tail_lists_self, h3 x hL]
    · have hxL : x ≠ L := fun e => hL (e ▸ hmem)
      rw [put_tail_lists_other _ _ _ hxL, h4 x hmem]
  · intro x hx
    have hxL : x ≠ L := fun e => hx (e ▸ List.mem_cons_self _ _)
    rw [put_tail_lists_other _ _ _ hxL, h3 x (fun h => hx (List.mem_cons_of_mem _ h))]
  · intro hfn hout
    rw [hfree, List.append_assoc]
    refine List.Nodup.append hfn ?_ ?_
    · refine List.Nodup.append hkn (List.nodup_singleton L) ?_
      intro x hx hx2
      rw [List.mem_singleton] at hx2
      exact hL (hx2 ▸ hx)
    · intro x hx hx2
      refine hout x ?_ hx
      rcases List.mem_append.1 hx2 with h | h
      · exact List.mem_cons_of_mem _ h
      · rw [List.mem_singleton] at h
        rw [h]
        exact List.mem_cons_self _ _

/-- Witness of C12: the header-mode example, list 1 chained to list 0, each
with one fragment; releasing list 0 puts lists 1 and 0 into the pool and both
fragments, the one of list 0 first, into the retirement queue. -/
theorem put_releases_chain_witness :
    chain_children ex_chain_2 0 0 [1] = true ∧ (ex_chain_2.lists 0).has_chain = true ∧
    ∃ e, vsp1_dl_list_put 3 ex_chain_2 (some 0) = some e ∧
      e.free = [1, 0] ∧ e.gc_fragments.map (fun b => b.dma) = [0x900000, 0xa00000] ∧
      (e.lists 0).body0.num_entries = 0 ∧ (e.lists 1).body0.num_entries = 0 ∧
      (e.lists 0).has_chain = false := by
  have hkids : ∀ c ∈ [1], (ex_chain_2.lists c).has_chain = false := by
    intro c hc
    rw [List.mem_singleton] at hc
    subst hc
    rfl
  obtain ⟨e, h1, h2, h3, _, h5, _⟩ :=
    (put_releases_chain 0 ex_chain_2 0 [1] (by decide) (by decide) hkids (fun _ => rfl)).1
  refine ⟨by decide, rfl, e, h1, ?_, ?_, ?_, ?_, ?_⟩
  · rw [h2]
    decide
  · rw [h3]
    decide
  · rw [h5 0 (by decide)]
  · rw [h5 1 (by decide)]
  · rw [h5 0 (by decide)]

/-! ## Committing a chain in header mode -/

set_option maxHeartbeats 1000000 in
theorem fill_header_chained (d : vsp1_dl_manager) (dl lif_index h nx : Nat)
    (hh : (d.lists dl).header = some h)
    (hdev : fill_header_returns_early d.vsp1 = false)
    (hnext : (d.lists dl).chain.next = some nx) (hne : nx ≠ dl) :
    ∃ m, vsp1_dl_list_fill_header d dl false lif_index =
        some (set_list d dl { d.lists dl with
          body0 := { (d.lists dl).body0 with entries := m } }) ∧
      m (h + HDR_FLAGS) = VSP1_DLH_AUTO_START ∧
      m (h + HDR_NEXT_HEADER) = u32 (d.lists nx).dma := by
  have hempty : list_empty_chain d dl = false := by
    simp [list_empty_chain, hnext, hne]
  unfold fill_header_returns_early at hdev
  unfold vsp1_dl_list_fill_header
  simp only [hh, hdev, hempty, hnext, Bool.not_false, Bool.and_self, Bool.false_eq_true,
    if_false, if_true]
  refine ⟨_, rfl, ?_, ?_⟩
  · rw [store32_same]
    rfl
  · rw [store32_other _ _ _ _ (by simp [HDR_FLAGS, HDR_NEXT_HEADER]), store32_same]

set_option maxHeartbeats 1000000 in
theorem fill_header_last_flags (d : vsp1_dl_manager) (dl lif_index h : Nat) (is_last : Bool)
    (hh : (d.lists dl).header = some h)
    (he : (d.lists dl).ext_body = some (h + VSP1_DL_EXT_OFFSET))
    (hdev : fill_header_returns_early d.vsp1 = false)
    (hlast : (!list_empty_chain d dl && !is_last) = false) :
    ∃ m, vsp1_dl_list_fill_header d dl is_last lif_index =
        some (set_list d dl { d.lists dl with
          body0 := { (d.lists dl).body0 with entries := m } }) ∧
      m (h + HDR_FLAGS) = last_header_flags d.vsp1 := by
  unfold fill_header_returns_early at hdev
  unfold vsp1_dl_list_fill_header
  simp only [hh, he, hdev, hlast, Bool.false_eq_true, if_false]
  have h2 : u32 VSP1_DLH_INT_ENABLE = VSP1_DLH_INT_ENABLE := rfl
  have h3 : u32 (VSP1_DLH_INT_ENABLE ||| VSP1_DLH_AUTO_START) =
      VSP1_DLH_INT_ENABLE ||| VSP1_DLH_AUTO_START := rfl
  unfold last_header_flags
  split_ifs <;>
    (refine ⟨_, rfl, ?_⟩
     simp only [HDR_LIST_NUM_BYTES, HDR_NUM_LISTS, HDR_FLAGS, HDR_NEXT_HEADER,
       HDR_PRE_POST_NUM, HDR_PRE_EXT_DL_PLIST, HDR_POST_EXT_DL_NUM_CMD,
       HDR_POST_EXT_DL_P_LIST, EXT_DL_CMD, EXT_DL_DATA, VSP1_DL_EXT_OFFSET]
     simp (disch := omega) only [store32_other, store32_same, h2, h3])

theorem same_but_entries_refl (a : vsp1_dl_list) : same_but_entries a a := rfl

theorem same_but_entries_trans {a b c : vsp1_dl_list} (h1 : same_but_entries a b)
    (h2 : same_but_entries b c) : same_but_entries a c := by
  unfold same_but_entries at *
  rw [h2, h1]

theorem same_but_entries_set (a : vsp1_dl_list) (m : Nat → Nat) :
    same_but_entries a { a with body0 := { a.body0 with entries := m } } := rfl

theorem only_entries_differ_set (d : vsp1_dl_manager) (dl : Nat) (m : Nat → Nat) :
    only_entries_differ d
      (set_list d dl { d.lists dl with body0 := { (d.lists dl).body0 with entries := m } })
      [dl] := by
  refine ⟨rfl, ?_, ?_⟩
  · intro x
    by_cases h : x = dl
    · subst h
      rw [set_list_lists_self]
      exact same_but_entries_set _ m
    · rw [set_list_lists_other _ _ _ _ h]
      exact same_but_entries_refl _
  · intro x hx
    rw [set_list_lists_other _ _ _ _ (fun e => hx (List.mem_singleton.2 e))]

theorem only_entries_differ_trans {d e f : vsp1_dl_manager} {s t u : List Nat}
    (h1 : only_entries_differ d e s) (h2 : only_entries_differ e f t)
    (hs : ∀ x ∈ s, x ∈ u) (ht : ∀ x ∈ t, x ∈ u) : only_entries_differ d f u := by
  obtain ⟨a1, a2, a3⟩ := h1
  obtain ⟨b1, b2, b3⟩ := h2
  refine ⟨?_, fun x => same_but_entries_trans (a2 x) (b2 x), ?_⟩
  · rw [b1, a1]
  · intro x hx
    rw [b3 x (fun h => hx (ht x h)), a3 x (fun h => hx (hs x h))]

theorem header_layout_iff (l : vsp1_dl_list) :
    header_layout l = true ↔
      ∃ h, l.header = some h ∧ l.ext_body = some (h + VSP1_DL_EXT_OFFSET) := by
  unfold header_layout
  cases l.header with
  | none => simp
  | some h =>
    cases l.ext_body with
    | none => simp
    | some e => simp

theorem same_but_entries_fields {a b : vsp1_dl_list} (h : same_but_entries a b) :
    b.header = a.header ∧ b.ext_body = a.ext_body ∧ b.dma = a.dma ∧ b.chain = a.chain ∧
      b.has_chain = a.has_chain ∧ b.fragments = a.fragments ∧
      b.body0.num_entries = a.body0.num_entries := by
  unfold same_but_entries at h
  have h1 := congrArg vsp1_dl_list.header h
  have h2 := congrArg vsp1_dl_list.ext_body h
  have h3 := congrArg vsp1_dl_list.dma h
  have h4 := congrArg vsp1_dl_list.chain h
  have h5 := congrArg vsp1_dl_list.has_chain h
  have h6 := congrArg vsp1_dl_list.fragments h
  have h7 := congrArg (fun l => l.body0.num_entries) h
  exact ⟨h1, h2, h3, h4, h5, h6, h7⟩

theorem header_flags_set (a : vsp1_dl_list) (m : Nat → Nat) (h : Nat)
    (hh : a.header = some h) :
    header_flags { a with body0 := { a.body0 with entries := m } } = some (m (h + HDR_FLAGS)) ∧
    header_next_header { a with body0 := { a.body0 with entries := m } } =
      some (m (h + HDR_NEXT_HEADER)) := by
  simp [header_flags, header_next_header, hh]

theorem commit_chain_headers (H lif_index : Nat) :
    ∀ (kids : List Nat) (fuel : Nat) (d : vsp1_dl_manager) (c : Nat),
      chain_children d H c kids = true → (H :: c :: kids).Nodup →
      (∀ x ∈ c :: kids, header_layout (d.lists x) = true) →
      fill_header_returns_early d.vsp1 = false →
      ∃ e, vsp1_dl_list_commit_chain (fuel + kids.length + 2) d H (some c) lif_index = some e ∧
        only_entries_differ d e (c :: kids) ∧ chain_headers e (c :: kids) = true := by
  intro kids
  induction kids with
  | nil =>
    intro fuel d c hch hnd hlay hdev
    simp only [chain_children, beq_iff_eq] at hch
    have hcH : c ≠ H := by
      intro e
      subst e
      simp at hnd
    obtain ⟨h, hh, he⟩ := (header_layout_iff _).1 (hlay c (List.mem_cons_self _ _))
    obtain ⟨m, hfill, hflags⟩ := fill_header_last_flags d c lif_index h true hh he hdev
      (by simp)
    refine ⟨_, ?_, only_entries_differ_set d c m, ?_⟩
    · show vsp1_dl_list_commit_chain (fuel + 1 + 1) d H (some c) lif_index = _
      simp only [vsp1_dl_list_commit_chain, hcH, if_false, hch, beq_self_eq_true, hfill,
        set_list_lists_self, if_true]
    · simp only [chain_headers, beq_iff_eq]
      rw [set_list_lists_self, (header_flags_set _ m h hh).1, hflags]
      rfl
  | cons c' cs ih =>
    intro fuel d c hch hnd hlay hdev
    simp only [chain_children, Bool.and_eq_true, beq_iff_eq] at hch
    obtain ⟨hnext, hrest⟩ := hch
    obtain ⟨hH, hnd1⟩ := List.nodup_cons.1 hnd
    obtain ⟨hc, hnd2⟩ := List.nodup_cons.1 hnd1
    have hcH : c ≠ H := fun e => hH (e ▸ List.mem_cons_self _ _)
    have hc'H : c' ≠ H := fun e =>
      hH (e ▸ List.mem_cons_of_mem _ (List.mem_cons_self _ _))
    have hc'c : c' ≠ c := fun e => hc (e ▸ List.mem_cons_self _ _)
    obtain ⟨h, hh, _⟩ := (header_layout_iff _).1 (hlay c (List.mem_cons_self _ _))
    obtain ⟨m, hfill, hflags, hnh⟩ := fill_header_chained d c lif_index h c' hh hdev hnext hc'c
    obtain ⟨d1, hd1⟩ : ∃ d1, d1 = set_list d c
        { d.lists c with body0 := { (d.lists c).body0 with entries := m } } := ⟨_, rfl⟩
    rw [← hd1] at hfill
    have hframe1 : only_entries_differ d d1 [c] := by
      rw [hd1]
      exact only_entries_differ_set d c m
    have hchain1 : ∀ x, (d1.lists x).chain = (d.lists x).chain := fun x =>
      (same_but_entries_fields (hframe1.2.1 x)).2.2.2.1
    have hother : ∀ x, x ≠ c → d1.lists x = d.lists x := fun x hx =>
      hframe1.2.2 x (fun hm => hx (List.mem_singleton.1 hm))
    obtain ⟨e, he, hframe2, hhead⟩ := ih fuel d1 c'
      (by rw [chain_children_congr d d1 H hchain1]; exact hrest)
      (List.nodup_cons.2 ⟨fun hm => hH (List.mem_cons_of_mem _ hm), hnd2⟩)
      (by
        intro x hx
        have hxc : x ≠ c := fun e => hc (e ▸ hx)
        rw [hother x hxc]
        exact hlay x (List.mem_cons_of_mem _ hx))
      (by
        have : d1.vsp1 = d.vsp1 := by rw [hd1]; rfl
        rw [this]
        exact hdev)
    refine ⟨e, ?_, ?_, ?_⟩
    · have hf : fuel + (c' :: cs).length + 2 = (fuel + cs.length + 2) + 1 := by
        simp only [List.length_cons]
        omega
      rw [hf]
      have hl : ((d.lists c).chain.next == some H) = false := by
        rw [hnext]
        simp [hc'H]
      simp only [vsp1_dl_list_commit_chain, hcH, if_false, hl, hfill]
      rw [hchain1 c, hnext]
      exact he
    · exact only_entries_differ_trans hframe1 hframe2
        (fun x hx => by rw [List.mem_singleton.1 hx]; exact List.mem_cons_self _ _)
        (fun x hx => List.mem_cons_of_mem _ hx)
    · have hec : e.lists c = d1.lists c := hframe2.2.2 c hc
      have hdma : (e.lists c').dma = (d.lists c').dma := by
        rw [(same_but_entries_fields (hframe2.2.1 c')).2.2.1, hother c' hc'c]
      have hfl := header_flags_set (d.lists c) m h hh
      simp only [chain_headers, Bool.and_eq_true, beq_iff_eq]
      refine ⟨⟨?_, ?_⟩, hhead⟩
      · rw [hec, hd1, set_list_lists_self, hfl.1, hflags]
      · rw [hec, hd1, set_list_lists_self, hfl.2, hnh, hdma]

theorem chain_headers_congr (d e : vsp1_dl_manager) (hinfo : e.vsp1.info = d.vsp1.info) :
    ∀ l : List Nat,
      (∀ x ∈ l, header_flags (e.lists x) = header_flags (d.lists x) ∧
        header_next_header (e.lists x) = header_next_header (d.lists x) ∧
        (e.lists x).dma = (d.lists x).dma) →
      chain_headers e l = chain_headers d l := by
  intro l
  induction l with
  | nil => intro _; rfl
  | cons c cs ih =>
    intro h
    cases cs with
    | nil =>
      simp only [chain_headers, last_header_flags, hinfo, (h c (List.mem_cons_self _ _)).1]
    | cons c' cs' =>
      have h1 := h c (List.mem_cons_self _ _)
      have h2 := h c' (List.mem_cons_of_mem _ (List.mem_cons_self _ _))
      have := ih (fun x hx => h x (List.mem_cons_of_mem _ hx))
      simp only [chain_headers, h1.1, h1.2.1, h2.2.2, this]

theorem chain_headers_index (d : vsp1_dl_manager) :
    ∀ l : List Nat, chain_headers d l = true →
      (∀ i x y, l[i]? = some x → l[i + 1]? = some y →
        header_flags (d.lists x) = some VSP1_DLH_AUTO_START ∧
        header_next_header (d.lists x) = some (u32 (d.lists y).dma)) ∧
      (∀ x, l.getLast? = some x →
        header_flags (d.lists x) = some (last_header_flags d.vsp1)) := by
  intro l
  induction l with
  | nil =>
    intro _
    constructor
    · intro i x y h
      simp at h
    · intro x h
      simp at h
  | cons c cs ih =>
    intro h
    cases cs with
    | nil =>
      simp only [chain_headers, beq_iff_eq] at h
      constructor
      · intro i x y _ h2
        simp at h2
      · intro x hx
        simp only [List.getLast?_singleton, Option.some.injEq] at hx
        subst hx
        exact h
    | cons c' cs' =>
      simp only [chain_headers, Bool.and_eq_true, beq_iff_eq] at h
      obtain ⟨⟨h1, h2⟩, h3⟩ := h
      obtain ⟨ih1, ih2⟩ := ih h3
      constructor
      · intro i x y hx hy
        cases i with
        | zero =>
          simp only [List.getElem?_cons_zero, Option.some.injEq, Nat.zero_add,
            List.getElem?_cons_succ] at hx hy
          subst hx
          subst hy
          exact ⟨h1, h2⟩
        | succ j =>
          rw [List.getElem?_cons_succ] at hx hy
          exact ih1 j x y hx hy
      · intro x hx
        rw [List.getLast?_cons_cons] at hx
        exact ih2 x hx

theorem last_header_flags_int (vsp1 : vsp1_device) :
    last_header_flags vsp1 &&& VSP1_DLH_INT_ENABLE ≠ 0 ∧
    VSP1_DLH_AUTO_START &&& VSP1_DLH_INT_ENABLE = 0 := by
  unfold last_header_flags
  cases vsp1.info.header_mode <;> decide

theorem commit_header_put (F : Nat) (d d1 d2 : vsp1_dl_manager) (H lif_index : Nat)
    (hm : d.mode = vsp1_dl_mode.VSP1_DL_MODE_HEADER)
    (hfill : vsp1_dl_list_fill_header d H (list_empty_chain d H) lif_index = some d1)
    (hcc : vsp1_dl_list_commit_chain F d1 H (d1.lists H).chain.next lif_index = some d2) :
    ∃ v, v.info = d2.vsp1.info ∧ v.regs = d2.vsp1.regs ∧
      vsp1_dl_list_commit F d H lif_index =
        __vsp1_dl_list_put F { d2 with vsp1 := v, active := some H, queued := some H }
          (some H) := by
  unfold vsp1_dl_list_commit
  simp only [hm, if_true, hfill, hcc]
  by_cases hq : d2.vsp1.ths_quirks &&& d2.vsp1.regs.VSP1_UNDERRUN_WORKAROUND = 0
  · refine ⟨vsp1_write d2.vsp1 (d2.vsp1.regs.VI6_DL_HDR_ADDR d2.index) (d2.lists H).dma,
      rfl, rfl, ?_⟩
    simp [vsp1_write, hq]
  · refine ⟨{ vsp1_write d2.vsp1 (d2.vsp1.regs.VI6_DL_HDR_ADDR d2.index) (d2.lists H).dma with
        dl_addr := (d2.lists H).dma }, rfl, rfl, ?_⟩
    simp [vsp1_write, hq]

theorem only_entries_differ_fields {d e : vsp1_dl_manager} {s : List Nat}
    (h : only_entries_differ d e s) :
    e.mode = d.mode ∧ e.free = d.free ∧ e.active = d.active ∧ e.queued = d.queued ∧
      e.pending = d.pending ∧ e.vsp1 = d.vsp1 ∧ e.index = d.index ∧
      e.gc_fragments = d.gc_fragments := by
  have h1 := congrArg vsp1_dl_manager.mode h.1
  have h2 := congrArg vsp1_dl_manager.free h.1
  have h3 := congrArg vsp1_dl_manager.active h.1
  have h4 := congrArg vsp1_dl_manager.queued h.1
  have h5 := congrArg vsp1_dl_manager.pending h.1
  have h6 := congrArg vsp1_dl_manager.vsp1 h.1
  have h7 := congrArg vsp1_dl_manager.index h.1
  have h8 := congrArg vsp1_dl_manager.gc_fragments h.1
  exact ⟨h1, h2, h3, h4, h5, h6, h7, h8⟩

theorem header_words_put_tail (l : vsp1_dl_list) :
    header_flags { l with
        has_chain := false, fragments := []
        body0 := { l.body0 with num_entries := 0 } } = header_flags l ∧
    header_next_header { l with
        has_chain := false, fragments := []
        body0 := { l.body0 with num_entries := 0 } } = header_next_header l :=
  ⟨rfl, rfl⟩

theorem commit_header_chain (fuel : Nat) (d : vsp1_dl_manager) (H c : Nat) (cs : List Nat)
    (lif_index : Nat)
    (hm : d.mode = vsp1_dl_mode.VSP1_DL_MODE_HEADER)
    (hring : chain_children d H H (c :: cs) = true)
    (hnd : (H :: c :: cs).Nodup)
    (hlay : ∀ x ∈ H :: c :: cs, header_layout (d.lists x) = true)
    (hdev : fill_header_returns_early d.vsp1 = false)
    (hkids : ∀ x ∈ c :: cs, (d.lists x).has_chain = false)
    (hmark : (d.lists H).has_chain = true) :
    ∃ e, vsp1_dl_list_commit (fuel + (c :: cs).length + 2) d H lif_index = some e ∧
      chain_headers e (H :: c :: cs) = true ∧
      e.active = some H ∧ e.queued = some H ∧ e.pending = d.pending ∧ e.mode = d.mode ∧
      e.index = d.index ∧ e.vsp1.regs = d.vsp1.regs ∧
      e.free = d.free ++ (c :: cs) ++ [H] ∧
      (∀ x, (e.lists x).dma = (d.lists x).dma) := by
  have hring0 := hring
  simp only [chain_children, Bool.and_eq_true, beq_iff_eq] at hring
  obtain ⟨hnext, hrest⟩ := hring
  obtain ⟨hH, hnd1⟩ := List.nodup_cons.1 hnd
  have hcH : c ≠ H := fun e => hH (e ▸ List.mem_cons_self _ _)
  have hempty : list_empty_chain d H = false := by
    simp [list_empty_chain, hnext, hcH]
  obtain ⟨h, hh, _⟩ := (header_layout_iff _).1 (hlay H (List.mem_cons_self _ _))
  -- the header of the head
  obtain ⟨m, hfill, hflags, hnh⟩ := fill_header_chained d H lif_index h c hh hdev hnext hcH
  obtain ⟨d1, hd1⟩ : ∃ d1, d1 = set_list d H
      { d.lists H with body0 := { (d.lists H).body0 with entries := m } } := ⟨_, rfl⟩
  rw [← hd1, ← hempty] at hfill
  have hframe1 : only_entries_differ d d1 [H] := by
    rw [hd1]
    exact only_entries_differ_set d H m
  have hchain1 : ∀ x, (d1.lists x).chain = (d.lists x).chain := fun x =>
    (same_but_entries_fields (hframe1.2.1 x)).2.2.2.1
  have hother1 : ∀ x, x ≠ H → d1.lists x = d.lists x := fun x hx =>
    hframe1.2.2 x (fun hmem => hx (List.mem_singleton.1 hmem))
  -- the headers of the chained lists
  obtain ⟨d2, hcc, hframe2, hheaders⟩ := commit_chain_headers H lif_index cs (fuel + 1) d1 c
    (by rw [chain_children_congr d d1 H hchain1]; exact hrest) hnd
    (by
      intro x hx
      have hxH : x ≠ H := fun e => hH (e ▸ hx)
      rw [hother1 x hxH]
      exact hlay x (List.mem_cons_of_mem _ hx))
    (by rw [(only_entries_differ_fields hframe1).2.2.2.2.2.1]; exact hdev)
  have hF : fuel + 1 + cs.length + 2 = fuel + (c :: cs).length + 2 := by
    simp only [List.length_cons]
    omega
  rw [hF] at hcc
  have hcc1 : vsp1_dl_list_commit_chain (fuel + (c :: cs).length + 2) d1 H
      (d1.lists H).chain.next lif_index = some d2 := by
    rw [hchain1 H, hnext]
    exact hcc
  have hframe : only_entries_differ d d2 (H :: c :: cs) :=
    only_entries_differ_trans hframe1 hframe2
      (fun x hx => by rw [List.mem_singleton.1 hx]; exact List.mem_cons_self _ _)
      (fun x hx => List.mem_cons_of_mem _ hx)
  obtain ⟨f1, f2, f3, f4, f5, f6, f7, f8⟩ := only_entries_differ_fields hframe
  have hfld : ∀ x, _ := fun x => same_but_entries_fields (hframe.2.1 x)
  -- the release of the committed list
  obtain ⟨v, hvinfo, hvregs, hcommit⟩ := commit_header_put _ d d1 d2 H lif_index hm hfill hcc1
  obtain ⟨d3, hd3⟩ : ∃ d3, d3 =
      { d2 with vsp1 := v, active := some H, queued := some H } := ⟨_, rfl⟩
  rw [← hd3] at hcommit
  have hl3 : d3.lists = d2.lists := by rw [hd3]
  have hput := put_chain_eq fuel d3 H (c :: cs)
    (by
      rw [chain_children_congr d d3 H (fun x => by rw [hl3]; exact (hfld x).2.2.2.1)]
      exact hring0)
    hnd
    (by
      intro x hx
      rw [hl3, (hfld x).2.2.2.2.1]
      exact hkids x hx)
    (by
      intro _
      rw [hl3, (hfld H).2.2.2.2.1]
      exact hmark)
  rw [hput] at hcommit
  obtain ⟨p1, p2, p3, p4, p5⟩ := put_tail_all_spec (c :: cs) d3 hnd1
  have hframe3 := put_frame_trans p5 (put_frame_tail (vsp1_dl_list_put_tail_all d3 (c :: cs)) H)
  obtain ⟨e, he⟩ : ∃ e, e =
      vsp1_dl_list_put_tail (vsp1_dl_list_put_tail_all d3 (c :: cs)) H := ⟨_, rfl⟩
  rw [← he] at hcommit hframe3
  have helists : ∀ x ∈ H :: c :: cs, e.lists x =
      { d2.lists x with
        has_chain := false, fragments := []
        body0 := { (d2.lists x).body0 with num_entries := 0 } } := by
    intro x hx
    rw [he, ← hl3]
    rcases List.mem_cons.1 hx with e1 | hmem
    · subst e1
      rw [put_tail_lists_self, p3 x hH]
    · have hxH : x ≠ H := fun e1 => hH (e1 ▸ hmem)
      rw [put_tail_lists_other _ _ _ hxH, p4 x hmem]
  have hedma : ∀ x, (e.lists x).dma = (d2.lists x).dma := by
    intro x
    by_cases hx : x ∈ H :: c :: cs
    · rw [helists x hx]
    · have hxH : x ≠ H := fun e1 => hx (e1 ▸ List.mem_cons_self _ _)
      rw [he, put_tail_lists_other _ _ _ hxH,
        p3 x (fun hmem => hx (List.mem_cons_of_mem _ hmem)), hl3]
  obtain ⟨g1, g2, g3, g4, g5, g6⟩ := hframe3
  refine ⟨e, hcommit, ?_, ?_, ?_, ?_, ?_, ?_, ?_, ?_, ?_⟩
  · rw [chain_headers_congr d2 e (by rw [g4, hd3]; exact hvinfo) (H :: c :: cs)
      (by
        intro x hx
        rw [helists x hx]
        exact ⟨(header_words_put_tail _).1, (header_words_put_tail _).2, rfl⟩)]
    have hd2H : d2.lists H = d1.lists H := hframe2.2.2 H hH
    have hfl := header_flags_set (d.lists H) m h hh
    have hdma : (d2.lists c).dma = (d.lists c).dma := (hfld c).2.2.1
    simp only [chain_headers, Bool.and_eq_true, beq_iff_eq]
    refine ⟨⟨?_, ?_⟩, hheaders⟩
    · rw [hd2H, hd1, set_list_lists_self, hfl.1, hflags]
    · rw [hd2H, hd1, set_list_lists_self, hfl.2, hnh, hdma]
  · rw [g1, hd3]
  · rw [g2, hd3]
  · rw [g3, hd3]
    exact f5
  · rw [g5, hd3]
    exact f1
  · rw [g6, hd3]
    exact f7
  · rw [g4, hd3]
    show v.regs = _
    rw [hvregs, f6]
  · rw [he, put_tail_free, p1, hd3]
    show d2.free ++ (c :: cs) ++ [H] = _
    rw [f2]
  · intro x
    rw [hedma x, (hfld x).2.2.1]

theorem frame_end_header_promotes (fuel : Nat) (dlm : vsp1_dl_manager) (interlaced : Bool)
    (q : Nat) (hmode : dlm.mode = vsp1_dl_mode.VSP1_DL_MODE_HEADER)
    (hupd : vsp1_read dlm.vsp1 (dlm.vsp1.regs.VI6_CMD dlm.index) &&&
      dlm.vsp1.regs.VI6_CMD_UPDHDR = 0)
    (hfld : interlaced = true →
      vsp1_read dlm.vsp1 dlm.vsp1.regs.VI6_STATUS &&&
        dlm.vsp1.regs.VI6_STATUS_FLD_STD dlm.index =
          dlm.vsp1.regs.VI6_STATUS_FLD_STD dlm.index)
    (hq : dlm.queued = some q) :
    vsp1_dlm_irq_frame_end fuel dlm interlaced =
      some (true, { dlm with active := some q, queued := none }) := by
  cases interlaced with
  | false => simp [vsp1_dlm_irq_frame_end, hmode, hupd, hq]
  | true => simp [vsp1_dlm_irq_frame_end, hmode, hupd, hq, hfld rfl]

/-- C17 (amended): header-mode commit of a head `H` with chained lists
`kids = C1 .. Cn`, `n ≥ 1`, linked in this order, on a device where
`vsp1_dl_list_fill_header` does not return early.  The commit returns; every
list of `H, C1, .., C(n-1)` then has flags exactly `VSP1_DLH_AUTO_START` (which
has no `VSP1_DLH_INT_ENABLE` bit) and the 32-bit header address of its successor
in `next_header`; the flags of `Cn` contain `VSP1_DLH_INT_ENABLE`; `H` is active
and queued.  A following frame end with `VI6_CMD_UPDHDR` clear and, for an
interlaced output, with the field status bit matching, returns true and leaves
`H` active and queued empty. -/
theorem commit_chain_flags (fuel fuel2 : Nat) (d : vsp1_dl_manager) (H : Nat)
    (kids : List Nat) (lif_index : Nat)
    (hm : d.mode = vsp1_dl_mode.VSP1_DL_MODE_HEADER)
    (hne : kids ≠ [])
    (hring : chain_children d H H kids = true)
    (hnd : (H :: kids).Nodup)
    (hlay : ∀ x ∈ H :: kids, header_layout (d.lists x) = true)
    (hdev : fill_header_returns_early d.vsp1 = false)
    (hkids : ∀ x ∈ kids, (d.lists x).has_chain = false)
    (hmark : (d.lists H).has_chain = true) :
    ∃ e, vsp1_dl_list_commit (fuel + kids.length + 2) d H lif_index = some e ∧
      (∀ i x y, (H :: kids)[i]? = some x → (H :: kids)[i + 1]? = some y →
        header_flags (e.lists x) = some VSP1_DLH_AUTO_START ∧
        VSP1_DLH_AUTO_START &&& VSP1_DLH_INT_ENABLE = 0 ∧
        header_next_header (e.lists x) = some (u32 (e.lists y).dma)) ∧
      (∀ x, kids.getLast? = some x →
        header_flags (e.lists x) = some (last_header_flags e.vsp1) ∧
        last_header_flags e.vsp1 &&& VSP1_DLH_INT_ENABLE ≠ 0) ∧
      e.active = some H ∧ e.queued = some H ∧
      ∀ (mmio : Nat → Nat) (interlaced : Bool) (s : vsp1_dl_manager), s = set_mmio e mmio →
        vsp1_read s.vsp1 (s.vsp1.regs.VI6_CMD s.index) &&& s.vsp1.regs.VI6_CMD_UPDHDR = 0 →
        (interlaced = true →
          vsp1_read s.vsp1 s.vsp1.regs.VI6_STATUS &&& s.vsp1.regs.VI6_STATUS_FLD_STD s.index =
            s.vsp1.regs.VI6_STATUS_FLD_STD s.index) →
        vsp1_dlm_irq_frame_end fuel2 s interlaced =
          some (true, { s with active := some H, queued := none }) := by
  cases kids with
  | nil => exact absurd rfl hne
  | cons c cs =>
    obtain ⟨e, he, hhead, ha, hq, _, hmode, _, _, _, _⟩ :=
      commit_header_chain fuel d H c cs lif_index hm hring hnd hlay hdev hkids hmark
    obtain ⟨i1, i2⟩ := chain_headers_index e (H :: c :: cs) hhead
    refine ⟨e, he, ?_, ?_, ha, hq, ?_⟩
    · intro i x y hx hy
      obtain ⟨k1, k2⟩ := i1 i x y hx hy
      exact ⟨k1, (last_header_flags_int e.vsp1).2, k2⟩
    · intro x hx
      refine ⟨i2 x ?_, (last_header_flags_int e.vsp1).1⟩
      rw [List.getLast?_cons_cons]
      exact hx
    · intro mmio interlaced s hs hupd hfld
      refine frame_end_header_promotes fuel2 s interlaced H ?_ hupd hfld ?_
      · rw [hs]
        exact hmode.trans hm
      · rw [hs]
        exact hq

/-- Witness of C17 (amended): the header-mode example with list 1 chained to
list 0; after the commit list 0 has flags 1 and the header address of list 1,
list 1 has flags 3, and a frame end of a progressive output with an idle
status promotes list 0. -/
theorem commit_chain_flags_witness :
    ex_chain_2.mode = vsp1_dl_mode.VSP1_DL_MODE_HEADER ∧
    chain_children ex_chain_2 0 0 [1] = true ∧
    (ex_chain_2.lists 0).has_chain = true ∧
    ∃ e, vsp1_dl_list_commit 3 ex_chain_2 0 0 = some e ∧
      header_flags (e.lists 0) = some 1 ∧
      header_next_header (e.lists 0) = some (u32 (e.lists 1).dma) ∧
      header_flags (e.lists 1) = some (last_header_flags e.vsp1) ∧
      vsp1_dlm_irq_frame_end 0 (set_mmio e ex_mmio_idle) false =
        some (true, { set_mmio e ex_mmio_idle with active := some 0, queued := none }) := by
  have hlay : ∀ x ∈ [0, 1], header_layout (ex_chain_2.lists x) = true := by
    intro x hx
    simp only [List.mem_cons, List.mem_singleton, List.not_mem_nil, or_false] at hx
    rcases hx with h | h <;> subst h <;> rfl
  have hkids : ∀ x ∈ [1], (ex_chain_2.lists x).has_chain = false := by
    intro x hx
    rw [List.mem_singleton] at hx
    subst hx
    rfl
  obtain ⟨e, h1, h2, h3, _, _, h6⟩ :=
    commit_chain_flags 0 0 ex_chain_2 0 [1] 0 rfl (by decide) (by decide) (by decide) hlay rfl
      hkids rfl
  obtain ⟨k1, _, k3⟩ := h2 0 0 1 rfl rfl
  refine ⟨rfl, by decide, rfl, e, h1, k1, k3, (h3 1 rfl).1, ?_⟩
  refine h6 ex_mmio_idle false _ rfl ?_ ?_
  · exact Nat.zero_and _
  · intro h
    cases h

/-- Counterexample to C17 as stated: after the chain of lists 0 and 1 of the
header-mode example was committed, a frame end of an interlaced output finds
`VI6_CMD_UPDHDR` clear but the field status bit not matching; it returns false,
active is empty and list 0 stays queued.  With the field bit set the same call
returns true and list 0 is active. -/
theorem chain_frame_end_interlaced_defers :
    vsp1_dl_list_commit 3 (set_mmio ex_chain_2 ex_mmio_idle) 0 0 = some ex_chain_3 ∧
    header_flags (ex_chain_3.lists 0) = some 1 ∧
    header_flags (ex_chain_3.lists 1) = some 3 ∧
    ex_chain_3.active = some 0 ∧ ex_chain_3.queued = some 0 ∧
    vsp1_read (set_mmio ex_chain_3 ex_mmio_idle).vsp1 (ex_regs.VI6_CMD 0) &&&
      ex_regs.VI6_CMD_UPDHDR = 0 ∧
    (vsp1_dlm_irq_frame_end 1 (set_mmio ex_chain_3 ex_mmio_idle) true).map
      (fun r => (r.1, r.2.active, r.2.queued)) = some (false, none, some 0) ∧
    (vsp1_dlm_irq_frame_end 1 (set_mmio ex_chain_3 ex_mmio_field) true).map
      (fun r => (r.1, r.2.active, r.2.queued)) = some (true, some 0, none) := by
  refine ⟨(Option.some_get _).symm, by decide, by decide, rfl, rfl, by decide, by decide,
    by decide⟩

/-! ## Building a chain with `vsp1_dl_list_add_chain` -/

theorem chain_ring_children (d : vsp1_dl_manager) (head : Nat) :
    ∀ (kids : List Nat) (n : Nat), chain_ring d head n kids = true →
      chain_children d head n kids = true := by
  intro kids
  induction kids with
  | nil =>
    intro n h
    simp only [chain_ring, Bool.and_eq_true, beq_iff_eq] at h
    simp [chain_children, h.1]
  | cons c cs ih =>
    intro n h
    simp only [chain_ring, Bool.and_eq_true, beq_iff_eq] at h
    simp [chain_children, h.1.1, ih c h.2]

theorem chain_ring_last (d : vsp1_dl_manager) (head : Nat) :
    ∀ (kids : List Nat) (n : Nat), chain_ring d head n kids = true →
      (d.lists head).chain.prev = (n :: kids).getLast? := by
  intro kids
  induction kids with
  | nil =>
    intro n h
    simp only [chain_ring, Bool.and_eq_true, beq_iff_eq] at h
    simp [h.2]
  | cons c cs ih =>
    intro n h
    simp only [chain_ring, Bool.and_eq_true, beq_iff_eq] at h
    rw [List.getLast?_cons_cons]
    exact ih c h.2

theorem list_add_tail_chain_ptrs (d : vsp1_dl_manager) (dl head prev : Nat)
    (hp : (d.lists head).chain.prev = some prev) (h1 : dl ≠ head) (h2 : dl ≠ prev) :
    ∃ e, list_add_tail_chain d dl head = some e ∧
      ∀ x, (e.lists x).chain.next =
          (if x = prev then some dl else if x = dl then some head
            else (d.lists x).chain.next) ∧
        (e.lists x).chain.prev =
          (if x = dl then some prev else if x = head then some dl
            else (d.lists x).chain.prev) := by
  unfold list_add_tail_chain
  simp only [hp]
  refine ⟨_, rfl, ?_⟩
  intro x
  by_cases hx1 : x = prev
  · subst hx1
    by_cases hx2 : x = head
    · subst hx2
      simp [set_list, Function.update, h1, Ne.symm h1]
    · simp [set_list, Function.update, h1, Ne.symm h1, h2, Ne.symm h2, hx2]
  · by_cases hx2 : x = dl
    · subst hx2
      simp [set_list, Function.update, h1, h2]
    · by_cases hx3 : x = head
      · subst hx3
        simp [set_list, Function.update, hx1, hx2, Ne.symm hx2]
      · simp [set_list, Function.update, hx1, hx2, hx3]

theorem chain_ring_add (d e : vsp1_dl_manager) (H c t : Nat)
    (ht : (d.lists H).chain.prev = some t) (hcH : c ≠ H)
    (hptr : ∀ x, (e.lists x).chain.next =
          (if x = t then some c else if x = c then some H else (d.lists x).chain.next) ∧
        (e.lists x).chain.prev =
          (if x = c then some t else if x = H then some c else (d.lists x).chain.prev)) :
    ∀ (kids : List Nat) (n : Nat), chain_ring d H n kids = true → n ≠ c →
      (∀ z ∈ kids, n ≠ z) → kids.Nodup → c ∉ kids → H ∉ kids →
      chain_ring e H n (kids ++ [c]) = true := by
  intro kids
  induction kids with
  | nil =>
    intro n h hnc _ _ _ _
    simp only [chain_ring, Bool.and_eq_true, beq_iff_eq] at h
    have htn : t = n := by
      have := ht.symm.trans h.2
      exact Option.some.inj this
    subst htn
    simp only [List.nil_append, chain_ring, Bool.and_eq_true, beq_iff_eq]
    refine ⟨⟨?_, ?_⟩, ?_, ?_⟩
    · rw [(hptr t).1, if_pos rfl]
    · rw [(hptr c).2, if_pos rfl]
    · rw [(hptr c).1, if_neg (Ne.symm hnc), if_pos rfl]
    · rw [(hptr H).2, if_neg (Ne.symm hcH), if_pos rfl]
  | cons y ys ih =>
    intro n h hnc hn hnd hc hH
    have hlast := chain_ring_last d H (y :: ys) n h
    simp only [chain_ring, Bool.and_eq_true, beq_iff_eq] at h
    obtain ⟨⟨k1, k2⟩, k3⟩ := h
    rw [List.getLast?_cons_cons] at hlast
    have htmem : t ∈ y :: ys := by
      apply List.mem_of_mem_getLast?
      rw [← hlast, ht]
      rfl
    have hnt : n ≠ t := hn t htmem
    have hyc : y ≠ c := fun e1 => hc (e1 ▸ List.mem_cons_self _ _)
    have hyH : y ≠ H := fun e1 => hH (e1 ▸ List.mem_cons_self _ _)
    obtain ⟨hy, hnd1⟩ := List.nodup_cons.1 hnd
    show chain_ring e H n (y :: (ys ++ [c])) = true
    simp only [chain_ring, Bool.and_eq_true, beq_iff_eq]
    refine ⟨⟨?_, ?_⟩, ?_⟩
    · rw [(hptr n).1, if_neg hnt, if_neg hnc, k1]
    · rw [(hptr y).2, if_neg hyc, if_neg hyH, k2]
    · exact ih y k3 hyc (fun z hz e1 => hy (e1 ▸ hz)) hnd1
        (fun hm => hc (List.mem_cons_of_mem _ hm)) (fun hm => hH (List.mem_cons_of_mem _ hm))

theorem add_chain_ring (d : vsp1_dl_manager) (H c : Nat) (kids : List Nat)
    (hm : d.mode = vsp1_dl_mode.VSP1_DL_MODE_HEADER)
    (hring : chain_ring d H H kids = true) (hnd : (H :: kids).Nodup)
    (hc : c ∉ H :: kids) :
    ∃ e, vsp1_dl_list_add_chain d H c = some (0, e) ∧
      chain_ring e H H (kids ++ [c]) = true ∧ (e.lists H).has_chain = true ∧
      (∀ x, x ≠ H → (e.lists x).has_chain = (d.lists x).has_chain) ∧
      (∀ x, (e.lists x).header = (d.lists x).header ∧
        (e.lists x).ext_body = (d.lists x).ext_body ∧ (e.lists x).dma = (d.lists x).dma ∧
        (e.lists x).body0 = (d.lists x).body0 ∧
        (e.lists x).fragments = (d.lists x).fragments) ∧
      e.mode = d.mode ∧ e.vsp1 = d.vsp1 ∧ e.free = d.free ∧ e.active = d.active ∧
      e.queued = d.queued ∧ e.pending = d.pending := by
  obtain ⟨hH, hkn⟩ := List.nodup_cons.1 hnd
  have hcH : c ≠ H := fun e1 => hc (e1 ▸ List.mem_cons_self _ _)
  have hck : c ∉ kids := fun hmem => hc (List.mem_cons_of_mem _ hmem)
  obtain ⟨d1, hd1⟩ : ∃ d1, d1 = set_list d H { d.lists H with has_chain := true } :=
    ⟨_, rfl⟩
  have hchain1 : ∀ x, (d1.lists x).chain = (d.lists x).chain := by
    intro x
    rw [hd1]
    by_cases hx : x = H
    · subst hx
      rw [set_list_lists_self]
    · rw [set_list_lists_other _ _ _ _ hx]
  have hring1 : ∀ (l : List Nat) (n : Nat), chain_ring d1 H n l = chain_ring d H n l := by
    intro l
    induction l with
    | nil => intro n; simp [chain_ring, hchain1]
    | cons y ys ih => intro n; simp [chain_ring, hchain1, ih]
  have hlast := chain_ring_last d H kids H hring
  obtain ⟨t, htl⟩ : ∃ t, (H :: kids).getLast? = some t := by
    cases hg : (H :: kids).getLast? with
    | none => simp at hg
    | some t => exact ⟨t, rfl⟩
  have ht : (d1.lists H).chain.prev = some t := by
    rw [hchain1, hlast, htl]
  have hct : c ≠ t := by
    intro e1
    apply hc
    rw [e1]
    apply List.mem_of_mem_getLast?
    rw [htl]
    rfl
  obtain ⟨e, hadd, hptr⟩ := list_add_tail_chain_ptrs d1 c H t ht hcH hct
  obtain ⟨s1, s2, s3, s4, s5, s6, s7, _, _⟩ := list_add_tail_chain_same d1 e c H hadd
  have hd1lists : ∀ x, x ≠ H → d1.lists x = d.lists x := by
    intro x hx
    rw [hd1, set_list_lists_other _ _ _ _ hx]
  refine ⟨e, ?_, ?_, ?_, ?_, ?_, ?_, ?_, ?_, ?_, ?_, ?_⟩
  · unfold vsp1_dl_list_add_chain
    simp only [hm, ne_eq, not_true_eq_false, if_false, ← hd1, hadd]
  · exact chain_ring_add d1 e H c t ht hcH hptr kids H (by rw [hring1]; exact hring)
      (Ne.symm hcH) (fun z hz e1 => hH (e1 ▸ hz)) hkn hck hH
  · obtain ⟨_, _, _, _, _, _, _, _, a9⟩ := s1 H
    rw [a9, hd1, set_list_lists_self]
  · intro x hx
    obtain ⟨_, _, _, _, _, _, _, _, a9⟩ := s1 x
    rw [a9, hd1lists x hx]
  · intro x
    obtain ⟨a1, a2, a3, _, _, _, a7, a8, _⟩ := s1 x
    rw [a1, a2, a3, a7, a8]
    by_cases hx : x = H
    · subst hx
      rw [hd1, set_list_lists_self]
      exact ⟨rfl, rfl, rfl, rfl, rfl⟩
    · rw [hd1lists x hx]
      exact ⟨rfl, rfl, rfl, rfl, rfl⟩
  · rw [s6, hd1]
    rfl
  · rw [s7, hd1]
    rfl
  · rw [s2, hd1]
    rfl
  · rw [s3, hd1]
    rfl
  · rw [s4, hd1]
    rfl
  · rw [s5, hd1]
    rfl

theorem get_chain_ring (d0 d : vsp1_dl_manager) (dl : Nat)
    (hget : vsp1_dl_list_get d0 = (some dl, d)) :
    chain_ring d dl dl [] = true ∧ (d.lists dl).has_chain = (d0.lists dl).has_chain := by
  have h := get_some_list d0 d dl hget
  simp [chain_ring, h]

/-! ## The garbage collector -/

theorem fragments_free_step (n : Nat) (d : vsp1_dl_manager) (freed : List vsp1_dl_body)
    (rounds : Nat) (b : vsp1_dl_body) (rest : List vsp1_dl_body)
    (h : d.gc_fragments = b :: rest) :
    vsp1_dlm_fragments_free (n + 1) d freed rounds =
      vsp1_dlm_fragments_free n { d with gc_fragments := rest } (freed ++ [b])
        (rounds + 1) := by
  conv_lhs => unfold vsp1_dlm_fragments_free
  simp only [h]
  rfl

theorem fragments_free_spec :
    ∀ (q : List vsp1_dl_body) (fuel : Nat) (d : vsp1_dl_manager) (freed : List vsp1_dl_body)
      (rounds : Nat), d.gc_fragments = q →
      vsp1_dlm_fragments_free (fuel + q.length + 1) d freed rounds =
        some ({ d with gc_fragments := [] }, freed ++ q, rounds + q.length) := by
  intro q
  induction q with
  | nil =>
    intro fuel d freed rounds h
    simp only [List.length_nil, Nat.add_zero, vsp1_dlm_fragments_free, h, List.append_nil]
    rw [← h]
  | cons b rest ih =>
    intro fuel d freed rounds h
    have hf : fuel + (b :: rest).length + 1 = (fuel + rest.length + 1) + 1 := by
      simp only [List.length_cons]
      omega
    rw [hf, fragments_free_step _ d freed rounds b rest h,
      ih fuel { d with gc_fragments := rest } (freed ++ [b]) (rounds + 1) rfl]
    simp [Nat.add_assoc, Nat.add_comm 1]

theorem fragments_free_fuel_short :
    ∀ (q : List vsp1_dl_body) (fuel : Nat) (d : vsp1_dl_manager) (freed : List vsp1_dl_body)
      (rounds : Nat), d.gc_fragments = q → fuel ≤ q.length →
      vsp1_dlm_fragments_free fuel d freed rounds = none := by
  intro q
  induction q with
  | nil =>
    intro fuel d freed rounds _ hf
    have : fuel = 0 := by simpa using hf
    subst this
    rfl
  | cons b rest ih =>
    intro fuel d freed rounds h hf
    cases fuel with
    | zero => rfl
    | succ n =>
      rw [fragments_free_step n d freed rounds b rest h]
      exact ih n _ _ _ rfl (by simpa using hf)

/-- C24: a run of `vsp1_dlm_fragments_free` on a retirement queue of `n`
bodies, nothing being added during the run, returns after `n` rounds of the
loop (`n + 1` loop tests are enough fuel and `n` are not); it releases the
bodies of the queue in queue order, each once and one per round, and leaves
the queue empty; the free pool, the three slots and every other part of the
manager are unchanged. -/
theorem fragments_free_drains_queue (fuel : Nat) (d : vsp1_dl_manager) :
    (∃ e freed rounds,
      vsp1_dlm_fragments_free (fuel + d.gc_fragments.length + 1) d [] 0 =
        some (e, freed, rounds) ∧
      freed = d.gc_fragments ∧ rounds = d.gc_fragments.length ∧
      freed.length = rounds ∧ e.gc_fragments = [] ∧
      e.free = d.free ∧ e.active = d.active ∧ e.queued = d.queued ∧
      e.pending = d.pending ∧ e.lists = d.lists ∧ e.vsp1 = d.vsp1 ∧ e.mode = d.mode ∧
      e = { d with gc_fragments := [] }) ∧
    vsp1_dlm_fragments_free d.gc_fragments.length d [] 0 = none ∧
    vsp1_dlm_garbage_collect (fuel + d.gc_fragments.length + 1) d =
      vsp1_dlm_fragments_free (fuel + d.gc_fragments.length + 1) d [] 0 := by
  refine ⟨⟨{ d with gc_fragments := [] }, d.gc_fragments, d.gc_fragments.length, ?_, rfl, rfl,
    rfl, rfl, rfl, rfl, rfl, rfl, rfl, rfl, rfl, rfl⟩, ?_, rfl⟩
  · have := fragments_free_spec d.gc_fragments fuel d [] 0 rfl
    simpa using this
  · exact fragments_free_fuel_short d.gc_fragments _ d [] 0 rfl (Nat.le_refl _)

/-! ## The address table and the size of the allocation -/

/-- C26: the layout of a header-mode list as `vsp1_dl_list_alloc` sets it up.
The requested allocation is `256 * 8 + ALIGN(96, 8) + 2 * 0x1000 = 10336`
bytes; body, header, extended body and address table start at 0, 2048, 6144
and 10240 and are pairwise disjoint.  The six address-table slots
`8 * p .. 8 * p + 5` end within the allocation for the ports `p ≤ 2` only: for
every port `p ≥ 3` each of them starts at or behind the end of the allocation,
and `vsp1_dl_set_addr_auto_fld` for port 3 stores its first address at byte
offset 10336 of a buffer of 10336 bytes. -/
theorem addr_table_exceeds_allocation (buf : dma_buffer) :
    dma_alloc_wc_size (vsp1_dl_list_alloc vsp1_dl_mode.VSP1_DL_MODE_HEADER buf).body0 =
      VSP1_DL_NUM_ENTRIES * sizeof_vsp1_dl_entry + ALIGN sizeof_vsp1_dl_header 8 +
        2 * VSP1_DL_EXT_OFFSET ∧
    dma_alloc_wc_size (vsp1_dl_list_alloc vsp1_dl_mode.VSP1_DL_MODE_HEADER buf).body0 = 10336 ∧
    (vsp1_dl_list_alloc vsp1_dl_mode.VSP1_DL_MODE_HEADER buf).header = some 2048 ∧
    (vsp1_dl_list_alloc vsp1_dl_mode.VSP1_DL_MODE_HEADER buf).ext_body = some 6144 ∧
    (vsp1_dl_list_alloc vsp1_dl_mode.VSP1_DL_MODE_HEADER buf).src_dst_addr = some 10240 ∧
    VSP1_DL_NUM_ENTRIES * sizeof_vsp1_dl_entry ≤ 2048 ∧
    2048 + sizeof_vsp1_dl_header ≤ 6144 ∧
    6144 + sizeof_vsp1_ext_dl_body ≤ 10240 ∧
    (∀ p k, p ≤ 2 → k ≤ 5 →
      10240 + sizeof_vsp1_ext_addr * (8 * p + k) + sizeof_vsp1_ext_addr ≤ 10336) ∧
    (∀ p k, 3 ≤ p → 10336 ≤ 10240 + sizeof_vsp1_ext_addr * (8 * p + k)) ∧
    dma_alloc_wc_size (ex_header_1.lists 0).body0 = 10336 ∧
    (ex_header_1.lists 0).body0.entries 10336 = 0 ∧
    (vsp1_dl_set_addr_auto_fld ex_header_1 0 ex_rpf_3).map
      (fun d => (List.range 6).map
        (fun k => (d.lists 0).body0.entries (10336 + 4 * k))) =
      some [0x1000100, 0x1000170, 0x3000200, 0x3000238, 0x2000200, 0x2000238] := by
  refine ⟨rfl, rfl, rfl, rfl, rfl, by decide, by decide, by decide, ?_, ?_, rfl, rfl, by decide⟩
  · intro p k hp hk
    unfold sizeof_vsp1_ext_addr
    omega
  · intro p k hp
    unfold sizeof_vsp1_ext_addr
    omega

/-! ## The header written by `vsp1_dl_list_fill_header` -/

theorem fill_header_fragments_spec :
    ∀ (frags : List vsp1_dl_body) (m : Nat → Nat) (n hdr : Nat),
      (fill_header_fragments frags (m, n, hdr)).2.2 = hdr + 8 * frags.length ∧
      (n + frags.length < 2 ^ 32 →
        (fill_header_fragments frags (m, n, hdr)).2.1 = n + frags.length) ∧
      (∀ i F, frags[i]? = some F →
        (fill_header_fragments frags (m, n, hdr)).1 (hdr + 8 * (i + 1)) =
          u32 (F.num_entries * 8) ∧
        (fill_header_fragments frags (m, n, hdr)).1 (hdr + 8 * (i + 1) + 4) = u32 F.dma) ∧
      (∀ a, a < hdr + 8 ∨ hdr + 8 * (frags.length + 1) ≤ a →
        (fill_header_fragments frags (m, n, hdr)).1 a = m a) := by
  intro frags
  induction frags with
  | nil =>
    intro m n hdr
    refine ⟨rfl, fun _ => rfl, ?_, fun _ _ => rfl⟩
    intro i F h
    simp at h
  | cons F rest ih =>
    intro m n hdr
    have hunf : fill_header_fragments (F :: rest) (m, n, hdr) =
        fill_header_fragments rest
          (store32 (store32 m (hdr + 8 + 4) F.dma) (hdr + 8) (F.num_entries * 8),
            u32 (n + 1), hdr + 8) := rfl
    rw [hunf]
    obtain ⟨h1, h2, h3, h4⟩ := ih
      (store32 (store32 m (hdr + 8 + 4) F.dma) (hdr + 8) (F.num_entries * 8))
      (u32 (n + 1)) (hdr + 8)
    refine ⟨?_, ?_, ?_, ?_⟩
    · rw [h1, List.length_cons]
      omega
    · intro hlt
      simp only [List.length_cons] at hlt
      have hu : u32 (n + 1) = n + 1 := Nat.mod_eq_of_lt (by omega)
      have h2a := h2 (by rw [hu]; omega)
      rw [h2a, hu, List.length_cons]
      omega
    · intro i G hG
      cases i with
      | zero =>
        simp only [List.getElem?_cons_zero, Option.some.injEq] at hG
        subst hG
        rw [h4 _ (Or.inl (by omega)), h4 _ (Or.inl (by omega))]
        constructor
        · rw [store32_same]
        · rw [store32_other _ _ _ _ (by omega), store32_same]
      | succ j =>
        rw [List.getElem?_cons_succ] at hG
        have := h3 j G hG
        have e1 : hdr + 8 + 8 * (j + 1) = hdr + 8 * (j + 1 + 1) := by omega
        rw [e1] at this
        exact this
    · intro a ha
      simp only [List.length_cons] at ha
      rw [h4 a (by omega), store32_other _ _ _ _ (by omega),
        store32_other _ _ _ _ (by omega)]

set_option maxHeartbeats 2000000 in
theorem fill_header_lists (d : vsp1_dl_manager) (dl lif_index h nx : Nat) (is_last : Bool)
    (hh : (d.lists dl).header = some h)
    (he : (d.lists dl).ext_body = some (h + VSP1_DL_EXT_OFFSET))
    (hnext : (d.lists dl).chain.next = some nx) :
    ∃ m, vsp1_dl_list_fill_header d dl is_last lif_index =
        some (set_list d dl { d.lists dl with
          body0 := { (d.lists dl).body0 with entries := m } }) ∧
      m (h + HDR_NUM_LISTS) = u32 (fill_header_loop (d.lists dl) h).2.1 ∧
      (∀ a, h + 4 ≤ a → a < h + HDR_NEXT_HEADER →
        m a = (fill_header_loop (d.lists dl) h).1 a) ∧
      (fill_header_returns_early d.vsp1 = true → ∀ a, a ≠ h + HDR_NUM_LISTS →
        m a = (fill_header_loop (d.lists dl) h).1 a) := by
  unfold fill_header_returns_early
  unfold vsp1_dl_list_fill_header
  have hloop : fill_header_fragments (d.lists dl).fragments
      (store32 (d.lists dl).body0.entries (h + HDR_LIST_NUM_BYTES 0)
        ((d.lists dl).body0.num_entries * sizeof_vsp1_dl_header_list), 0,
        h + HDR_LIST_NUM_BYTES 0) = fill_header_loop (d.lists dl) h := rfl
  simp only [hh, he, hnext, hloop]
  generalize fill_header_loop (d.lists dl) h = st
  split_ifs <;>
    (refine ⟨_, rfl, ?_, ?_, ?_⟩
     · simp only [HDR_LIST_NUM_BYTES, HDR_NUM_LISTS, HDR_FLAGS, HDR_NEXT_HEADER,
         HDR_PRE_POST_NUM, HDR_PRE_EXT_DL_PLIST, HDR_POST_EXT_DL_NUM_CMD,
         HDR_POST_EXT_DL_P_LIST, EXT_DL_CMD, EXT_DL_DATA, VSP1_DL_EXT_OFFSET]
       simp (disch := omega) only [store32_other, store32_same]
     · intro a ha1 ha2
       simp only [HDR_LIST_NUM_BYTES, HDR_NUM_LISTS, HDR_FLAGS, HDR_NEXT_HEADER,
         HDR_PRE_POST_NUM, HDR_PRE_EXT_DL_PLIST, HDR_POST_EXT_DL_NUM_CMD,
         HDR_POST_EXT_DL_P_LIST, EXT_DL_CMD, EXT_DL_DATA, VSP1_DL_EXT_OFFSET] at ha2 ⊢
       simp (disch := omega) only [store32_other]
     · intro hearly a ha
       first
         | (simp only [HDR_NUM_LISTS] at ha ⊢
            rw [store32_other _ _ _ _ ha])
         | (exfalso
            simp_all))

theorem header_word_set (a : vsp1_dl_list) (m : Nat → Nat) (h off : Nat)
    (hh : a.header = some h) :
    header_word { a with body0 := { a.body0 with entries := m } } off = some (m (h + off)) ∧
    header_word a off = some (a.body0.entries (h + off)) := by
  simp [header_word, hh]

theorem alloc_header_list0_addr (buf : dma_buffer) :
    header_word (vsp1_dl_list_alloc vsp1_dl_mode.VSP1_DL_MODE_HEADER buf) (HDR_LIST_ADDR 0) =
      some (u32 (vsp1_dl_list_alloc vsp1_dl_mode.VSP1_DL_MODE_HEADER buf).body0.dma) ∧
    (vsp1_dl_list_alloc vsp1_dl_mode.VSP1_DL_MODE_HEADER buf).body0.dma = buf.dma := by
  constructor
  · simp [header_word, vsp1_dl_list_alloc, vsp1_dl_list_zero, vsp1_dl_body_init, store32]
  · rfl

/-- C22: for a header-mode list with the layout of `vsp1_dl_list_alloc` and
`k ≤ 7` fragments, `vsp1_dl_list_fill_header` returns, in every device
configuration and for every `is_last`; it does not touch `lists[0].addr` (which
the allocation set to the device address of `body0`), stores the byte length
`8 * num_entries` of `body0` in `lists[0].num_bytes`, stores for the `i`-th
attached fragment its byte length and device address (as 32-bit words) in
`lists[i]`, `1 ≤ i ≤ k`, and `k` in `num_lists`; the last slot the loop writes
is `lists[k]` with `k < 8`, and the slots `lists[j]`, `k < j < 8`, are
unchanged. -/
theorem fill_header_fragment_slots (d : vsp1_dl_manager) (dl lif_index h nx : Nat)
    (is_last : Bool)
    (hh : (d.lists dl).header = some h)
    (he : (d.lists dl).ext_body = some (h + VSP1_DL_EXT_OFFSET))
    (hnext : (d.lists dl).chain.next = some nx)
    (hk : (d.lists dl).fragments.length ≤ 7) :
    ∃ e, vsp1_dl_list_fill_header d dl is_last lif_index = some e ∧
      header_word (e.lists dl) (HDR_LIST_ADDR 0) =
        header_word (d.lists dl) (HDR_LIST_ADDR 0) ∧
      (e.lists dl).body0.dma = (d.lists dl).body0.dma ∧
      header_word (e.lists dl) (HDR_LIST_NUM_BYTES 0) =
        some (u32 ((d.lists dl).body0.num_entries * sizeof_vsp1_dl_header_list)) ∧
      (∀ i F, (d.lists dl).fragments[i]? = some F →
        header_word (e.lists dl) (HDR_LIST_NUM_BYTES (i + 1)) =
          some (u32 (F.num_entries * sizeof_vsp1_dl_header_list)) ∧
        header_word (e.lists dl) (HDR_LIST_ADDR (i + 1)) = some (u32 F.dma)) ∧
      header_word (e.lists dl) HDR_NUM_LISTS = some (d.lists dl).fragments.length ∧
      (fill_header_loop (d.lists dl) h).2.2 =
        h + HDR_LIST_NUM_BYTES (d.lists dl).fragments.length ∧
      (d.lists dl).fragments.length < 8 ∧
      (∀ j, (d.lists dl).fragments.length < j → j < 8 →
        header_word (e.lists dl) (HDR_LIST_NUM_BYTES j) =
          header_word (d.lists dl) (HDR_LIST_NUM_BYTES j) ∧
        header_word (e.lists dl) (HDR_LIST_ADDR j) =
          header_word (d.lists dl) (HDR_LIST_ADDR j)) ∧
      (e.lists dl).fragments = (d.lists dl).fragments ∧
      (∀ x, x < 2 ^ 32 → u32 x = x) := by
  obtain ⟨m, hfill, hm0, hm, _⟩ := fill_header_lists d dl lif_index h nx is_last hh he hnext
  obtain ⟨s1, s2, s3, s4⟩ := fill_header_fragments_spec (d.lists dl).fragments
    (store32 (d.lists dl).body0.entries (h + HDR_LIST_NUM_BYTES 0)
      ((d.lists dl).body0.num_entries * sizeof_vsp1_dl_header_list)) 0
    (h + HDR_LIST_NUM_BYTES 0)
  have hloop : fill_header_fragments (d.lists dl).fragments
      (store32 (d.lists dl).body0.entries (h + HDR_LIST_NUM_BYTES 0)
        ((d.lists dl).body0.num_entries * sizeof_vsp1_dl_header_list), 0,
        h + HDR_LIST_NUM_BYTES 0) = fill_header_loop (d.lists dl) h := rfl
  rw [hloop] at s1 s2 s3 s4
  have hw : ∀ off, header_word
      ((set_list d dl { d.lists dl with
        body0 := { (d.lists dl).body0 with entries := m } }).lists dl) off =
      some (m (h + off)) := by
    intro off
    rw [set_list_lists_self]
    exact (header_word_set _ m h off hh).1
  have hw0 : ∀ off, header_word (d.lists dl) off =
      some ((d.lists dl).body0.entries (h + off)) := fun off =>
    (header_word_set _ m h off hh).2
  unfold HDR_LIST_NUM_BYTES at s1 s3 s4
  unfold HDR_NEXT_HEADER at hm
  refine ⟨_, hfill, ?_, ?_, ?_, ?_, ?_, ?_, ?_, ?_, ?_, ?_⟩
  · rw [hw, hw0]
    unfold HDR_LIST_ADDR
    rw [hm _ (by omega) (by omega), s4 _ (Or.inl (by omega)),
      store32_other _ _ _ _ (by omega)]
  · rw [set_list_lists_self]
  · rw [hw]
    unfold HDR_LIST_NUM_BYTES
    rw [hm _ (by omega) (by omega), s4 _ (Or.inl (by omega)), store32_same]
  · intro i F hF
    have hi : i < (d.lists dl).fragments.length := by
      by_contra hc
      rw [List.getElem?_eq_none (by omega)] at hF
      cases hF
    obtain ⟨t1, t2⟩ := s3 i F hF
    rw [hw, hw]
    unfold HDR_LIST_NUM_BYTES HDR_LIST_ADDR sizeof_vsp1_dl_header_list
    rw [hm _ (by omega) (by omega), hm _ (by omega) (by omega)]
    have e1 : h + (4 + 8 * (i + 1)) = h + (4 + 8 * 0) + 8 * (i + 1) := by omega
    have e2 : h + (8 + 8 * (i + 1)) = h + (4 + 8 * 0) + 8 * (i + 1) + 4 := by omega
    rw [e1, e2, t1, t2]
    exact ⟨rfl, rfl⟩
  · rw [hw, hm0, s2 (by omega)]
    have : u32 (0 + (d.lists dl).fragments.length) = (d.lists dl).fragments.length := by
      rw [Nat.zero_add]
      exact Nat.mod_eq_of_lt (by omega)
    rw [this]
  · rw [s1]
    unfold HDR_LIST_NUM_BYTES
    omega
  · omega
  · intro j hj1 hj2
    rw [hw, hw, hw0, hw0]
    unfold HDR_LIST_NUM_BYTES HDR_LIST_ADDR
    rw [hm _ (by omega) (by omega), hm _ (by omega) (by omega),
      s4 _ (Or.inr (by omega)), s4 _ (Or.inr (by omega)),
      store32_other _ _ _ _ (by omega),
      store32_other _ _ _ _ (by omega)]
    exact ⟨rfl, rfl⟩
  · rw [set_list_lists_self]
  · intro x hx
    exact Nat.mod_eq_of_lt hx

/-- Witness of C22: list 0 of the header-mode example with one entry and one
fragment of one entry at device address `0x900000`. -/
theorem fill_header_fragment_slots_witness :
    (ex_header_1w.lists 0).header = some 2048 ∧
    (ex_header_1w.lists 0).fragments.length = 1 ∧
    ∃ e, vsp1_dl_list_fill_header ex_header_1w 0 true 0 = some e ∧
      header_word (e.lists 0) (HDR_LIST_ADDR 0) = some 0x10000 ∧
      (e.lists 0).body0.dma = 0x10000 ∧
      header_word (e.lists 0) (HDR_LIST_NUM_BYTES 0) = some 8 ∧
      header_word (e.lists 0) (HDR_LIST_NUM_BYTES 1) = some 8 ∧
      header_word (e.lists 0) (HDR_LIST_ADDR 1) = some 0x900000 ∧
      header_word (e.lists 0) HDR_NUM_LISTS = some 1 := by
  obtain ⟨e, h1, h2, h3, h4, h5, h6, _⟩ :=
    fill_header_fragment_slots ex_header_1w 0 0 2048 0 true rfl rfl rfl (by decide)
  obtain ⟨k1, k2⟩ := h5 0 ex_fragment rfl
  refine ⟨rfl, rfl, e, h1, ?_, ?_, ?_, ?_, ?_, h6⟩
  · rw [h2]
    decide
  · rw [h3]
    rfl
  · rw [h4]
    rfl
  · rw [k1]
    rfl
  · rw [k2]
    rfl

set_option maxHeartbeats 2000000 in
theorem fill_header_last_words (d : vsp1_dl_manager) (dl lif_index h : Nat) (is_last : Bool)
    (hh : (d.lists dl).header = some h)
    (he : (d.lists dl).ext_body = some (h + VSP1_DL_EXT_OFFSET))
    (hdev : fill_header_returns_early d.vsp1 = false)
    (hlast : (!list_empty_chain d dl && !is_last) = false) :
    ∃ m, vsp1_dl_list_fill_header d dl is_last lif_index =
        some (set_list d dl { d.lists dl with
          body0 := { (d.lists dl).body0 with entries := m } }) ∧
      m (h + HDR_FLAGS) = last_header_flags d.vsp1 ∧
      (d.vsp1.info.header_mode = true → m (h + HDR_NEXT_HEADER) = u32 (d.lists dl).dma) ∧
      (d.vsp1.info.header_mode = false →
        m (h + HDR_NEXT_HEADER) = (fill_header_loop (d.lists dl) h).1 (h + HDR_NEXT_HEADER)) ∧
      (d.vsp1.ths_quirks &&& d.vsp1.regs.VSP1_AUTO_FLD_NOT_SUPPORT = 0 →
        m (h + VSP1_DL_EXT_OFFSET + EXT_DL_CMD 0) = 3 ∧
        m (h + VSP1_DL_EXT_OFFSET + EXT_DL_CMD 1) =
          u32 (1 ||| fill_header_rpf_update d.vsp1 lif_index) ∧
        m (h + VSP1_DL_EXT_OFFSET + EXT_DL_DATA 0) = u32 (d.lists dl).ext_addr_dma ∧
        m (h + VSP1_DL_EXT_OFFSET + EXT_DL_DATA 1) = 0 ∧
        m (h + HDR_PRE_POST_NUM) = (1 <<< 25) ||| 1 ∧
        m (h + HDR_PRE_EXT_DL_PLIST) = u32 (d.lists dl).ext_dma) ∧
      (d.vsp1.ths_quirks &&& d.vsp1.regs.VSP1_AUTO_FLD_NOT_SUPPORT ≠ 0 →
        ∀ a, h + HDR_FLAGS < a → m a = (fill_header_loop (d.lists dl) h).1 a) := by
  unfold fill_header_returns_early at hdev
  unfold vsp1_dl_list_fill_header
  have hloop : fill_header_fragments (d.lists dl).fragments
      (store32 (d.lists dl).body0.entries (h + HDR_LIST_NUM_BYTES 0)
        ((d.lists dl).body0.num_entries * sizeof_vsp1_dl_header_list), 0,
        h + HDR_LIST_NUM_BYTES 0) = fill_header_loop (d.lists dl) h := rfl
  have hupd : (if lif_index = 1 then
        rpf_update_loop
          (if d.vsp1.gen3_vspdl = true then
            u32 (d.vsp1.info.rpf_count + 2 ^ 32 - u32 d.vsp1.num_brs_inputs) else 0)
          (if d.vsp1.gen3_vspdl = true then d.vsp1.info.rpf_count else 0)
      else
        rpf_update_loop 0
          (if d.vsp1.gen3_vspdl = true then
            u32 (d.vsp1.info.rpf_count + 2 ^ 32 - u32 d.vsp1.num_brs_inputs)
          else d.vsp1.info.rpf_count)) = fill_header_rpf_update d.vsp1 lif_index := rfl
  simp only [hh, he, hdev, hlast, Bool.false_eq_true, if_false, hloop, hupd]
  generalize fill_header_loop (d.lists dl) h = st
  generalize fill_header_rpf_update d.vsp1 lif_index = upd
  have h2 : u32 VSP1_DLH_INT_ENABLE = VSP1_DLH_INT_ENABLE := rfl
  have h3 : u32 (VSP1_DLH_INT_ENABLE ||| VSP1_DLH_AUTO_START) =
      VSP1_DLH_INT_ENABLE ||| VSP1_DLH_AUTO_START := rfl
  have h4 : u32 3 = 3 := rfl
  have h5 : u32 0 = 0 := rfl
  have h6 : u32 (1 <<< 25 ||| 1) = 1 <<< 25 ||| 1 := rfl
  unfold last_header_flags
  split_ifs with c1 c2 <;>
    (refine ⟨_, rfl, ?_, ?_, ?_, ?_, ?_⟩
     · simp only [HDR_LIST_NUM_BYTES, HDR_NUM_LISTS, HDR_FLAGS, HDR_NEXT_HEADER,
         HDR_PRE_POST_NUM, HDR_PRE_EXT_DL_PLIST, HDR_POST_EXT_DL_NUM_CMD,
         HDR_POST_EXT_DL_P_LIST, EXT_DL_CMD, EXT_DL_DATA, VSP1_DL_EXT_OFFSET]
       simp (disch := omega) only [store32_other, store32_same, h2, h3]
     · intro hmode
       first
         | (exfalso
            simp_all
            done)
         | (simp only [HDR_LIST_NUM_BYTES, HDR_NUM_LISTS, HDR_FLAGS, HDR_NEXT_HEADER,
              HDR_PRE_POST_NUM, HDR_PRE_EXT_DL_PLIST, HDR_POST_EXT_DL_NUM_CMD,
              HDR_POST_EXT_DL_P_LIST, EXT_DL_CMD, EXT_DL_DATA, VSP1_DL_EXT_OFFSET]
            simp (disch := omega) only [store32_other, store32_same])
     · intro hmode
       first
         | (exfalso
            simp_all
            done)
         | (simp only [HDR_LIST_NUM_BYTES, HDR_NUM_LISTS, HDR_FLAGS, HDR_NEXT_HEADER,
              HDR_PRE_POST_NUM, HDR_PRE_EXT_DL_PLIST, HDR_POST_EXT_DL_NUM_CMD,
              HDR_POST_EXT_DL_P_LIST, EXT_DL_CMD, EXT_DL_DATA, VSP1_DL_EXT_OFFSET]
            simp (disch := omega) only [store32_other, store32_same])
     · intro hq
       first
         | (exfalso
            exact absurd hq (by assumption))
         | (simp only [HDR_LIST_NUM_BYTES, HDR_NUM_LISTS, HDR_FLAGS, HDR_NEXT_HEADER,
              HDR_PRE_POST_NUM, HDR_PRE_EXT_DL_PLIST, HDR_POST_EXT_DL_NUM_CMD,
              HDR_POST_EXT_DL_P_LIST, EXT_DL_CMD, EXT_DL_DATA, VSP1_DL_EXT_OFFSET]
            simp (disch := omega) only [store32_other, store32_same, h4, h5, h6]
            simp)
     · intro hq a ha
       first
         | (exfalso
            exact absurd (by assumption) hq)
         | (simp only [HDR_LIST_NUM_BYTES, HDR_NUM_LISTS, HDR_FLAGS, HDR_NEXT_HEADER,
              HDR_PRE_POST_NUM, HDR_PRE_EXT_DL_PLIST, HDR_POST_EXT_DL_NUM_CMD,
              HDR_POST_EXT_DL_P_LIST, EXT_DL_CMD, EXT_DL_DATA, VSP1_DL_EXT_OFFSET] at ha ⊢
            simp (disch := omega) only [store32_other]))

theorem last_header_flags_auto (vsp1 : vsp1_device) :
    last_header_flags vsp1 &&& VSP1_DLH_AUTO_START ≠ 0 ↔ vsp1.info.header_mode = true := by
  unfold last_header_flags
  cases vsp1.info.header_mode <;> decide

/-- C21 (amended): `vsp1_dl_list_fill_header` on a list with the layout of
`vsp1_dl_list_alloc` and an initialised chain node, whose successor in the chain
is `nx`.  On a device for which the function does not return early: when the
chain is not empty and `is_last` is false the flags are exactly
`VSP1_DLH_AUTO_START` and `next_header` is the 32-bit header address of the
successor; otherwise the flags are `VSP1_DLH_INT_ENABLE`, with
`VSP1_DLH_AUTO_START` added exactly when `info->header_mode` is set, and then
`next_header` is the 32-bit header address of the list itself.  On a gen3 VSPDL
device without BRS or second LIF the function returns before it reaches the
flags: with at most 7 fragments `flags` and `next_header` keep their old
values. -/
theorem fill_header_flags (d : vsp1_dl_manager) (dl lif_index h nx : Nat) (is_last : Bool)
    (hh : (d.lists dl).header = some h)
    (he : (d.lists dl).ext_body = some (h + VSP1_DL_EXT_OFFSET))
    (hnext : (d.lists dl).chain.next = some nx) :
    (fill_header_returns_early d.vsp1 = false →
      ∃ e, vsp1_dl_list_fill_header d dl is_last lif_index = some e ∧
        (nx ≠ dl → is_last = false →
          header_flags (e.lists dl) = some VSP1_DLH_AUTO_START ∧
          VSP1_DLH_AUTO_START &&& VSP1_DLH_INT_ENABLE = 0 ∧
          header_next_header (e.lists dl) = some (u32 (d.lists nx).dma)) ∧
        (nx = dl ∨ is_last = true →
          header_flags (e.lists dl) = some (last_header_flags d.vsp1) ∧
          last_header_flags d.vsp1 &&& VSP1_DLH_INT_ENABLE ≠ 0 ∧
          (last_header_flags d.vsp1 &&& VSP1_DLH_AUTO_START ≠ 0 ↔
            d.vsp1.info.header_mode = true) ∧
          (d.vsp1.info.header_mode = true →
            header_next_header (e.lists dl) = some (u32 (d.lists dl).dma)))) ∧
    (fill_header_returns_early d.vsp1 = true →
      ∃ e, vsp1_dl_list_fill_header d dl is_last lif_index = some e ∧
        ((d.lists dl).fragments.length ≤ 7 →
          header_flags (e.lists dl) = header_flags (d.lists dl) ∧
          header_next_header (e.lists dl) = header_next_header (d.lists dl))) := by
  constructor
  · intro hdev
    by_cases hc : nx ≠ dl ∧ is_last = false
    · obtain ⟨hne, hl⟩ := hc
      subst hl
      obtain ⟨m, hfill, hflags, hnh⟩ := fill_header_chained d dl lif_index h nx hh hdev hnext hne
      refine ⟨_, hfill, ?_, ?_⟩
      · intro _ _
        rw [set_list_lists_self, (header_flags_set _ m h hh).1, (header_flags_set _ m h hh).2,
          hflags, hnh]
        exact ⟨rfl, (last_header_flags_int d.vsp1).2, rfl⟩
      · intro hor
        rcases hor with h1 | h1
        · exact absurd h1 hne
        · cases h1
    · have hlast : (!list_empty_chain d dl && !is_last) = false := by
        by_cases h1 : nx = dl
        · simp [list_empty_chain, hnext, h1]
        · have : is_last = true := by
            cases is_last with
            | true => rfl
            | false => exact absurd ⟨h1, rfl⟩ hc
          simp [this]
      obtain ⟨m, hfill, hflags, hnh, _⟩ :=
        fill_header_last_words d dl lif_index h is_last hh he hdev hlast
      refine ⟨_, hfill, ?_, ?_⟩
      · intro h1 h2
        exact absurd ⟨h1, h2⟩ hc
      · intro _
        rw [set_list_lists_self, (header_flags_set _ m h hh).1, (header_flags_set _ m h hh).2,
          hflags]
        refine ⟨rfl, (last_header_flags_int d.vsp1).1, last_header_flags_auto d.vsp1, ?_⟩
        intro hmode
        rw [hnh hmode]
  · intro hdev
    obtain ⟨m, hfill, _, _, hm⟩ := fill_header_lists d dl lif_index h nx is_last hh he hnext
    refine ⟨_, hfill, ?_⟩
    intro hk
    obtain ⟨_, _, _, s4⟩ := fill_header_fragments_spec (d.lists dl).fragments
      (store32 (d.lists dl).body0.entries (h + HDR_LIST_NUM_BYTES 0)
        ((d.lists dl).body0.num_entries * sizeof_vsp1_dl_header_list)) 0
      (h + HDR_LIST_NUM_BYTES 0)
    have hloop : fill_header_fragments (d.lists dl).fragments
        (store32 (d.lists dl).body0.entries (h + HDR_LIST_NUM_BYTES 0)
          ((d.lists dl).body0.num_entries * sizeof_vsp1_dl_header_list), 0,
          h + HDR_LIST_NUM_BYTES 0) = fill_header_loop (d.lists dl) h := rfl
    rw [hloop] at s4
    have hkeep : ∀ off, 68 ≤ off →
        m (h + off) = (d.lists dl).body0.entries (h + off) := by
      intro off hoff
      unfold HDR_LIST_NUM_BYTES at s4
      rw [hm hdev _ (by unfold HDR_NUM_LISTS; omega), s4 _ (Or.inr (by omega)),
        store32_other _ _ _ _ (by omega)]
    rw [set_list_lists_self, (header_flags_set _ m h hh).1, (header_flags_set _ m h hh).2]
    simp only [header_flags, header_next_header, hh, Option.map_some']
    rw [hkeep _ (by unfold HDR_FLAGS; omega), hkeep _ (by unfold HDR_NEXT_HEADER; omega)]
    exact ⟨rfl, rfl⟩

/-- Witness of C21 (amended): the head of the example chain (list 1 chained to
list 0) on the example device, which does not return early. -/
theorem fill_header_flags_witness :
    (ex_chain_2.lists 0).header = some 2048 ∧
    (ex_chain_2.lists 0).chain.next = some 1 ∧
    fill_header_returns_early ex_chain_2.vsp1 = false ∧
    ∃ e, vsp1_dl_list_fill_header ex_chain_2 0 false 0 = some e ∧
      header_flags (e.lists 0) = some VSP1_DLH_AUTO_START ∧
      header_next_header (e.lists 0) = some (u32 (ex_chain_2.lists 1).dma) := by
  obtain ⟨e, h1, h2, _⟩ :=
    (fill_header_flags ex_chain_2 0 0 2048 1 false rfl rfl rfl).1 rfl
  obtain ⟨k1, _, k3⟩ := h2 (by decide) rfl
  exact ⟨rfl, rfl, rfl, e, h1, k1, k3⟩

/-- Counterexample to C21 as stated: on a gen3 VSPDL device without BRS the
header of list 0 (one entry, one fragment, not chained) has flags 0 after
`vsp1_dl_list_fill_header` with `is_last` set, as before the call: neither
`VSP1_DLH_INT_ENABLE` nor `VSP1_DLH_AUTO_START`, although the device has
`info->header_mode`; on the example device, which differs only in not being a
gen3 VSPDL, the same call leaves flags 3. -/
theorem fill_header_early_return_no_flags :
    ex_header_1w_vspdl.vsp1.gen3_vspdl = true ∧ ex_header_1w_vspdl.vsp1.brs = false ∧
    ex_header_1w_vspdl.vsp1.info.header_mode = true ∧
    header_flags (ex_header_1w_vspdl.lists 0) = some 0 ∧
    (vsp1_dl_list_fill_header ex_header_1w_vspdl 0 true 0).map
      (fun e => (header_flags (e.lists 0), header_next_header (e.lists 0),
        header_word (e.lists 0) HDR_NUM_LISTS)) = some (some 0, some 0, some 1) ∧
    (vsp1_dl_list_fill_header ex_header_1w 0 true 0).map
      (fun e => (header_flags (e.lists 0), header_next_header (e.lists 0),
        header_word (e.lists 0) HDR_NUM_LISTS)) = some (some 3, some 0x10800, some 1) := by
  refine ⟨rfl, rfl, rfl, by decide, by decide, by decide⟩

/-! ## The input-port update mask -/

theorem rpf_bit_testBit (i j : Nat) :
    (u32 (1 <<< (16 + i))).testBit j = decide (16 + i = j ∧ j < 32) := by
  unfold u32
  rw [Nat.testBit_mod_two_pow, Nat.one_shiftLeft, Nat.testBit_two_pow]
  by_cases h1 : j < 32 <;> by_cases h2 : 16 + i = j <;> simp [h1, h2]

theorem rpf_foldl_testBit (j : Nat) :
    ∀ (l : List Nat) (acc : Nat),
      (l.foldl (fun rpf_update i => rpf_update ||| u32 (1 <<< (16 + i))) acc).testBit j =
        (acc.testBit j || l.any (fun i => decide (16 + i = j ∧ j < 32))) := by
  intro l
  induction l with
  | nil => intro acc; simp
  | cons i rest ih =>
    intro acc
    simp only [List.foldl_cons, List.any_cons]
    rw [ih, Nat.testBit_or, rpf_bit_testBit, Bool.or_assoc]

theorem rpf_update_loop_testBit (a b j : Nat) :
    (rpf_update_loop a b).testBit j = decide (16 + a ≤ j ∧ j < 16 + b ∧ j < 32) := by
  unfold rpf_update_loop
  rw [rpf_foldl_testBit, Nat.zero_testBit, Bool.false_or]
  rw [Bool.eq_iff_iff]
  simp only [List.any_eq_true, List.mem_range'_1, decide_eq_true_eq]
  constructor
  · rintro ⟨i, ⟨h1, h2⟩, h3, h4⟩
    omega
  · intro h
    exact ⟨j - 16, ⟨by omega, by omega⟩, by omega, by omega⟩

theorem rpf_update_loop_lt (a b : Nat) : rpf_update_loop a b < 2 ^ 32 := by
  apply Nat.lt_pow_two_of_testBit
  intro i hi
  rw [rpf_update_loop_testBit]
  simp
  omega

theorem rpf_update_loop_empty (a : Nat) : rpf_update_loop a a = 0 := by
  simp [rpf_update_loop]

theorem fill_header_rpf_update_lt (vsp1 : vsp1_device) (lif_index : Nat) :
    fill_header_rpf_update vsp1 lif_index < 2 ^ 32 := by
  unfold fill_header_rpf_update
  simp only
  split_ifs <;> exact rpf_update_loop_lt _ _

theorem ext_body_word_set (a : vsp1_dl_list) (m : Nat → Nat) (e off : Nat)
    (he : a.ext_body = some e) :
    ext_body_word { a with body0 := { a.body0 with entries := m } } off =
      some (m (e + off)) := by
  simp [ext_body_word, he]

/-- C23: when `vsp1_dl_list_fill_header` fills the extended body (the list is
the last of its chain or not chained, the device does not make the function
return early and the auto-field quirk bit is clear) it stores 3 in
`ext_dl_cmd[0]` and `1 | rpf_update` in `ext_dl_cmd[1]`.  With at most 16 input
ports: on a gen3 VSPDL device with `num_brs_inputs ≤ rpf_count` the mask for
`lif_index == 1` has exactly the bits `16 + i`,
`rpf_count - num_brs_inputs ≤ i < rpf_count`, the mask for any other index
exactly the bits `16 + i`, `i < rpf_count - num_brs_inputs`; the two are
disjoint and together are the bits `16 + i`, `i < rpf_count`.  On any other
device the mask for `lif_index == 1` is 0 and the mask for any other index has
exactly the bits `16 + i`, `i < rpf_count`. -/
theorem fill_header_port_mask (d : vsp1_dl_manager) (dl lif_index h : Nat) (is_last : Bool)
    (hh : (d.lists dl).header = some h)
    (he : (d.lists dl).ext_body = some (h + VSP1_DL_EXT_OFFSET))
    (hdev : fill_header_returns_early d.vsp1 = false)
    (hlast : (!list_empty_chain d dl && !is_last) = false)
    (hq : d.vsp1.ths_quirks &&& d.vsp1.regs.VSP1_AUTO_FLD_NOT_SUPPORT = 0)
    (hcount : d.vsp1.info.rpf_count ≤ 16) :
    (∃ e, vsp1_dl_list_fill_header d dl is_last lif_index = some e ∧
      ext_body_word (e.lists dl) (EXT_DL_CMD 0) = some 3 ∧
      ext_body_word (e.lists dl) (EXT_DL_CMD 1) =
        some (1 ||| fill_header_rpf_update d.vsp1 lif_index)) ∧
    (d.vsp1.gen3_vspdl = true → d.vsp1.num_brs_inputs ≤ d.vsp1.info.rpf_count →
      (∀ j, (fill_header_rpf_update d.vsp1 1).testBit j =
        decide (16 + (d.vsp1.info.rpf_count - d.vsp1.num_brs_inputs) ≤ j ∧
          j < 16 + d.vsp1.info.rpf_count)) ∧
      (∀ lif, lif ≠ 1 →
        (∀ j, (fill_header_rpf_update d.vsp1 lif).testBit j =
          decide (16 ≤ j ∧ j < 16 + (d.vsp1.info.rpf_count - d.vsp1.num_brs_inputs))) ∧
        fill_header_rpf_update d.vsp1 1 &&& fill_header_rpf_update d.vsp1 lif = 0 ∧
        (∀ j, (fill_header_rpf_update d.vsp1 1 ||| fill_header_rpf_update d.vsp1 lif).testBit j =
          decide (16 ≤ j ∧ j < 16 + d.vsp1.info.rpf_count)))) ∧
    (d.vsp1.gen3_vspdl = false →
      fill_header_rpf_update d.vsp1 1 = 0 ∧
      (∀ lif, lif ≠ 1 → ∀ j, (fill_header_rpf_update d.vsp1 lif).testBit j =
        decide (16 ≤ j ∧ j < 16 + d.vsp1.info.rpf_count))) := by
  refine ⟨?_, ?_, ?_⟩
  · obtain ⟨m, hfill, _, _, _, hext, _⟩ :=
      fill_header_last_words d dl lif_index h is_last hh he hdev hlast
    obtain ⟨x0, x1, _⟩ := hext hq
    refine ⟨_, hfill, ?_, ?_⟩
    · rw [set_list_lists_self, ext_body_word_set _ m _ _ he, x0]
    · rw [set_list_lists_self, ext_body_word_set _ m _ _ he, x1]
      have : 1 ||| fill_header_rpf_update d.vsp1 lif_index < 2 ^ 32 :=
        Nat.or_lt_two_pow (by decide) (fill_header_rpf_update_lt _ _)
      unfold u32
      rw [Nat.mod_eq_of_lt this]
  · intro hgen hbrs
    have hsub : u32 (d.vsp1.info.rpf_count + 2 ^ 32 - u32 d.vsp1.num_brs_inputs) =
        d.vsp1.info.rpf_count - d.vsp1.num_brs_inputs := by
      have h1 : u32 d.vsp1.num_brs_inputs = d.vsp1.num_brs_inputs :=
        Nat.mod_eq_of_lt (by omega)
      rw [h1]
      unfold u32
      omega
    have m1 : fill_header_rpf_update d.vsp1 1 =
        rpf_update_loop (d.vsp1.info.rpf_count - d.vsp1.num_brs_inputs)
          d.vsp1.info.rpf_count := by
      unfold fill_header_rpf_update
      simp only [hgen, if_true, hsub]
    have m0 : ∀ lif, lif ≠ 1 → fill_header_rpf_update d.vsp1 lif =
        rpf_update_loop 0 (d.vsp1.info.rpf_count - d.vsp1.num_brs_inputs) := by
      intro lif hl
      unfold fill_header_rpf_update
      simp only [hgen, if_true, hsub, hl, if_false]
    refine ⟨?_, ?_⟩
    · intro j
      rw [m1, rpf_update_loop_testBit, Bool.eq_iff_iff]
      simp only [decide_eq_true_eq]
      omega
    · intro lif hl
      refine ⟨?_, ?_, ?_⟩
      · intro j
        rw [m0 lif hl, rpf_update_loop_testBit, Bool.eq_iff_iff]
        simp only [decide_eq_true_eq]
        omega
      · apply Nat.eq_of_testBit_eq
        intro j
        rw [Nat.testBit_and, m1, m0 lif hl, rpf_update_loop_testBit, rpf_update_loop_testBit,
          Nat.zero_testBit]
        rw [Bool.and_eq_false_iff]
        simp only [decide_eq_false_iff_not]
        omega
      · intro j
        rw [Nat.testBit_or, m1, m0 lif hl, rpf_update_loop_testBit, rpf_update_loop_testBit,
          Bool.eq_iff_iff]
        simp only [Bool.or_eq_true, decide_eq_true_eq]
        omega
  · intro hgen
    refine ⟨?_, ?_⟩
    · simp [fill_header_rpf_update, hgen, rpf_update_loop_empty]
    · intro lif hl j
      have : fill_header_rpf_update d.vsp1 lif = rpf_update_loop 0 d.vsp1.info.rpf_count := by
        simp [fill_header_rpf_update, hgen, hl]
      rw [this, rpf_update_loop_testBit, Bool.eq_iff_iff]
      simp only [decide_eq_true_eq]
      omega

/-- Witness of C23: list 0 of the header-mode example on a gen3 VSPDL device
with BRS and second LIF, five input ports, two of them on the BRS: the mask for
`lif_index == 1` is bits 19 and 20. -/
theorem fill_header_port_mask_witness :
    fill_header_returns_early ex_header_1w_brs.vsp1 = false ∧
    ex_header_1w_brs.vsp1.gen3_vspdl = true ∧
    (∃ e, vsp1_dl_list_fill_header ex_header_1w_brs 0 true 1 = some e ∧
      ext_body_word (e.lists 0) (EXT_DL_CMD 0) = some 3 ∧
      ext_body_word (e.lists 0) (EXT_DL_CMD 1) = some 0x180001) ∧
    fill_header_rpf_update ex_header_1w_brs.vsp1 1 &&&
      fill_header_rpf_update ex_header_1w_brs.vsp1 0 = 0 := by
  have h := fill_header_port_mask ex_header_1w_brs 0 1 2048 true rfl rfl rfl rfl rfl
    (by decide)
  obtain ⟨⟨e, h1, h2, h3⟩, hgen, _⟩ := h
  refine ⟨rfl, rfl, ⟨e, h1, h2, ?_⟩, ((hgen rfl (by decide)).2 0 (by decide)).2.1⟩
  rw [h3]
  decide

/-! ## The ownership invariant of a headerless manager -/

theorem owners_perm (F A Q P H F1 A1 Q1 P1 H1 : List Nat)
    (h : (F : Multiset Nat) + A + Q + P + H = (F1 : Multiset Nat) + A1 + Q1 + P1 + H1) :
    (F1 ++ A1 ++ Q1 ++ P1 ++ H1).Perm (F ++ A ++ Q ++ P ++ H) := by
  rw [← Multiset.coe_eq_coe]
  simp only [← Multiset.coe_add]
  exact h.symm

theorem erase_coe (H : List Nat) (dl : Nat) (h : dl ∈ H) :
    (H : Multiset Nat) = ({dl} : Multiset Nat) + (H.erase dl : List Nat) := by
  have := List.perm_cons_erase h
  rw [← Multiset.coe_eq_coe] at this
  rw [this, ← Multiset.cons_coe, Multiset.singleton_add]

theorem option_toList_coe (x : Nat) : ((some x).toList : Multiset Nat) = {x} := rfl

theorem put_opt_ok (fuel : Nat) (d : vsp1_dl_manager) (o : Option Nat)
    (hnc : ∀ x, (d.lists x).has_chain = false)
    (hz : ∀ x ∈ d.free, (d.lists x).body0.num_entries = 0) :
    ∃ e, __vsp1_dl_list_put (fuel + 1) d o = some e ∧ put_frame d e ∧
      e.free = d.free ++ o.toList ∧
      (∀ x, (e.lists x).has_chain = false) ∧
      (∀ x ∈ e.free, (e.lists x).body0.num_entries = 0) := by
  obtain ⟨e, he, hf, hnone, hsome⟩ := put_retire fuel d o (fun p _ => hnc p)
  obtain ⟨e1, he1, _, hfree, hc⟩ := put_option_free fuel d o (fun p _ => hnc p)
  have : e1 = e := Option.some.inj (he1.symm.trans he)
  subst this
  refine ⟨e1, he, hf, hfree, fun x => hc x (hnc x), ?_⟩
  intro x hx
  cases o with
  | none =>
    rw [hnone rfl] at hx ⊢
    exact hz x hx
  | some p =>
    rw [hsome p rfl] at hx ⊢
    by_cases hxp : x = p
    · subst hxp
      rw [put_tail_lists_self]
    · rw [put_tail_lists_other _ _ _ hxp]
      rw [put_tail_free] at hx
      rcases List.mem_append.1 hx with h | h
      · exact hz x h
      · exact absurd (List.mem_singleton.1 h) hxp

theorem none_toList_coe : ((none : Option Nat).toList : Multiset Nat) = 0 := rfl

theorem own_inv_step {n : Nat} {c : dl_client} (hi : own_inv n c) (e : vsp1_dl_manager)
    (H1 : List Nat)
    (hperm : (c.dlm.free : Multiset Nat) + c.dlm.active.toList + c.dlm.queued.toList +
        c.dlm.pending.toList + c.held =
      (e.free : Multiset Nat) + e.active.toList + e.queued.toList + e.pending.toList + H1)
    (hnc : ∀ x, (e.lists x).has_chain = false)
    (hz : ∀ x ∈ e.free, (e.lists x).body0.num_entries = 0)
    (hm : e.mode = c.dlm.mode) : own_inv n { dlm := e, held := H1 } :=
  { perm := (owners_perm _ _ _ _ _ _ _ _ _ _ hperm).trans hi.perm
    no_chain := hnc
    free_zero := hz
    mode := hm.trans hi.mode }

theorem own_inv_nodup {n : Nat} {c : dl_client} (hi : own_inv n c) :
    (dl_owners c).Nodup :=
  (List.Perm.nodup_iff hi.perm).2 (List.nodup_range n)

theorem own_inv_held_not_free {n : Nat} {c : dl_client} (hi : own_inv n c) :
    ∀ x ∈ c.held, x ∉ c.dlm.free := by
  intro x hx hf
  have hnd := own_inv_nodup hi
  unfold dl_owners at hnd
  have := (List.nodup_append.1 hnd).2.2
  refine this ?_ hx
  simp [hf]

theorem own_step_get {n : Nat} {c : dl_client} (hi : own_inv n c) :
    (∀ dl d, vsp1_dl_list_get c.dlm = (some dl, d) →
      own_inv n { dlm := d, held := dl :: c.held }) ∧
    (∀ d, vsp1_dl_list_get c.dlm = (none, d) → own_inv n { dlm := d, held := c.held }) := by
  unfold vsp1_dl_list_get
  cases hfree : c.dlm.free with
  | nil =>
    constructor
    · intro dl d h
      simp at h
    · intro d h
      simp only [Prod.mk.injEq, true_and] at h
      subst h
      exact hi
  | cons x rest =>
    constructor
    · intro dl d h
      simp only [Prod.mk.injEq, Option.some.injEq] at h
      obtain ⟨hx, hd⟩ := h
      subst hx
      subst hd
      have hl : ∀ y, ((INIT_LIST_HEAD_chain { c.dlm with free := rest } x).lists y).has_chain =
            (c.dlm.lists y).has_chain ∧
          ((INIT_LIST_HEAD_chain { c.dlm with free := rest } x).lists y).body0 =
            (c.dlm.lists y).body0 := by
        intro y
        by_cases hy : y = x
        · subst hy
          simp [INIT_LIST_HEAD_chain, set_list]
        · simp [INIT_LIST_HEAD_chain, set_list, Function.update, hy]
      refine own_inv_step hi _ _ ?_ ?_ ?_ rfl
      · rw [hfree]
        show _ = (rest : Multiset Nat) + c.dlm.active.toList + c.dlm.queued.toList +
          c.dlm.pending.toList + ((x :: c.held : List Nat) : Multiset Nat)
        rw [← Multiset.cons_coe, ← Multiset.cons_coe, ← Multiset.singleton_add,
          ← Multiset.singleton_add]
        abel
      · intro y
        rw [(hl y).1]
        exact hi.no_chain y
      · intro y hy
        rw [(hl y).2]
        exact hi.free_zero y (by rw [hfree]; exact List.mem_cons_of_mem _ hy)
    · intro d h
      simp at h

theorem own_step_write {n : Nat} {c : dl_client} (hi : own_inv n c) (dl reg data : Nat)
    (hdl : dl ∉ c.dlm.free) :
    own_inv n { dlm := vsp1_dl_list_write c.dlm dl reg data, held := c.held } := by
  refine own_inv_step hi _ _ rfl ?_ ?_ rfl
  · intro x
    unfold vsp1_dl_list_write
    by_cases hx : x = dl
    · subst hx
      rw [set_list_lists_self]
      exact hi.no_chain x
    · rw [set_list_lists_other _ _ _ _ hx]
      exact hi.no_chain x
  · intro x hx
    have hxf : x ∈ c.dlm.free := hx
    have hne : x ≠ dl := fun e => hdl (e ▸ hxf)
    unfold vsp1_dl_list_write
    rw [set_list_lists_other _ _ _ _ hne]
    exact hi.free_zero x hxf

theorem put_opt_mmio (fuel : Nat) {n : Nat} {c : dl_client} (hi : own_inv n c)
    (v : vsp1_device) (o : Option Nat) :
    ∃ e, __vsp1_dl_list_put (fuel + 1) { c.dlm with vsp1 := v } o = some e ∧
      e.free = c.dlm.free ++ o.toList ∧ e.active = c.dlm.active ∧
      e.queued = c.dlm.queued ∧ e.pending = c.dlm.pending ∧ e.mode = c.dlm.mode ∧
      e.vsp1 = v ∧
      (∀ x, (e.lists x).has_chain = false) ∧
      (∀ x ∈ e.free, (e.lists x).body0.num_entries = 0) := by
  obtain ⟨e, he, hf, hfree, hnc, hz⟩ := put_opt_ok fuel { c.dlm with vsp1 := v } o
    hi.no_chain hi.free_zero
  exact ⟨e, he, hfree, hf.1, hf.2.1, hf.2.2.1, hf.2.2.2.2.1, hf.2.2.2.1, hnc, hz⟩

theorem own_step_commit (fuel : Nat) {n : Nat} {c : dl_client} (hi : own_inv n c)
    (dl lif_index : Nat) (mmio : Nat → Nat) (hdl : dl ∈ c.held) :
    ∃ e, vsp1_dl_list_commit (fuel + 1) (set_mmio c.dlm mmio) dl lif_index = some e ∧
      own_inv n { dlm := e, held := c.held.erase dl } := by
  have hm : (set_mmio c.dlm mmio).mode = vsp1_dl_mode.VSP1_DL_MODE_HEADERLESS := hi.mode
  have hH := erase_coe c.held dl hdl
  by_cases hupd : vsp1_read (set_mmio c.dlm mmio).vsp1
      (set_mmio c.dlm mmio).vsp1.regs.VI6_DL_BODY_SIZE &&&
      (set_mmio c.dlm mmio).vsp1.regs.VI6_DL_BODY_SIZE_UPD = 0
  · rw [commit_headerless_clear_eq _ _ dl lif_index hm hupd]
    obtain ⟨e, he, h1, h2, h3, h4, h5, _, h7, h8⟩ := put_opt_mmio fuel hi
      (device_programmed (set_mmio c.dlm mmio).vsp1 ((set_mmio c.dlm mmio).lists dl))
      c.dlm.queued
    have he1 : __vsp1_dl_list_put (fuel + 1)
        { set_mmio c.dlm mmio with
          vsp1 := device_programmed (set_mmio c.dlm mmio).vsp1
            ((set_mmio c.dlm mmio).lists dl) } (set_mmio c.dlm mmio).queued = some e := he
    rw [he1]
    refine ⟨_, rfl, own_inv_step hi _ _ ?_ h7 h8 h5⟩
    show _ = (e.free : Multiset Nat) + e.active.toList + ((some dl).toList : List Nat) +
      e.pending.toList + (c.held.erase dl : List Nat)
    rw [h1, h2, h4, hH, option_toList_coe, ← Multiset.coe_add]
    abel
  · rw [commit_headerless_set_eq _ _ dl lif_index hm hupd]
    obtain ⟨e, he, h1, h2, h3, h4, h5, _, h7, h8⟩ := put_opt_mmio fuel hi
      (set_mmio c.dlm mmio).vsp1 c.dlm.pending
    have he1 : __vsp1_dl_list_put (fuel + 1) (set_mmio c.dlm mmio)
        (set_mmio c.dlm mmio).pending = some e := he
    rw [he1]
    refine ⟨_, rfl, own_inv_step hi _ _ ?_ h7 h8 h5⟩
    show _ = (e.free : Multiset Nat) + e.active.toList + e.queued.toList +
      ((some dl).toList : List Nat) + (c.held.erase dl : List Nat)
    rw [h1, h2, h3, hH, option_toList_coe, ← Multiset.coe_add]
    abel

theorem own_step_display_start (fuel : Nat) {n : Nat} {c : dl_client} (hi : own_inv n c)
    (mmio : Nat → Nat) :
    ∃ e, vsp1_dlm_irq_display_start (fuel + 1) (set_mmio c.dlm mmio) = some e ∧
      own_inv n { dlm := e, held := c.held } := by
  have hm : (set_mmio c.dlm mmio).mode = vsp1_dl_mode.VSP1_DL_MODE_HEADERLESS := hi.mode
  obtain ⟨e, he, h1, h2, h3, h4, h5, _, h7, h8⟩ := put_opt_mmio fuel hi
    (set_mmio c.dlm mmio).vsp1 c.dlm.active
  have he1 : __vsp1_dl_list_put (fuel + 1) (set_mmio c.dlm mmio)
      (set_mmio c.dlm mmio).active = some e := he
  refine ⟨{ e with active := none }, ?_, own_inv_step hi _ _ ?_ h7 h8 h5⟩
  · simp [vsp1_dlm_irq_display_start, hm, he1]
  · show _ = (e.free : Multiset Nat) + ((none : Option Nat).toList : List Nat) +
      e.queued.toList + e.pending.toList + (c.held : List Nat)
    rw [h1, h3, h4, none_toList_coe, ← Multiset.coe_add]
    abel

theorem own_step_put (fuel : Nat) {n : Nat} {c : dl_client} (hi : own_inv n c)
    (dl : Nat) (mmio : Nat → Nat) (hdl : dl ∈ c.held) :
    ∃ e, vsp1_dl_list_put (fuel + 1) (set_mmio c.dlm mmio) (some dl) = some e ∧
      own_inv n { dlm := e, held := c.held.erase dl } := by
  have hH := erase_coe c.held dl hdl
  obtain ⟨e, he, h1, h2, h3, h4, h5, _, h7, h8⟩ := put_opt_mmio fuel hi
    (set_mmio c.dlm mmio).vsp1 (some dl)
  have he1 : vsp1_dl_list_put (fuel + 1) (set_mmio c.dlm mmio) (some dl) = some e := he
  refine ⟨e, he1, own_inv_step hi _ _ ?_ h7 h8 h5⟩
  show _ = (e.free : Multiset Nat) + e.active.toList + e.queued.toList + e.pending.toList +
    (c.held.erase dl : List Nat)
  rw [h1, h2, h3, h4, hH, ← Multiset.coe_add, option_toList_coe]
  abel

theorem own_step_frame_end (fuel : Nat) {n : Nat} {c : dl_client} (hi : own_inv n c)
    (interlaced : Bool) (mmio : Nat → Nat) :
    ∃ r e, vsp1_dlm_irq_frame_end (fuel + 1) (set_mmio c.dlm mmio) interlaced = some (r, e) ∧
      own_inv n { dlm := e, held := c.held } := by
  have hm : (set_mmio c.dlm mmio).mode = vsp1_dl_mode.VSP1_DL_MODE_HEADERLESS := hi.mode
  obtain ⟨e, he, h1, h2, h3, h4, h5, _, h7, h8⟩ := put_opt_mmio fuel hi
    (set_mmio c.dlm mmio).vsp1 c.dlm.active
  have he1 : __vsp1_dl_list_put (fuel + 1) (set_mmio c.dlm mmio)
      (set_mmio c.dlm mmio).active = some e := he
  rw [frame_end_headerless_eq _ _ interlaced hm e he1]
  by_cases hupd : vsp1_read (set_mmio c.dlm mmio).vsp1
      (set_mmio c.dlm mmio).vsp1.regs.VI6_DL_BODY_SIZE &&&
      (set_mmio c.dlm mmio).vsp1.regs.VI6_DL_BODY_SIZE_UPD = 0
  · simp only [hupd, ne_eq, not_true_eq_false, if_false]
    cases hp : c.dlm.pending with
    | none =>
      have hp1 : (set_mmio c.dlm mmio).pending = none := hp
      simp only [hp1]
      refine ⟨_, _, rfl, own_inv_step hi _ _ ?_ h7 h8 h5⟩
      show _ = (e.free : Multiset Nat) + c.dlm.queued.toList +
        ((none : Option Nat).toList : List Nat) + e.pending.toList + (c.held : List Nat)
      rw [h1, h4, hp, none_toList_coe, ← Multiset.coe_add]
      abel
    | some p =>
      have hp1 : (set_mmio c.dlm mmio).pending = some p := hp
      simp only [hp1]
      refine ⟨_, _, rfl, own_inv_step hi _ _ ?_ h7 h8 h5⟩
      show _ = (e.free : Multiset Nat) + c.dlm.queued.toList +
        ((some p).toList : List Nat) + ((none : Option Nat).toList : List Nat) +
        (c.held : List Nat)
      rw [h1, hp, none_toList_coe, ← Multiset.coe_add]
      abel
  · simp only [hupd, ne_eq, not_false_eq_true, if_true]
    refine ⟨_, _, rfl, own_inv_step hi _ _ ?_ h7 h8 h5⟩
    show _ = (e.free : Multiset Nat) + ((none : Option Nat).toList : List Nat) +
      e.queued.toList + e.pending.toList + (c.held : List Nat)
    rw [h1, h3, h4, none_toList_coe, ← Multiset.coe_add]
    abel

theorem own_step_reset (fuel : Nat) {n : Nat} {c : dl_client} (hi : own_inv n c)
    (mmio : Nat → Nat) :
    ∃ e, vsp1_dlm_reset (fuel + 1) (set_mmio c.dlm mmio) = some e ∧
      own_inv n { dlm := e, held := c.held } := by
  obtain ⟨e1, he1, f1, r1, n1, z1⟩ := put_opt_ok fuel (set_mmio c.dlm mmio) c.dlm.active
    hi.no_chain hi.free_zero
  obtain ⟨e2, he2, f2, r2, n2, z2⟩ := put_opt_ok fuel e1 e1.queued n1 z1
  obtain ⟨e3, he3, f3, r3, n3, z3⟩ := put_opt_ok fuel e2 e2.pending n2 z2
  have ha : __vsp1_dl_list_put (fuel + 1) (set_mmio c.dlm mmio)
      (set_mmio c.dlm mmio).active = some e1 := he1
  refine ⟨{ e3 with active := none, queued := none, pending := none }, ?_,
    own_inv_step hi _ _ ?_ n3 z3 ?_⟩
  · unfold vsp1_dlm_reset
    simp only [ha, he2, he3]
  · have q1 : e1.queued = c.dlm.queued := f1.2.1
    have p2 : e2.pending = c.dlm.pending := f2.2.2.1.trans f1.2.2.1
    have r1a : e1.free = c.dlm.free ++ c.dlm.active.toList := r1
    show _ = (e3.free : Multiset Nat) + ((none : Option Nat).toList : List Nat) +
      ((none : Option Nat).toList : List Nat) + ((none : Option Nat).toList : List Nat) +
      (c.held : List Nat)
    rw [r3, r2, r1a, q1, p2, none_toList_coe, ← Multiset.coe_add, ← Multiset.coe_add,
      ← Multiset.coe_add]
    abel
  · exact f3.2.2.2.2.1.trans (f2.2.2.2.2.1.trans f1.2.2.2.2.1)

theorem create_loop_own (alloc : Nat → Option dma_buffer) :
    ∀ (k i : Nat) (d e : vsp1_dl_manager), vsp1_dlm_create_loop alloc k i d = some e →
      (∀ x, (d.lists x).has_chain = false ∧ (d.lists x).body0.num_entries = 0) →
      e.free = d.free ++ List.range' i k ∧ e.active = d.active ∧ e.queued = d.queued ∧
        e.pending = d.pending ∧ e.mode = d.mode ∧
        (∀ x, (e.lists x).has_chain = false ∧ (e.lists x).body0.num_entries = 0) := by
  intro k
  induction k with
  | zero =>
    intro i d e h hd
    simp only [vsp1_dlm_create_loop, Option.some.injEq] at h
    subst h
    exact ⟨by simp, rfl, rfl, rfl, rfl, hd⟩
  | succ k ih =>
    intro i d e h hd
    simp only [vsp1_dlm_create_loop] at h
    cases ha : alloc i with
    | none => simp [ha] at h
    | some buf =>
      simp only [ha] at h
      obtain ⟨h1, h2, h3, h4, h5, h6⟩ := ih (i + 1) _ e h (by
        intro x
        by_cases hx : x = i
        · subst hx
          show ((set_list d x (vsp1_dl_list_alloc d.mode buf)).lists x).has_chain = false ∧
            ((set_list d x (vsp1_dl_list_alloc d.mode buf)).lists x).body0.num_entries = 0
          rw [set_list_lists_self]
          cases d.mode <;> exact ⟨rfl, rfl⟩
        · show ((set_list d i (vsp1_dl_list_alloc d.mode buf)).lists x).has_chain = false ∧
            ((set_list d i (vsp1_dl_list_alloc d.mode buf)).lists x).body0.num_entries = 0
          rw [set_list_lists_other _ _ _ _ hx]
          exact hd x)
      refine ⟨?_, h2, h3, h4, h5, h6⟩
      rw [h1]
      show (d.free ++ [i]) ++ List.range' (i + 1) k = d.free ++ List.range' i (k + 1)
      simp [List.range'_succ]

theorem own_inv_create (vsp1 : vsp1_device) (index n : Nat)
    (alloc : Nat → Option dma_buffer) (init : vsp1_dl_manager)
    (hcreate : vsp1_dlm_create vsp1 index n alloc = some init)
    (hmode : init.mode = vsp1_dl_mode.VSP1_DL_MODE_HEADERLESS) :
    own_inv n { dlm := init, held := [] } := by
  unfold vsp1_dlm_create at hcreate
  obtain ⟨h1, h2, h3, h4, _, h6⟩ := create_loop_own alloc n 0 _ init hcreate
    (fun _ => ⟨rfl, rfl⟩)
  refine ⟨?_, fun x => (h6 x).1, fun x _ => (h6 x).2, hmode⟩
  unfold dl_owners
  show (init.free ++ init.active.toList ++ init.queued.toList ++ init.pending.toList ++
    []).Perm (List.range n)
  rw [h1, h2, h3, h4, List.range_eq_range']
  simp

theorem client_trace_inv (vsp1 : vsp1_device) (index n : Nat)
    (alloc : Nat → Option dma_buffer) (init : vsp1_dl_manager)
    (hcreate : vsp1_dlm_create vsp1 index n alloc = some init)
    (hmode : init.mode = vsp1_dl_mode.VSP1_DL_MODE_HEADERLESS)
    (fuel : Nat) (c : dl_client) (htrace : client_trace (fuel + 1) init c) :
    own_inv n c := by
  induction htrace with
  | start => exact own_inv_create vsp1 index n alloc init hcreate hmode
  | get_some c dl d _ hget ih => exact (own_step_get ih).1 dl d hget
  | get_none c d _ hget ih => exact (own_step_get ih).2 d hget
  | write c dl reg data _ hdl ih => exact own_step_write ih dl reg data hdl
  | commit c dl lif_index mmio d _ hdl hc ih =>
    obtain ⟨e, he, hinv⟩ := own_step_commit fuel ih dl lif_index mmio hdl
    have : d = e := Option.some.inj (hc.symm.trans he)
    rw [this]
    exact hinv
  | display_start c mmio d _ hc ih =>
    obtain ⟨e, he, hinv⟩ := own_step_display_start fuel ih mmio
    have : d = e := Option.some.inj (hc.symm.trans he)
    rw [this]
    exact hinv
  | frame_end c interlaced mmio r d _ hc ih =>
    obtain ⟨r1, e, he, hinv⟩ := own_step_frame_end fuel ih interlaced mmio
    have : (r, d) = (r1, e) := Option.some.inj (hc.symm.trans he)
    have hd : d = e := (Prod.mk.inj this).2
    rw [hd]
    exact hinv
  | reset c mmio d _ hc ih =>
    obtain ⟨e, he, hinv⟩ := own_step_reset fuel ih mmio
    have : d = e := Option.some.inj (hc.symm.trans he)
    rw [this]
    exact hinv
  | put c dl mmio d _ hdl hc ih =>
    obtain ⟨e, he, hinv⟩ := own_step_put fuel ih dl mmio hdl
    have : d = e := Option.some.inj (hc.symm.trans he)
    rw [this]
    exact hinv

theorem owners_count {n : Nat} {c : dl_client} (hi : own_inv n c) (x : Nat) :
    c.dlm.free.count x + c.dlm.active.toList.count x + c.dlm.queued.toList.count x +
      c.dlm.pending.toList.count x + c.held.count x = if x < n then 1 else 0 := by
  have h := List.Perm.count_eq hi.perm x
  unfold dl_owners at h
  simp only [List.count_append] at h
  rw [h]
  by_cases hx : x < n
  · rw [if_pos hx]
    exact List.count_eq_one_of_mem (List.nodup_range n) (List.mem_range.2 hx)
  · rw [if_neg hx]
    exact List.count_eq_zero_of_not_mem (fun hm => hx (List.mem_range.1 hm))

/-- C25 (amended): start from a freshly created headerless manager with `n`
lists and let the caller call `vsp1_dl_list_get`, commit and release lists it
holds, write to lists that are not in the free pool, and let
`vsp1_dlm_irq_display_start`, `vsp1_dlm_irq_frame_end` and `vsp1_dlm_reset`
run, with any hardware status.  After every call the free pool, the three
slots and the hands of the caller together hold the lists `0 .. n - 1`, each in
exactly one place and there once; every list in the free pool has entry count
0; and each of these calls returns. -/
theorem headerless_ownership (vsp1 : vsp1_device) (index n : Nat)
    (alloc : Nat → Option dma_buffer) (init : vsp1_dl_manager)
    (hcreate : vsp1_dlm_create vsp1 index n alloc = some init)
    (hmode : init.mode = vsp1_dl_mode.VSP1_DL_MODE_HEADERLESS)
    (fuel : Nat) (c : dl_client) (htrace : client_trace (fuel + 1) init c) :
    (dl_owners c).Perm (List.range n) ∧
    (∀ x, c.dlm.free.count x + c.dlm.active.toList.count x + c.dlm.queued.toList.count x +
      c.dlm.pending.toList.count x + c.held.count x = if x < n then 1 else 0) ∧
    (∀ x ∈ c.dlm.free, (c.dlm.lists x).body0.num_entries = 0) ∧
    (∀ dl ∈ c.held, ∀ lif_index mmio,
      ∃ d, vsp1_dl_list_commit (fuel + 1) (set_mmio c.dlm mmio) dl lif_index = some d) ∧
    (∀ dl ∈ c.held, ∀ mmio,
      ∃ d, vsp1_dl_list_put (fuel + 1) (set_mmio c.dlm mmio) (some dl) = some d) ∧
    (∀ mmio, ∃ d, vsp1_dlm_irq_display_start (fuel + 1) (set_mmio c.dlm mmio) = some d) ∧
    (∀ interlaced mmio, ∃ r d,
      vsp1_dlm_irq_frame_end (fuel + 1) (set_mmio c.dlm mmio) interlaced = some (r, d)) ∧
    (∀ mmio, ∃ d, vsp1_dlm_reset (fuel + 1) (set_mmio c.dlm mmio) = some d) := by
  have hi := client_trace_inv vsp1 index n alloc init hcreate hmode fuel c htrace
  refine ⟨hi.perm, owners_count hi, hi.free_zero, ?_, ?_, ?_, ?_, ?_⟩
  · intro dl hdl lif_index mmio
    obtain ⟨e, he, _⟩ := own_step_commit fuel hi dl lif_index mmio hdl
    exact ⟨e, he⟩
  · intro dl hdl mmio
    obtain ⟨e, he, _⟩ := own_step_put fuel hi dl mmio hdl
    exact ⟨e, he⟩
  · intro mmio
    obtain ⟨e, he, _⟩ := own_step_display_start fuel hi mmio
    exact ⟨e, he⟩
  · intro interlaced mmio
    obtain ⟨r, e, he, _⟩ := own_step_frame_end fuel hi interlaced mmio
    exact ⟨r, e, he⟩
  · intro mmio
    obtain ⟨e, he, _⟩ := own_step_reset fuel hi mmio
    exact ⟨e, he⟩

theorem ex_headerless_client_trace :
    client_trace 1 ex_headerless_0 { dlm := ex_headerless_3, held := [] } := by
  have h1 : client_trace 1 ex_headerless_0 { dlm := ex_headerless_1, held := [0] } :=
    client_trace.get_some { dlm := ex_headerless_0, held := [] } 0 ex_headerless_1
      client_trace.start rfl
  have h2 : client_trace 1 ex_headerless_0 { dlm := ex_headerless_2, held := [] } :=
    client_trace.commit { dlm := ex_headerless_1, held := [0] } 0 0 ex_mmio_idle
      ex_headerless_2 h1 (List.mem_singleton.2 rfl) (Option.some_get _).symm
  exact client_trace.frame_end { dlm := ex_headerless_2, held := [] } false ex_mmio_idle true
    ex_headerless_3 h2 rfl

/-- Witness of C25 (amended): the headerless example with four lists after
list 0 was obtained, committed and made active by a frame end: lists 1, 2, 3
are in the pool and list 0 is active. -/
theorem headerless_ownership_witness :
    vsp1_dlm_create (ex_device false) 0 4 ex_alloc = some ex_headerless_0 ∧
    ex_headerless_0.mode = vsp1_dl_mode.VSP1_DL_MODE_HEADERLESS ∧
    client_trace 1 ex_headerless_0 { dlm := ex_headerless_3, held := [] } ∧
    (dl_owners { dlm := ex_headerless_3, held := [] }).Perm (List.range 4) ∧
    dl_owners { dlm := ex_headerless_3, held := [] } = [1, 2, 3, 0] := by
  have hc : vsp1_dlm_create (ex_device false) 0 4 ex_alloc = some ex_headerless_0 :=
    (Option.some_get _).symm
  have h := headerless_ownership (ex_device false) 0 4 ex_alloc ex_headerless_0 hc rfl 0
    { dlm := ex_headerless_3, held := [] } ex_headerless_client_trace
  exact ⟨hc, rfl, ex_headerless_client_trace, h.1, by decide⟩

/-- Counterexample to C25 as stated: the caller obtains list 0 of the fresh
headerless example, releases it (it holds it) and then writes one entry to it.
Commit and release were applied to held lists only, yet list 0 is in the free
pool with entry count 1. -/
theorem write_released_list_keeps_count :
    vsp1_dl_list_get ex_headerless_0 = (some 0, ex_headerless_1) ∧
    vsp1_dl_list_put 1 ex_headerless_1 (some 0) = some ex_headerless_1p ∧
    ex_headerless_1p.free = [1, 2, 3, 0] ∧
    (ex_headerless_1p.lists 0).body0.num_entries = 0 ∧
    (vsp1_dl_list_write ex_headerless_1p 0 0x1000 7).free = [1, 2, 3, 0] ∧
    ((vsp1_dl_list_write ex_headerless_1p 0 0x1000 7).lists 0).body0.num_entries = 1 := by
  refine ⟨rfl, (Option.some_get _).symm, by decide, by decide, by decide, by decide⟩

/-! ## The return value of the frame end handler in header mode -/

/-- C8 (amended): in header mode the frame end handler returns for every manager
state, every hardware status value and both values of the interlaced argument,
and the value it returns is true exactly when `VI6_CMD_UPDHDR` is clear, the
field status bit matches in case the output is interlaced, and a list is
queued; in every other case it returns false. -/
theorem frame_end_header_result (fuel : Nat) (dlm : vsp1_dl_manager) (interlaced : Bool)
    (hmode : dlm.mode = vsp1_dl_mode.VSP1_DL_MODE_HEADER) :
    ∃ r d, vsp1_dlm_irq_frame_end fuel dlm interlaced = some (r, d) ∧
      (r = true ↔
        (vsp1_read dlm.vsp1 (dlm.vsp1.regs.VI6_CMD dlm.index) &&&
            dlm.vsp1.regs.VI6_CMD_UPDHDR = 0 ∧
          (interlaced = true →
            vsp1_read dlm.vsp1 dlm.vsp1.regs.VI6_STATUS &&&
              dlm.vsp1.regs.VI6_STATUS_FLD_STD dlm.index =
                dlm.vsp1.regs.VI6_STATUS_FLD_STD dlm.index) ∧
          ∃ q, dlm.queued = some q)) := by
  by_cases h1 : vsp1_read dlm.vsp1 (dlm.vsp1.regs.VI6_CMD dlm.index) &&&
      dlm.vsp1.regs.VI6_CMD_UPDHDR = 0
  · by_cases h2 : interlaced = true ∧
        vsp1_read dlm.vsp1 dlm.vsp1.regs.VI6_STATUS &&&
          dlm.vsp1.regs.VI6_STATUS_FLD_STD dlm.index ≠
            dlm.vsp1.regs.VI6_STATUS_FLD_STD dlm.index
    · refine ⟨false, { dlm with active := none }, ?_, ?_⟩
      · simp [vsp1_dlm_irq_frame_end, hmode, h1, h2.1, h2.2]
      · constructor
        · intro h
          cases h
        · rintro ⟨_, h, _⟩
          exact absurd (h h2.1) h2.2
    · have h3 : interlaced = true →
          vsp1_read dlm.vsp1 dlm.vsp1.regs.VI6_STATUS &&&
            dlm.vsp1.regs.VI6_STATUS_FLD_STD dlm.index =
              dlm.vsp1.regs.VI6_STATUS_FLD_STD dlm.index := by
        intro hi
        by_contra hne
        exact h2 ⟨hi, hne⟩
      cases hq : dlm.queued with
      | none =>
        refine ⟨false, { dlm with active := none }, ?_, ?_⟩
        · cases interlaced with
          | false => simp [vsp1_dlm_irq_frame_end, hmode, h1, hq]
          | true => simp [vsp1_dlm_irq_frame_end, hmode, h1, hq, h3 rfl]
        · constructor
          · intro h
            cases h
          · rintro ⟨_, _, q, hq2⟩
            cases hq2
      | some q =>
        refine ⟨true, { dlm with active := some q, queued := none }, ?_, ?_⟩
        · cases interlaced with
          | false => simp [vsp1_dlm_irq_frame_end, hmode, h1, hq]
          | true => simp [vsp1_dlm_irq_frame_end, hmode, h1, hq, h3 rfl]
        · exact ⟨fun _ => ⟨h1, h3, q, rfl⟩, fun _ => rfl⟩
  · refine ⟨false, { dlm with active := none }, ?_, ?_⟩
    · simp [vsp1_dlm_irq_frame_end, hmode, h1]
    · constructor
      · intro h
        cases h
      · rintro ⟨h, _⟩
        exact absurd h h1

/-- Witness of C8 (amended): in header mode, after list 0 was committed and with
all status bits clear, the frame end handler returns true. -/
theorem frame_end_header_result_witness :
    (set_mmio ex_header_2 ex_mmio_idle).mode = vsp1_dl_mode.VSP1_DL_MODE_HEADER ∧
    (set_mmio ex_header_2 ex_mmio_idle).queued = some 0 ∧
    (vsp1_dlm_irq_frame_end 1 (set_mmio ex_header_2 ex_mmio_idle) false).map
      (fun r => r.1) = some true := by
  refine ⟨rfl, rfl, ?_⟩
  obtain ⟨r, d, h, hr⟩ :=
    frame_end_header_result 1 (set_mmio ex_header_2 ex_mmio_idle) false rfl
  rw [h]
  exact congrArg some (hr.2 ⟨Nat.zero_and _, fun hi => Bool.noConfusion hi, 0, rfl⟩)

end Vsp1
